import Mathlib

/-!
# WebkitFileStreamWriterImpl: deferred-materialization stream writer

Shallow embedding of `chromeos/drive/webkit_file_stream_writer_impl.cc`.

* Callbacks are identified by a number; a possibly-null callback member is an
  `Option`. A callback argument of `Write`/`Cancel`/`Flush` is non-null
  (`DCHECK(!callback.is_null())`), which is the argument type here.
* Everything the writer does to the outside world (posting a request to the
  file system, building or dropping the local writer, delegating to it, running
  a callback) is recorded, in program order, as a list of `Effect`s.
* `DCHECK`s are compiled out of the method bodies (release semantics) and are
  given separately as Boolean predicates.
* `fileapi::LocalFileStreamWriter`, `net::PlatformFileErrorToNetError` and the
  file system are collaborators that live outside the file; they are parameters.
-/

namespace drive

/-- Identity of a non-null `net::CompletionCallback`. -/
abbrev CompletionCallback := Nat

/-- Contents of a `net::IOBuffer`. -/
abbrev IOBuffer := List Nat

/-- Path type `base::FilePath`; `empty()` is the empty string. -/
abbrev FilePath := String

/-- Value `net::OK` of net/base/net_error_list.h. -/
def OK : Int := 0
/-- Value `net::ERR_IO_PENDING` of net/base/net_error_list.h. -/
def ERR_IO_PENDING : Int := -1
/-- Value `net::ERR_FILE_NOT_FOUND` of net/base/net_error_list.h. -/
def ERR_FILE_NOT_FOUND : Int := -6
/-- Value `net::ERR_UNEXPECTED` of net/base/net_error_list.h. -/
def ERR_UNEXPECTED : Int := -9
/-- Value `base::PLATFORM_FILE_OK` of base/platform_file.h. -/
def PLATFORM_FILE_OK : Int := 0

/-- Interface of `fileapi::LocalFileStreamWriter` as the writer uses it: the
constructor `(local_path, offset)` and the three stream operations, each
returning its `int` result together with the delegate's next state. -/
structure LocalFileStreamWriter (L : Type) where
  create : FilePath → Int → L
  Write : L → IOBuffer → Int → CompletionCallback → Int × L
  Cancel : L → CompletionCallback → Int × L
  Flush : L → CompletionCallback → Int × L

/-- Collaborators of the writer that are not part of the file. -/
structure Env (L : Type) where
  local_writer : LocalFileStreamWriter L
  PlatformFileErrorToNetError : Int → Int

/-- Externally visible actions of the writer, in program order. -/
inductive Effect where
  /-- The file-local `CreateWritableSnapshotFile(getter, drive_path, callback)`:
  a snapshot request, whose callback is bound to `buf` and `buf_len`. -/
  | CreateWritableSnapshotFile (drive_path : FilePath) (buf : IOBuffer) (buf_len : Int)
  /-- The file-local `CloseFile(getter, drive_path)`: a release request. -/
  | CloseFile (drive_path : FilePath)
  /-- Effect of `new fileapi::LocalFileStreamWriter(runner, local_path, offset)`. -/
  | NewLocalFileStreamWriter (local_path : FilePath) (offset : Int)
  /-- Effect of `local_file_writer_.reset()`. -/
  | ResetLocalFileWriter
  /-- Effect of `local_file_writer_->Write(buf, buf_len, callback)`. -/
  | LocalWrite (buf : IOBuffer) (buf_len : Int) (callback : CompletionCallback)
  /-- Effect of `local_file_writer_->Cancel(callback)`. -/
  | LocalCancel (callback : CompletionCallback)
  /-- Effect of `local_file_writer_->Flush(callback)`. -/
  | LocalFlush (callback : CompletionCallback)
  /-- Effect of `callback.Run(result)`. -/
  | Run (callback : CompletionCallback) (result : Int)
  deriving DecidableEq, Repr

/-- Data members of `WebkitFileStreamWriterImpl`. The handles on the file
system getter, the task runner and the weak pointer factory carry no data that
the methods branch on; the weak pointer is the `writer` field of `System`. -/
structure WebkitFileStreamWriterImpl (L : Type) where
  file_path_ : FilePath
  offset_ : Int
  local_file_writer_ : Option L
  pending_write_callback_ : Option CompletionCallback
  pending_cancel_callback_ : Option CompletionCallback

namespace WebkitFileStreamWriterImpl

variable {L : Type}

/-- Constructor (lines 61-71): no local writer, both pending callbacks null. -/
def create (file_path : FilePath) (offset : Int) : WebkitFileStreamWriterImpl L :=
  { file_path_ := file_path
    offset_ := offset
    local_file_writer_ := none
    pending_write_callback_ := none
    pending_cancel_callback_ := none }

/-- Destructor (lines 73-80): the effects of destroying the writer. -/
def destructor (w : WebkitFileStreamWriterImpl L) : List Effect :=
  match w.local_file_writer_ with
  | some _ => [Effect.ResetLocalFileWriter, Effect.CloseFile w.file_path_]
  | none => []

/-- The two state `DCHECK`s at the head of `Write` (lines 85-86). -/
def Write_DCHECK (w : WebkitFileStreamWriterImpl L) : Bool :=
  w.pending_write_callback_.isNone && w.pending_cancel_callback_.isNone

/-- Method `Write` (lines 82-104): result, next state, effects. -/
def Write (lw : LocalFileStreamWriter L) (w : WebkitFileStreamWriterImpl L)
    (buf : IOBuffer) (buf_len : Int) (callback : CompletionCallback) :
    Int × WebkitFileStreamWriterImpl L × List Effect :=
  match w.local_file_writer_ with
  | some l =>
    let r := lw.Write l buf buf_len callback
    (r.1, { w with local_file_writer_ := some r.2 }, [Effect.LocalWrite buf buf_len callback])
  | none =>
    if w.file_path_ = "" then
      (ERR_FILE_NOT_FOUND, w, [])
    else
      (ERR_IO_PENDING, { w with pending_write_callback_ := some callback },
        [Effect.CreateWritableSnapshotFile w.file_path_ buf buf_len])

/-- The state `DCHECK` at the head of `Cancel` (line 108). -/
def Cancel_DCHECK (w : WebkitFileStreamWriterImpl L) : Bool :=
  w.pending_cancel_callback_.isNone

/-- Method `Cancel` (lines 106-126): result, next state, effects. -/
def Cancel (lw : LocalFileStreamWriter L) (w : WebkitFileStreamWriterImpl L)
    (callback : CompletionCallback) :
    Int × WebkitFileStreamWriterImpl L × List Effect :=
  match w.local_file_writer_ with
  | some l =>
    let r := lw.Cancel l callback
    (r.1, { w with local_file_writer_ := some r.2 }, [Effect.LocalCancel callback])
  | none =>
    match w.pending_write_callback_ with
    | some _ =>
      (ERR_IO_PENDING,
        { w with pending_write_callback_ := none, pending_cancel_callback_ := some callback },
        [])
    | none => (ERR_UNEXPECTED, w, [])

/-- The state `DCHECK`s of `Flush` (lines 129 and 137; the second is only
reached without a local writer). -/
def Flush_DCHECK (w : WebkitFileStreamWriterImpl L) : Bool :=
  w.pending_cancel_callback_.isNone &&
    (w.local_file_writer_.isSome || w.pending_write_callback_.isNone)

/-- Method `Flush` (lines 128-143): result, next state, effects. -/
def Flush (lw : LocalFileStreamWriter L) (w : WebkitFileStreamWriterImpl L)
    (callback : CompletionCallback) :
    Int × WebkitFileStreamWriterImpl L × List Effect :=
  match w.local_file_writer_ with
  | some l =>
    let r := lw.Flush l callback
    (r.1, { w with local_file_writer_ := some r.2 }, [Effect.LocalFlush callback])
  | none => (OK, w, [])

/-- The `DCHECK`s of `WriteAfterCreateWritableSnapshotFile` on the writer state
(lines 150, 153, 167): no local writer, and exactly one pending callback. The
remaining `DCHECK` of the method, line 159, is on the arguments and is
`WriteAfterCreateWritableSnapshotFile_DCHECK_local_path`. -/
def WriteAfterCreateWritableSnapshotFile_DCHECK (w : WebkitFileStreamWriterImpl L) : Bool :=
  w.local_file_writer_.isNone &&
    (match w.pending_cancel_callback_ with
      | some _ => w.pending_write_callback_.isNone
      | none => w.pending_write_callback_.isSome)

/-- The `DCHECK` of line 159 of `WriteAfterCreateWritableSnapshotFile`,
`DCHECK(!local_path.empty())`. It is reached only in the cancel branch
(line 152) and there only when the snapshot was opened (line 158); the write
branch (lines 167-180) has no such `DCHECK`. -/
def WriteAfterCreateWritableSnapshotFile_DCHECK_local_path
    (w : WebkitFileStreamWriterImpl L) (open_result : Int) (local_path : FilePath) : Bool :=
  match w.pending_cancel_callback_ with
  | some _ => if open_result = PLATFORM_FILE_OK then decide (local_path ≠ "") else true
  | none => true

/-- Method `WriteAfterCreateWritableSnapshotFile` (lines 145-181), the handler
of a snapshot resolution: next state and effects. With both pending callbacks
null (the `DCHECK` of line 167 fails) the callback taken at lines 169-170 is
null; running it, or handing it to the local writer, has no defined behaviour,
and the result is `none`. -/
def WriteAfterCreateWritableSnapshotFile (env : Env L) (w : WebkitFileStreamWriterImpl L)
    (buf : IOBuffer) (buf_len : Int) (open_result : Int) (local_path : FilePath) :
    Option (WebkitFileStreamWriterImpl L × List Effect) :=
  match w.pending_cancel_callback_ with
  | some cancel_callback =>
    some ({ w with pending_cancel_callback_ := none },
      (if open_result = PLATFORM_FILE_OK then [Effect.CloseFile w.file_path_] else [])
        ++ [Effect.Run cancel_callback OK])
  | none =>
    match w.pending_write_callback_ with
    | none => none
    | some callback =>
      if open_result ≠ PLATFORM_FILE_OK then
        some ({ w with pending_write_callback_ := none },
          [Effect.Run callback (env.PlatformFileErrorToNetError open_result)])
      else
        let r := env.local_writer.Write (env.local_writer.create local_path w.offset_)
          buf buf_len callback
        some ({ w with pending_write_callback_ := none, local_file_writer_ := some r.2 },
          [Effect.NewLocalFileStreamWriter local_path w.offset_,
            Effect.LocalWrite buf buf_len callback]
            ++ (if r.1 ≠ ERR_IO_PENDING then [Effect.Run callback r.1] else []))

/-- Name `Empty` for the members as the constructor leaves them: no local
writer, no pending callback. -/
def Empty (w : WebkitFileStreamWriterImpl L) : Prop :=
  w.local_file_writer_ = none ∧ w.pending_write_callback_ = none ∧
    w.pending_cancel_callback_ = none

/-- Name `Materializing` for the members as `Write` leaves them at line 97: a
write callback is pending, nothing else is set. -/
def Materializing (w : WebkitFileStreamWriterImpl L) (callback : CompletionCallback) : Prop :=
  w.local_file_writer_ = none ∧ w.pending_write_callback_ = some callback ∧
    w.pending_cancel_callback_ = none

/-- Name `CancelledWhileMaterializing` for the members as `Cancel` leaves them
at lines 119-120: a cancel callback is pending, nothing else is set. -/
def CancelledWhileMaterializing (w : WebkitFileStreamWriterImpl L)
    (callback : CompletionCallback) : Prop :=
  w.local_file_writer_ = none ∧ w.pending_write_callback_ = none ∧
    w.pending_cancel_callback_ = some callback

/-- Name `Ready` for the members once line 176 has run: the local writer `l`
exists, no callback is pending. -/
def Ready (w : WebkitFileStreamWriterImpl L) (l : L) : Prop :=
  w.local_file_writer_ = some l ∧ w.pending_write_callback_ = none ∧
    w.pending_cancel_callback_ = none

end WebkitFileStreamWriterImpl

/-! ## The stream-writer interface, for comparing the writer with its delegate -/

/-- An operation of the stream-writer interface with its arguments. -/
inductive StreamOp where
  | Write (buf : IOBuffer) (buf_len : Int) (callback : CompletionCallback)
  | Cancel (callback : CompletionCallback)
  | Flush (callback : CompletionCallback)
  deriving DecidableEq, Repr

/-- The effect that records the delegation of an operation. -/
def StreamOp.delegation : StreamOp → Effect
  | StreamOp.Write buf buf_len callback => Effect.LocalWrite buf buf_len callback
  | StreamOp.Cancel callback => Effect.LocalCancel callback
  | StreamOp.Flush callback => Effect.LocalFlush callback

/-- An operation applied to the local writer itself. -/
def LocalFileStreamWriter.apply {L : Type} (lw : LocalFileStreamWriter L) (l : L) :
    StreamOp → Int × L
  | StreamOp.Write buf buf_len callback => lw.Write l buf buf_len callback
  | StreamOp.Cancel callback => lw.Cancel l callback
  | StreamOp.Flush callback => lw.Flush l callback

/-- A sequence of operations applied to the local writer itself: the results
in order and the final state. -/
def LocalFileStreamWriter.applyAll {L : Type} (lw : LocalFileStreamWriter L) :
    L → List StreamOp → List Int × L
  | l, [] => ([], l)
  | l, op :: ops =>
    let r := lw.apply l op
    let rest := lw.applyAll r.2 ops
    (r.1 :: rest.1, rest.2)

/-- An operation applied to the writer. -/
def WebkitFileStreamWriterImpl.apply {L : Type} (lw : LocalFileStreamWriter L)
    (w : WebkitFileStreamWriterImpl L) :
    StreamOp → Int × WebkitFileStreamWriterImpl L × List Effect
  | StreamOp.Write buf buf_len callback => w.Write lw buf buf_len callback
  | StreamOp.Cancel callback => w.Cancel lw callback
  | StreamOp.Flush callback => w.Flush lw callback

/-- A sequence of operations applied to the writer: the results in order, the
final state and all effects. -/
def WebkitFileStreamWriterImpl.applyAll {L : Type} (lw : LocalFileStreamWriter L) :
    WebkitFileStreamWriterImpl L → List StreamOp →
      List Int × WebkitFileStreamWriterImpl L × List Effect
  | w, [] => ([], w, [])
  | w, op :: ops =>
    let r := w.apply lw op
    let rest := WebkitFileStreamWriterImpl.applyAll lw r.2.1 ops
    (r.1 :: rest.1, rest.2.1, r.2.2 ++ rest.2.2)

/-! ## The writer together with the file system: traces -/

/-- What can happen to a writer: the three public methods, the resolution of
the oldest outstanding snapshot request with `(open_result, local_path)`, and
destruction. -/
inductive Call where
  | Write (buf : IOBuffer) (buf_len : Int) (callback : CompletionCallback)
  | Cancel (callback : CompletionCallback)
  | Flush (callback : CompletionCallback)
  | Resolve (open_result : Int) (local_path : FilePath)
  | Destroy
  deriving DecidableEq, Repr

/-- Whether a call is a resolution. -/
def Call.isResolve : Call → Bool
  | Call.Resolve _ _ => true
  | _ => false

/-- A writer and its surroundings: the object (`none` once destroyed, which is
what the weak pointer bound at line 102 observes), the snapshot requests posted
and not yet resolved (each with the `buf`, `buf_len` bound into its callback),
and every effect so far. -/
structure System (L : Type) where
  writer : Option (WebkitFileStreamWriterImpl L)
  in_flight : List (IOBuffer × Int)
  log : List Effect

/-- The snapshot requests among some effects, as entries for `in_flight`. -/
def requestsOf : List Effect → List (IOBuffer × Int)
  | [] => []
  | Effect.CreateWritableSnapshotFile _ buf buf_len :: es => (buf, buf_len) :: requestsOf es
  | _ :: es => requestsOf es

/-- The callback invocations among some effects, in order. -/
def runsOf : List Effect → List (CompletionCallback × Int)
  | [] => []
  | Effect.Run callback result :: es => (callback, result) :: runsOf es
  | _ :: es => runsOf es

/-- The release requests among some effects, in order (their paths). -/
def releasesOf : List Effect → List FilePath
  | [] => []
  | Effect.CloseFile drive_path :: es => drive_path :: releasesOf es
  | _ :: es => releasesOf es

/-- The snapshot requests among some effects, in order (their paths). -/
def snapshotRequestsOf : List Effect → List FilePath
  | [] => []
  | Effect.CreateWritableSnapshotFile drive_path _ _ :: es => drive_path :: snapshotRequestsOf es
  | _ :: es => snapshotRequestsOf es

/-- The delegated writes among some effects, in order. -/
def localWritesOf : List Effect → List (IOBuffer × Int × CompletionCallback)
  | [] => []
  | Effect.LocalWrite buf buf_len callback :: es => (buf, buf_len, callback) :: localWritesOf es
  | _ :: es => localWritesOf es

/-- The local writers constructed among some effects, in order. -/
def constructionsOf : List Effect → List (FilePath × Int)
  | [] => []
  | Effect.NewLocalFileStreamWriter local_path offset :: es =>
    (local_path, offset) :: constructionsOf es
  | _ :: es => constructionsOf es

namespace System

variable {L : Type}

/-- A freshly constructed writer, nothing requested, nothing logged. -/
def init (file_path : FilePath) (offset : Int) : System L :=
  { writer := some (WebkitFileStreamWriterImpl.create file_path offset)
    in_flight := []
    log := [] }

/-- Append the outcome of a method call on the live writer. -/
def record (s : System L) (w : WebkitFileStreamWriterImpl L) (effects : List Effect) :
    System L :=
  { writer := some w
    in_flight := s.in_flight ++ requestsOf effects
    log := s.log ++ effects }

/-- One step. `none` where the program has no defined behaviour: a method call
on a destroyed writer, a resolution nobody asked for, or a handler that would
run a null callback. A resolution that arrives after destruction finds the weak
pointer invalidated and does not run the handler. -/
def step (env : Env L) (s : System L) : Call → Option (System L)
  | Call.Write buf buf_len callback =>
    match s.writer with
    | none => none
    | some w =>
      let r := WebkitFileStreamWriterImpl.Write env.local_writer w buf buf_len callback
      some (s.record r.2.1 r.2.2)
  | Call.Cancel callback =>
    match s.writer with
    | none => none
    | some w =>
      let r := WebkitFileStreamWriterImpl.Cancel env.local_writer w callback
      some (s.record r.2.1 r.2.2)
  | Call.Flush callback =>
    match s.writer with
    | none => none
    | some w =>
      let r := WebkitFileStreamWriterImpl.Flush env.local_writer w callback
      some (s.record r.2.1 r.2.2)
  | Call.Resolve open_result local_path =>
    match s.in_flight with
    | [] => none
    | (buf, buf_len) :: rest =>
      match s.writer with
      | none => some { s with in_flight := rest }
      | some w =>
        match WebkitFileStreamWriterImpl.WriteAfterCreateWritableSnapshotFile env w
            buf buf_len open_result local_path with
        | none => none
        | some r => some { writer := some r.1, in_flight := rest, log := s.log ++ r.2 }
  | Call.Destroy =>
    match s.writer with
    | none => none
    | some w =>
      some { writer := none, in_flight := s.in_flight,
             log := s.log ++ WebkitFileStreamWriterImpl.destructor w }

/-- The value a method call returns to its caller (`none` for a resolution, for
destruction, and on a destroyed writer). -/
def returned (env : Env L) (s : System L) : Call → Option Int
  | Call.Write buf buf_len callback =>
    s.writer.map fun w =>
      (WebkitFileStreamWriterImpl.Write env.local_writer w buf buf_len callback).1
  | Call.Cancel callback =>
    s.writer.map fun w => (WebkitFileStreamWriterImpl.Cancel env.local_writer w callback).1
  | Call.Flush callback =>
    s.writer.map fun w => (WebkitFileStreamWriterImpl.Flush env.local_writer w callback).1
  | Call.Resolve _ _ => none
  | Call.Destroy => none

/-- The caller contract: `Write` only while no write or cancel callback is
pending (lines 85-86), `Cancel` only while no cancel callback is pending
(line 108), a resolution only for a request that is outstanding, destruction
only while no request is outstanding, and nothing on a destroyed writer. -/
def Permitted (s : System L) : Call → Bool
  | Call.Write _ _ _ =>
    match s.writer with
    | none => false
    | some w => w.Write_DCHECK
  | Call.Cancel _ =>
    match s.writer with
    | none => false
    | some w => w.Cancel_DCHECK
  | Call.Flush _ => s.writer.isSome
  | Call.Resolve _ _ => !s.in_flight.isEmpty
  | Call.Destroy => s.writer.isSome && s.in_flight.isEmpty

/-- Run a trace under the caller contract: `none` as soon as a call is not
permitted or has no defined behaviour. -/
def exec (env : Env L) : System L → List Call → Option (System L)
  | s, [] => some s
  | s, c :: cs =>
    if s.Permitted c then
      match s.step env c with
      | none => none
      | some s' => exec env s' cs
    else none

/-- Number of snapshots the live writer holds through its local writer. -/
def held (s : System L) : Nat :=
  match s.writer with
  | some w => if w.local_file_writer_.isSome then 1 else 0
  | none => 0

/-- Shape of the states reached under the caller contract: a local writer
excludes pending callbacks, the two pending callbacks exclude each other, and a
snapshot request is outstanding exactly when one of them is set (then there is
exactly one); a destroyed writer has no request outstanding. -/
def WellFormed (s : System L) : Prop :=
  match s.writer with
  | none => s.in_flight = []
  | some w =>
    (w.local_file_writer_.isSome = true →
      w.pending_write_callback_ = none ∧ w.pending_cancel_callback_ = none) ∧
    (w.pending_write_callback_ = none ∨ w.pending_cancel_callback_ = none) ∧
    s.in_flight.length =
      (if w.pending_write_callback_.isSome || w.pending_cancel_callback_.isSome then 1 else 0)

/-- The live writer, if any, is for `file_path`. -/
def ForPath (s : System L) (file_path : FilePath) : Prop :=
  ∀ w, s.writer = some w → w.file_path_ = file_path

end System

/-- The resolutions in a trace that carry `PLATFORM_FILE_OK` (their local
paths). -/
def successesOf : List Call → List FilePath
  | [] => []
  | Call.Resolve open_result local_path :: cs =>
    if open_result = PLATFORM_FILE_OK then local_path :: successesOf cs else successesOf cs
  | _ :: cs => successesOf cs

/-! ## Concrete collaborators, used to run the definitions -/

/-- A local writer that completes every operation synchronously: `Write`
returns `buf_len`, `Cancel` and `Flush` return `OK`; its state counts the
bytes written from `offset`. -/
def syncLocalWriter : LocalFileStreamWriter Int where
  create := fun _ offset => offset
  Write := fun l _ buf_len _ => (buf_len, l + buf_len)
  Cancel := fun l _ => (OK, l)
  Flush := fun l _ => (OK, l)

/-- A local writer that answers every operation with `ERR_IO_PENDING`. -/
def asyncLocalWriter : LocalFileStreamWriter Int where
  create := fun _ offset => offset
  Write := fun l _ buf_len _ => (ERR_IO_PENDING, l + buf_len)
  Cancel := fun l _ => (ERR_IO_PENDING, l)
  Flush := fun l _ => (ERR_IO_PENDING, l)

/-- Environment with the synchronous local writer; platform errors map to
themselves. -/
def syncEnv : Env Int :=
  { local_writer := syncLocalWriter, PlatformFileErrorToNetError := fun e => e }

/-- Environment with the asynchronous local writer. -/
def asyncEnv : Env Int :=
  { local_writer := asyncLocalWriter, PlatformFileErrorToNetError := fun e => e }

/-! ## The public methods with `DCHECK`s enabled -/

namespace WebkitFileStreamWriterImpl

variable {L : Type}

/-- Method `Write` in a build where `DCHECK` is active: a failing `DCHECK`
(lines 85-86) aborts the process, which is `none`. -/
def Write_DCHECK_on (lw : LocalFileStreamWriter L) (w : WebkitFileStreamWriterImpl L)
    (buf : IOBuffer) (buf_len : Int) (callback : CompletionCallback) :
    Option (Int × WebkitFileStreamWriterImpl L × List Effect) :=
  if w.Write_DCHECK then some (Write lw w buf buf_len callback) else none

/-- Method `Cancel` in a build where `DCHECK` is active: a failing `DCHECK`
(line 108) aborts the process, which is `none`. -/
def Cancel_DCHECK_on (lw : LocalFileStreamWriter L) (w : WebkitFileStreamWriterImpl L)
    (callback : CompletionCallback) :
    Option (Int × WebkitFileStreamWriterImpl L × List Effect) :=
  if w.Cancel_DCHECK then some (Cancel lw w callback) else none

/-- Method `Flush` in a build where `DCHECK` is active: a failing `DCHECK`
(lines 129, 137) aborts the process, which is `none`. -/
def Flush_DCHECK_on (lw : LocalFileStreamWriter L) (w : WebkitFileStreamWriterImpl L)
    (callback : CompletionCallback) :
    Option (Int × WebkitFileStreamWriterImpl L × List Effect) :=
  if w.Flush_DCHECK then some (Flush lw w callback) else none

/-- Method `WriteAfterCreateWritableSnapshotFile` in a build where `DCHECK` is
active: a failing `DCHECK` (lines 150, 153, 159, 167) aborts the process, which
is `none`. -/
def WriteAfterCreateWritableSnapshotFile_DCHECK_on (env : Env L)
    (w : WebkitFileStreamWriterImpl L)
    (buf : IOBuffer) (buf_len : Int) (open_result : Int) (local_path : FilePath) :
    Option (WebkitFileStreamWriterImpl L × List Effect) :=
  if w.WriteAfterCreateWritableSnapshotFile_DCHECK &&
      w.WriteAfterCreateWritableSnapshotFile_DCHECK_local_path open_result local_path then
    WriteAfterCreateWritableSnapshotFile env w buf buf_len open_result local_path
  else none

end WebkitFileStreamWriterImpl

/-! ## Ownership of the local writer along an effect log -/

/-- Whether the local writer is held after some effects, given whether it was
held before: construction takes it, `reset()` drops it. -/
def heldAfter : Bool → List Effect → Bool
  | held, [] => held
  | _, Effect.NewLocalFileStreamWriter _ _ :: es => heldAfter true es
  | _, Effect.ResetLocalFileWriter :: es => heldAfter false es
  | held, _ :: es => heldAfter held es

/-- Whether some release request in the effects is sent while the local writer
is held, given whether it was held before. -/
def releasedWhileHeld : Bool → List Effect → Bool
  | _, [] => false
  | held, Effect.CloseFile _ :: es => held || releasedWhileHeld held es
  | _, Effect.NewLocalFileStreamWriter _ _ :: es => releasedWhileHeld true es
  | _, Effect.ResetLocalFileWriter :: es => releasedWhileHeld false es
  | held, _ :: es => releasedWhileHeld held es

/-! ## Who completes a callback -/

/-- Number of times the writer itself runs `callback` among some effects. -/
def runCount (callback : CompletionCallback) (effects : List Effect) : Nat :=
  ((runsOf effects).map Prod.fst).count callback

/-- Number of delegations to the local writer (`Write`, `Cancel` or `Flush`,
lines 91, 113, 134, 178) among some effects that carry `callback`. -/
def delegatedCount (callback : CompletionCallback) : List Effect → Nat
  | [] => 0
  | Effect.LocalWrite _ _ cb :: es =>
    (if cb = callback then 1 else 0) + delegatedCount callback es
  | Effect.LocalCancel cb :: es =>
    (if cb = callback then 1 else 0) + delegatedCount callback es
  | Effect.LocalFlush cb :: es =>
    (if cb = callback then 1 else 0) + delegatedCount callback es
  | _ :: es => delegatedCount callback es

/-- The callbacks passed to the public methods along a trace, in order. -/
def callbacksOf : List Call → List CompletionCallback
  | [] => []
  | Call.Write _ _ callback :: cs => callback :: callbacksOf cs
  | Call.Cancel callback :: cs => callback :: callbacksOf cs
  | Call.Flush callback :: cs => callback :: callbacksOf cs
  | _ :: cs => callbacksOf cs

/-- The callback of a stream operation. -/
def StreamOp.callback : StreamOp → CompletionCallback
  | StreamOp.Write _ _ callback => callback
  | StreamOp.Cancel callback => callback
  | StreamOp.Flush callback => callback

namespace WebkitFileStreamWriterImpl

variable {L : Type}

/-- The callback a public method leaves with the local writer to complete: the
one it delegates (lines 91, 113, 134) when the local writer answers
`ERR_IO_PENDING`. Without a local writer nothing is delegated. -/
def handedOver (lw : LocalFileStreamWriter L) (w : WebkitFileStreamWriterImpl L)
    (op : StreamOp) : List CompletionCallback :=
  match w.local_file_writer_ with
  | some l => if (lw.apply l op).1 = ERR_IO_PENDING then [op.callback] else []
  | none => []

/-- The callback the resolution handler leaves with the local writer to
complete: the pending write callback, when the snapshot was created, no cancel
is pending, and the delegated write of line 178 answers `ERR_IO_PENDING` (so
that line 180 does not run it). -/
def handedOverAfterCreate (env : Env L) (w : WebkitFileStreamWriterImpl L)
    (buf : IOBuffer) (buf_len : Int) (open_result : Int) (local_path : FilePath) :
    List CompletionCallback :=
  match w.pending_cancel_callback_ with
  | some _ => []
  | none =>
    match w.pending_write_callback_ with
    | none => []
    | some callback =>
      if open_result = PLATFORM_FILE_OK ∧
          (env.local_writer.Write (env.local_writer.create local_path w.offset_)
            buf buf_len callback).1 = ERR_IO_PENDING
      then [callback] else []

end WebkitFileStreamWriterImpl

namespace System

variable {L : Type}

/-- The callbacks one step leaves with the local writer to complete. -/
def handedOver (env : Env L) (s : System L) : Call → List CompletionCallback
  | Call.Write buf buf_len callback =>
    match s.writer with
    | none => []
    | some w => w.handedOver env.local_writer (StreamOp.Write buf buf_len callback)
  | Call.Cancel callback =>
    match s.writer with
    | none => []
    | some w => w.handedOver env.local_writer (StreamOp.Cancel callback)
  | Call.Flush callback =>
    match s.writer with
    | none => []
    | some w => w.handedOver env.local_writer (StreamOp.Flush callback)
  | Call.Resolve open_result local_path =>
    match s.in_flight, s.writer with
    | (buf, buf_len) :: _, some w =>
      w.handedOverAfterCreate env buf buf_len open_result local_path
    | _, _ => []
  | Call.Destroy => []

/-- The callbacks a trace leaves with the local writer to complete, step by
step (nothing once a step is undefined). -/
def handedOverAlong (env : Env L) : System L → List Call → List CompletionCallback
  | _, [] => []
  | s, c :: cs =>
    match s.step env c with
    | none => []
    | some s' => s.handedOver env c ++ handedOverAlong env s' cs

/-- Number of pending-callback members of the live writer that hold
`callback`. -/
def stored (s : System L) (callback : CompletionCallback) : Nat :=
  match s.writer with
  | none => 0
  | some w =>
    (if w.pending_write_callback_ = some callback then 1 else 0) +
      (if w.pending_cancel_callback_ = some callback then 1 else 0)

end System

/-- The stream operations among the calls of a trace, in order. -/
def opsOf : List Call → List StreamOp
  | [] => []
  | Call.Write buf buf_len callback :: cs => StreamOp.Write buf buf_len callback :: opsOf cs
  | Call.Cancel callback :: cs => StreamOp.Cancel callback :: opsOf cs
  | Call.Flush callback :: cs => StreamOp.Flush callback :: opsOf cs
  | _ :: cs => opsOf cs

/-! ## Traces without the caller contract -/

namespace System

variable {L : Type}

/-- Run a trace step by step, whether or not the caller contract admits the
calls: `none` only where a step has no defined behaviour. -/
def run (env : Env L) : System L → List Call → Option (System L)
  | s, [] => some s
  | s, c :: cs =>
    match s.step env c with
    | none => none
    | some s' => run env s' cs

/-- The live writer, if any, has byte offset `offset`. -/
def ForOffset (s : System L) (offset : Int) : Prop :=
  ∀ w, s.writer = some w → w.offset_ = offset

end System

/-- Whether a call is a `Cancel`. -/
def Call.isCancel : Call → Bool
  | Call.Cancel _ => true
  | _ => false

/-! ## The members at the moment of each effect of the resolution handler -/

namespace WebkitFileStreamWriterImpl

variable {L : Type}

/-- Method `WriteAfterCreateWritableSnapshotFile` (lines 145-181) once more,
statement by statement: every effect together with the members as they are at
the moment it happens. `ResetAndReturn` (lines 163, 170) clears the member
before the callback it returns is run; the local writer is assigned (line 176)
before the write is delegated (line 178), and has taken the write before the
callback is run (line 180). -/
def WriteAfterCreateWritableSnapshotFile_moments (env : Env L)
    (w : WebkitFileStreamWriterImpl L)
    (buf : IOBuffer) (buf_len : Int) (open_result : Int) (local_path : FilePath) :
    Option (List (Effect × WebkitFileStreamWriterImpl L)) :=
  match w.pending_cancel_callback_ with
  | some cancel_callback =>
    some ((if open_result = PLATFORM_FILE_OK then [(Effect.CloseFile w.file_path_, w)] else [])
      ++ [(Effect.Run cancel_callback OK, { w with pending_cancel_callback_ := none })])
  | none =>
    match w.pending_write_callback_ with
    | none => none
    | some callback =>
      if open_result ≠ PLATFORM_FILE_OK then
        some [(Effect.Run callback (env.PlatformFileErrorToNetError open_result),
          { w with pending_write_callback_ := none })]
      else
        let r := env.local_writer.Write (env.local_writer.create local_path w.offset_)
          buf buf_len callback
        some ([(Effect.NewLocalFileStreamWriter local_path w.offset_,
              { w with pending_write_callback_ := none }),
            (Effect.LocalWrite buf buf_len callback,
              { w with pending_write_callback_ := none,
                       local_file_writer_ :=
                         some (env.local_writer.create local_path w.offset_) })]
          ++ (if r.1 ≠ ERR_IO_PENDING then
                [(Effect.Run callback r.1,
                  { w with pending_write_callback_ := none, local_file_writer_ := some r.2 })]
              else []))

end WebkitFileStreamWriterImpl

end drive

/-! # ChangeProcessor: start and stop

Shallow embedding of `sync/glue/change_processor.cc`. Pointers are `Option`s
(`none` is `NULL`). `StartImpl` and `StopImpl` are pure virtual: the subclass
supplies them; they are parameters that act on the state of the subclass and
may read the members of the base class, which are private to it. -/

namespace browser_sync

/-- Data members of `ChangeProcessor`, and the state of the subclass. -/
structure ChangeProcessor (S : Type) where
  running_ : Bool
  error_handler_ : Option Nat
  share_handle_ : Option Nat
  subclass : S

/-- The two virtual methods a subclass implements. -/
structure Impl (S : Type) where
  StartImpl : Option Nat → ChangeProcessor S → S
  StopImpl : ChangeProcessor S → S

/-- Calls of the virtual methods, in program order. -/
inductive ImplCall where
  | StartImpl (profile : Option Nat)
  | StopImpl
  deriving DecidableEq, Repr

namespace ChangeProcessor

variable {S : Type}

/-- The `DCHECK` at the head of `Start`: `error_handler_ && !share_handle_`. -/
def Start_DCHECK (cp : ChangeProcessor S) : Bool :=
  cp.error_handler_.isSome && cp.share_handle_.isNone

/-- Method `Start` (lines 14-20): next state and the virtual calls made. -/
def Start (i : Impl S) (cp : ChangeProcessor S) (profile share_handle : Option Nat) :
    ChangeProcessor S × List ImplCall :=
  let cp1 := { cp with share_handle_ := share_handle }
  let cp2 := { cp1 with subclass := i.StartImpl profile cp1 }
  ({ cp2 with running_ := true }, [ImplCall.StartImpl profile])

/-- Method `Stop` (lines 22-28): next state and the virtual calls made. -/
def Stop (i : Impl S) (cp : ChangeProcessor S) : ChangeProcessor S × List ImplCall :=
  if cp.running_ = false then (cp, [])
  else
    let cp1 := { cp with subclass := i.StopImpl cp }
    ({ cp1 with share_handle_ := none, running_ := false }, [ImplCall.StopImpl])

end ChangeProcessor

/-- A subclass that counts its starts and stops. -/
def countingImpl : Impl (Nat × Nat) where
  StartImpl := fun _ cp => (cp.subclass.1 + 1, cp.subclass.2)
  StopImpl := fun cp => (cp.subclass.1, cp.subclass.2 + 1)

end browser_sync

namespace drive

/-! # Theorems -/

/-! ## Single operations -/

section Operations

open WebkitFileStreamWriterImpl

variable {L : Type}

/-- C3: in `Materializing`, a successful resolution builds the local writer
(the writer becomes `Ready`), clears the pending write callback and delegates
exactly one write, with the original callback; a delegated result other than
`ERR_IO_PENDING` is passed to that callback exactly once, and on
`ERR_IO_PENDING` the handler runs no callback. -/
theorem resolution_success_in_Materializing (env : Env L)
    (w : WebkitFileStreamWriterImpl L) (callback : CompletionCallback)
    (buf : IOBuffer) (buf_len : Int) (local_path : FilePath)
    (hstate : Materializing w callback) :
    ∃ w' effects,
      WriteAfterCreateWritableSnapshotFile env w buf buf_len PLATFORM_FILE_OK local_path
        = some (w', effects) ∧
      Ready w' (env.local_writer.Write
        (env.local_writer.create local_path w.offset_) buf buf_len callback).2 ∧
      localWritesOf effects = [(buf, buf_len, callback)] ∧
      (∀ result, (env.local_writer.Write (env.local_writer.create local_path w.offset_)
          buf buf_len callback).1 = result →
        (result ≠ ERR_IO_PENDING → runsOf effects = [(callback, result)]) ∧
        (result = ERR_IO_PENDING → runsOf effects = [])) := by
  obtain ⟨_, hwrite, hcancel⟩ := hstate
  refine ⟨{ w with pending_write_callback_ := none,
                    local_file_writer_ := some (env.local_writer.Write
                      (env.local_writer.create local_path w.offset_) buf buf_len callback).2 },
    [Effect.NewLocalFileStreamWriter local_path w.offset_,
      Effect.LocalWrite buf buf_len callback]
      ++ (if (env.local_writer.Write (env.local_writer.create local_path w.offset_)
            buf buf_len callback).1 ≠ ERR_IO_PENDING
          then [Effect.Run callback (env.local_writer.Write
            (env.local_writer.create local_path w.offset_) buf buf_len callback).1]
          else []), ?_, ⟨rfl, rfl, hcancel⟩, ?_, ?_⟩
  · simp [WriteAfterCreateWritableSnapshotFile, hwrite, hcancel]
  · by_cases h : (env.local_writer.Write (env.local_writer.create local_path w.offset_)
        buf buf_len callback).1 = ERR_IO_PENDING <;> simp [h, localWritesOf]
  · rintro result rfl
    constructor
    · intro h
      simp [h, runsOf]
    · intro h
      simp [h, runsOf]

/-- Scenario of C3: path "doc.txt", offset 0, write callback 7 pending; the
resolution carries "/tmp/x" and the delegate answers 2 synchronously. -/
theorem resolution_success_in_Materializing_witness :
    Materializing ({ (create "doc.txt" 0 : WebkitFileStreamWriterImpl Int) with
      pending_write_callback_ := some 7 }) 7 ∧
    ∃ w' effects,
      WriteAfterCreateWritableSnapshotFile syncEnv
        ({ (create "doc.txt" 0 : WebkitFileStreamWriterImpl Int) with
          pending_write_callback_ := some 7 }) [65, 66] 2 PLATFORM_FILE_OK "/tmp/x"
        = some (w', effects) ∧
      Ready w' 2 ∧
      localWritesOf effects = [([65, 66], 2, 7)] ∧
      (∀ result, (2 : Int) = result →
        (result ≠ ERR_IO_PENDING → runsOf effects = [(7, result)]) ∧
        (result = ERR_IO_PENDING → runsOf effects = [])) :=
  ⟨⟨rfl, rfl, rfl⟩,
    resolution_success_in_Materializing syncEnv
      ({ (create "doc.txt" 0 : WebkitFileStreamWriterImpl Int) with
        pending_write_callback_ := some 7 }) 7 [65, 66] 2 "/tmp/x" ⟨rfl, rfl, rfl⟩⟩

/-- C4: when `Cancel` has preempted a materialization (the writer was
`Materializing` and `Cancel` was called), a successful resolution issues exactly
one release request, for the writer's own `file_path_`, builds no local writer,
delegates no write, and leaves the writer `Empty`. -/
theorem resolution_success_after_Cancel (env : Env L)
    (w : WebkitFileStreamWriterImpl L) (write_callback cancel_callback : CompletionCallback)
    (buf : IOBuffer) (buf_len : Int) (local_path : FilePath)
    (hstate : Materializing w write_callback) :
    ∃ w' effects,
      WriteAfterCreateWritableSnapshotFile env (Cancel env.local_writer w cancel_callback).2.1
        buf buf_len PLATFORM_FILE_OK local_path = some (w', effects) ∧
      effects = [Effect.CloseFile w.file_path_, Effect.Run cancel_callback OK] ∧
      releasesOf effects = [w.file_path_] ∧
      constructionsOf effects = [] ∧
      localWritesOf effects = [] ∧
      Empty w' := by
  obtain ⟨hlocal, hwrite, hcancel⟩ := hstate
  refine ⟨{ w with pending_write_callback_ := none, pending_cancel_callback_ := none },
    [Effect.CloseFile w.file_path_, Effect.Run cancel_callback OK], ?_, rfl, rfl, rfl, rfl,
    ⟨hlocal, rfl, rfl⟩⟩
  simp [WriteAfterCreateWritableSnapshotFile, Cancel, hlocal, hwrite]

/-- Scenario of C4: "doc.txt" is being materialized for callback 7, `Cancel`
comes with callback 8, then the resolution carries "/tmp/x". -/
theorem resolution_success_after_Cancel_witness :
    Materializing ({ (create "doc.txt" 0 : WebkitFileStreamWriterImpl Int) with
      pending_write_callback_ := some 7 }) 7 ∧
    ∃ w' effects,
      WriteAfterCreateWritableSnapshotFile syncEnv
        (Cancel syncEnv.local_writer
          ({ (create "doc.txt" 0 : WebkitFileStreamWriterImpl Int) with
            pending_write_callback_ := some 7 }) 8).2.1
        [65, 66] 2 PLATFORM_FILE_OK "/tmp/x" = some (w', effects) ∧
      effects = [Effect.CloseFile "doc.txt", Effect.Run 8 OK] ∧
      releasesOf effects = ["doc.txt"] ∧
      constructionsOf effects = [] ∧
      localWritesOf effects = [] ∧
      Empty w' :=
  ⟨⟨rfl, rfl, rfl⟩,
    resolution_success_after_Cancel syncEnv
      ({ (create "doc.txt" 0 : WebkitFileStreamWriterImpl Int) with
        pending_write_callback_ := some 7 }) 7 8 [65, 66] 2 "/tmp/x" ⟨rfl, rfl, rfl⟩⟩

/-- C5: with an empty `file_path_` and no local writer, `Write` returns
`ERR_FILE_NOT_FOUND`, has no effect at all (no snapshot request, no callback
run) and returns the writer as it was (the callback is not stored). -/
theorem Write_empty_path_not_found (lw : LocalFileStreamWriter L)
    (w : WebkitFileStreamWriterImpl L) (buf : IOBuffer) (buf_len : Int)
    (callback : CompletionCallback)
    (hpath : w.file_path_ = "") (hlocal : w.local_file_writer_ = none) :
    Write lw w buf buf_len callback = (ERR_FILE_NOT_FOUND, w, []) := by
  simp [Write, hpath, hlocal]

/-- Scenario of C5: a fresh writer for the empty path. -/
theorem Write_empty_path_not_found_witness :
    (create "" 0 : WebkitFileStreamWriterImpl Int).file_path_ = "" ∧
    Write syncLocalWriter (create "" 0) [65, 66] 2 7 = (ERR_FILE_NOT_FOUND, create "" 0, []) :=
  ⟨rfl, Write_empty_path_not_found syncLocalWriter (create "" 0) [65, 66] 2 7 rfl rfl⟩

/-- C6: in `Empty` with a non-empty `file_path_`, `Write` returns
`ERR_IO_PENDING`, stores the callback as the pending write callback, posts
exactly one snapshot request, for `file_path_`, builds no local writer and runs
no callback. -/
theorem Write_in_Empty_requests_snapshot (lw : LocalFileStreamWriter L)
    (w : WebkitFileStreamWriterImpl L) (buf : IOBuffer) (buf_len : Int)
    (callback : CompletionCallback)
    (hpath : w.file_path_ ≠ "") (hstate : Empty w) :
    (Write lw w buf buf_len callback).1 = ERR_IO_PENDING ∧
      Materializing (Write lw w buf buf_len callback).2.1 callback ∧
      (Write lw w buf buf_len callback).2.2 =
        [Effect.CreateWritableSnapshotFile w.file_path_ buf buf_len] ∧
      snapshotRequestsOf (Write lw w buf buf_len callback).2.2 = [w.file_path_] ∧
      constructionsOf (Write lw w buf buf_len callback).2.2 = [] ∧
      runsOf (Write lw w buf buf_len callback).2.2 = [] := by
  obtain ⟨hlocal, _, hcancel⟩ := hstate
  simp [Write, Materializing, hpath, hlocal, hcancel, snapshotRequestsOf, runsOf,
    constructionsOf]

/-- Scenario of C6: a fresh writer for "doc.txt". -/
theorem Write_in_Empty_requests_snapshot_witness :
    (create "doc.txt" 0 : WebkitFileStreamWriterImpl Int).file_path_ ≠ "" ∧
    (Write syncLocalWriter (create "doc.txt" 0) [65, 66] 2 7).1 = ERR_IO_PENDING ∧
    (Write syncLocalWriter (create "doc.txt" 0) [65, 66] 2 7).2.2
      = [Effect.CreateWritableSnapshotFile "doc.txt" [65, 66] 2] :=
  ⟨by decide,
    (Write_in_Empty_requests_snapshot syncLocalWriter (create "doc.txt" 0) [65, 66] 2 7
      (by decide) ⟨rfl, rfl, rfl⟩).1,
    (Write_in_Empty_requests_snapshot syncLocalWriter (create "doc.txt" 0) [65, 66] 2 7
      (by decide) ⟨rfl, rfl, rfl⟩).2.2.1⟩

/-- C7: in `Materializing`, a resolution with a failure code runs the pending
write callback exactly once, with `PlatformFileErrorToNetError(open_result)`,
clears it, builds no local writer, posts no release and no snapshot request,
and leaves the writer `Empty`. -/
theorem resolution_failure_in_Materializing (env : Env L)
    (w : WebkitFileStreamWriterImpl L) (callback : CompletionCallback)
    (buf : IOBuffer) (buf_len : Int) (open_result : Int) (local_path : FilePath)
    (hstate : Materializing w callback) (hfail : open_result ≠ PLATFORM_FILE_OK) :
    ∃ w' effects,
      WriteAfterCreateWritableSnapshotFile env w buf buf_len open_result local_path
        = some (w', effects) ∧
      effects = [Effect.Run callback (env.PlatformFileErrorToNetError open_result)] ∧
      runsOf effects = [(callback, env.PlatformFileErrorToNetError open_result)] ∧
      constructionsOf effects = [] ∧
      releasesOf effects = [] ∧
      snapshotRequestsOf effects = [] ∧
      Empty w' := by
  obtain ⟨hlocal, hwrite, hcancel⟩ := hstate
  refine ⟨{ w with pending_write_callback_ := none },
    [Effect.Run callback (env.PlatformFileErrorToNetError open_result)], ?_, rfl, rfl, rfl,
    rfl, rfl, ⟨hlocal, rfl, hcancel⟩⟩
  simp [WriteAfterCreateWritableSnapshotFile, hwrite, hcancel, hfail]

/-- Scenario of C7: "doc.txt" is being materialized for callback 7 and the
resolution carries the platform error -1. -/
theorem resolution_failure_in_Materializing_witness :
    Materializing ({ (create "doc.txt" 0 : WebkitFileStreamWriterImpl Int) with
      pending_write_callback_ := some 7 }) 7 ∧ (-1 : Int) ≠ PLATFORM_FILE_OK ∧
    ∃ w' effects,
      WriteAfterCreateWritableSnapshotFile syncEnv
        ({ (create "doc.txt" 0 : WebkitFileStreamWriterImpl Int) with
          pending_write_callback_ := some 7 }) [65, 66] 2 (-1) ""
        = some (w', effects) ∧
      effects = [Effect.Run 7 (syncEnv.PlatformFileErrorToNetError (-1))] ∧
      runsOf effects = [(7, syncEnv.PlatformFileErrorToNetError (-1))] ∧
      constructionsOf effects = [] ∧
      releasesOf effects = [] ∧
      snapshotRequestsOf effects = [] ∧
      Empty w' :=
  ⟨⟨rfl, rfl, rfl⟩, by decide,
    resolution_failure_in_Materializing syncEnv
      ({ (create "doc.txt" 0 : WebkitFileStreamWriterImpl Int) with
        pending_write_callback_ := some 7 }) 7 [65, 66] 2 (-1) "" ⟨rfl, rfl, rfl⟩
      (by decide)⟩

/-- C8: in `Materializing`, `Cancel(c)` returns `ERR_IO_PENDING`, drops the
pending write callback, stores `c` as the pending cancel callback, and has no
effect at all: no callback is run and nothing is sent to the file system. -/
theorem Cancel_in_Materializing (lw : LocalFileStreamWriter L)
    (w : WebkitFileStreamWriterImpl L) (write_callback c : CompletionCallback)
    (hstate : Materializing w write_callback) :
    (Cancel lw w c).1 = ERR_IO_PENDING ∧
      CancelledWhileMaterializing (Cancel lw w c).2.1 c ∧
      (Cancel lw w c).2.2 = [] := by
  obtain ⟨hlocal, hwrite, _⟩ := hstate
  simp [Cancel, CancelledWhileMaterializing, hlocal, hwrite]

/-- Scenario of C8: "doc.txt" is being materialized for callback 7 and
`Cancel` comes with callback 8. -/
theorem Cancel_in_Materializing_witness :
    Materializing ({ (create "doc.txt" 0 : WebkitFileStreamWriterImpl Int) with
      pending_write_callback_ := some 7 }) 7 ∧
    (Cancel syncLocalWriter ({ (create "doc.txt" 0 : WebkitFileStreamWriterImpl Int) with
      pending_write_callback_ := some 7 }) 8).1 = ERR_IO_PENDING :=
  ⟨⟨rfl, rfl, rfl⟩,
    (Cancel_in_Materializing syncLocalWriter
      ({ (create "doc.txt" 0 : WebkitFileStreamWriterImpl Int) with
        pending_write_callback_ := some 7 }) 7 8 ⟨rfl, rfl, rfl⟩).1⟩

/-- C9: with no local writer and no pending write callback, `Cancel` returns
`ERR_UNEXPECTED`, has no effect at all and returns the writer as it was (the
callback is neither stored nor run). -/
theorem Cancel_without_Write_unexpected (lw : LocalFileStreamWriter L)
    (w : WebkitFileStreamWriterImpl L) (callback : CompletionCallback)
    (hlocal : w.local_file_writer_ = none) (hwrite : w.pending_write_callback_ = none) :
    Cancel lw w callback = (ERR_UNEXPECTED, w, []) := by
  simp [Cancel, hlocal, hwrite]

/-- Scenario of C9: `Cancel` on a fresh writer. -/
theorem Cancel_without_Write_unexpected_witness :
    Cancel syncLocalWriter (create "doc.txt" 0) 8 = (ERR_UNEXPECTED, create "doc.txt" 0, []) :=
  Cancel_without_Write_unexpected syncLocalWriter (create "doc.txt" 0) 8 rfl rfl

end Operations

/-! ## The writer in `Ready` against its local writer -/

section Delegation

open WebkitFileStreamWriterImpl

variable {L : Type}

/-- With a local writer present, one operation is the delegate's operation:
same result, only the delegate's state moves, and the only effect is the
delegation itself. -/
theorem apply_of_local (lw : LocalFileStreamWriter L) (w : WebkitFileStreamWriterImpl L)
    (l : L) (hlocal : w.local_file_writer_ = some l) (op : StreamOp) :
    w.apply lw op =
      ((lw.apply l op).1, { w with local_file_writer_ := some (lw.apply l op).2 },
        [op.delegation]) := by
  cases op <;>
    simp [WebkitFileStreamWriterImpl.apply, LocalFileStreamWriter.apply, Write, Cancel, Flush,
      hlocal, StreamOp.delegation]

/-- With a local writer present, a sequence of operations is the delegate's
sequence. -/
theorem applyAll_of_local (lw : LocalFileStreamWriter L) (ops : List StreamOp) :
    ∀ (w : WebkitFileStreamWriterImpl L) (l : L), w.local_file_writer_ = some l →
      WebkitFileStreamWriterImpl.applyAll lw w ops =
        ((lw.applyAll l ops).1, { w with local_file_writer_ := some (lw.applyAll l ops).2 },
          ops.map StreamOp.delegation) := by
  induction ops with
  | nil =>
    intro w l hlocal
    cases w
    simp_all [WebkitFileStreamWriterImpl.applyAll, LocalFileStreamWriter.applyAll]
  | cons op ops ih =>
    intro w l hlocal
    simp only [WebkitFileStreamWriterImpl.applyAll, LocalFileStreamWriter.applyAll,
      apply_of_local lw w l hlocal op, List.map_cons]
    rw [ih { w with local_file_writer_ := some (lw.apply l op).2 } (lw.apply l op).2 rfl]
    simp

/-- C10: in `Ready`, `Write`, `Cancel` and `Flush` return what the local
writer returns for the same arguments; their only effect is the delegation (no
request to the file system, no callback run); the writer's own fields stay as
they were and only the local writer's state moves. Hence any sequence of
operations on a `Ready` writer yields the results of the same sequence on the
local writer. -/
theorem Ready_delegates (lw : LocalFileStreamWriter L) (w : WebkitFileStreamWriterImpl L)
    (l : L) (hstate : Ready w l) :
    (∀ buf buf_len callback,
      Write lw w buf buf_len callback =
        ((lw.Write l buf buf_len callback).1,
          { w with local_file_writer_ := some (lw.Write l buf buf_len callback).2 },
          [Effect.LocalWrite buf buf_len callback])) ∧
    (∀ callback,
      Cancel lw w callback =
        ((lw.Cancel l callback).1,
          { w with local_file_writer_ := some (lw.Cancel l callback).2 },
          [Effect.LocalCancel callback])) ∧
    (∀ callback,
      Flush lw w callback =
        ((lw.Flush l callback).1,
          { w with local_file_writer_ := some (lw.Flush l callback).2 },
          [Effect.LocalFlush callback])) ∧
    (∀ ops,
      WebkitFileStreamWriterImpl.applyAll lw w ops =
        ((lw.applyAll l ops).1, { w with local_file_writer_ := some (lw.applyAll l ops).2 },
          ops.map StreamOp.delegation) ∧
      Ready (WebkitFileStreamWriterImpl.applyAll lw w ops).2.1 (lw.applyAll l ops).2) := by
  obtain ⟨hlocal, hwrite, hcancel⟩ := hstate
  refine ⟨?_, ?_, ?_, ?_⟩
  · intro buf buf_len callback
    simp [Write, hlocal]
  · intro callback
    simp [Cancel, hlocal]
  · intro callback
    simp [Flush, hlocal]
  · intro ops
    rw [applyAll_of_local lw ops w l hlocal]
    exact ⟨rfl, rfl, hwrite, hcancel⟩

/-- Scenario of C10: a `Ready` writer whose synchronous local writer stands at
byte 2 receives a write of 3 bytes, a flush and a cancel. -/
theorem Ready_delegates_witness :
    Ready ({ (create "doc.txt" 0 : WebkitFileStreamWriterImpl Int) with
      local_file_writer_ := some 2 }) 2 ∧
    WebkitFileStreamWriterImpl.applyAll syncLocalWriter
      ({ (create "doc.txt" 0 : WebkitFileStreamWriterImpl Int) with
        local_file_writer_ := some 2 })
      [StreamOp.Write [67, 68, 69] 3 9, StreamOp.Flush 10, StreamOp.Cancel 11] =
      ((syncLocalWriter.applyAll 2
          [StreamOp.Write [67, 68, 69] 3 9, StreamOp.Flush 10, StreamOp.Cancel 11]).1,
        { (create "doc.txt" 0 : WebkitFileStreamWriterImpl Int) with
          local_file_writer_ := some 5 },
        [Effect.LocalWrite [67, 68, 69] 3 9, Effect.LocalFlush 10, Effect.LocalCancel 11]) :=
  ⟨⟨rfl, rfl, rfl⟩,
    ((Ready_delegates syncLocalWriter
      ({ (create "doc.txt" 0 : WebkitFileStreamWriterImpl Int) with
        local_file_writer_ := some 2 }) 2 ⟨rfl, rfl, rfl⟩).2.2.2
      [StreamOp.Write [67, 68, 69] 3 9, StreamOp.Flush 10, StreamOp.Cancel 11]).1⟩

end Delegation

/-! ## Traces under the caller contract -/

section Traces

open WebkitFileStreamWriterImpl

variable {L : Type}

/-- Release requests of a concatenation. -/
theorem releasesOf_append (a b : List Effect) :
    releasesOf (a ++ b) = releasesOf a ++ releasesOf b := by
  induction a with
  | nil => rfl
  | cons e es ih => cases e <;> simp [releasesOf, ih]

/-- Callback runs of a concatenation. -/
theorem runsOf_append (a b : List Effect) :
    runsOf (a ++ b) = runsOf a ++ runsOf b := by
  induction a with
  | nil => rfl
  | cons e es ih => cases e <;> simp [runsOf, ih]

/-- An optional callback run contains no release request. -/
theorem releasesOf_optional_run (p : Prop) [Decidable p] (callback : CompletionCallback)
    (result : Int) :
    releasesOf (if p then [] else [Effect.Run callback result]) = [] := by
  split <;> rfl

/-- One permitted step from a well-formed state is defined, keeps the state
well-formed and for the same path, and sends release requests for that path
only, as many as the snapshots held before, plus the snapshot this step
created, minus the snapshots held afterwards. -/
theorem System.step_of_permitted (env : Env L) (s : System L) (c : Call)
    (file_path : FilePath) (hwf : s.WellFormed) (hpath : s.ForPath file_path)
    (hperm : s.Permitted c = true) :
    ∃ s', s.step env c = some s' ∧ s'.WellFormed ∧ s'.ForPath file_path ∧
      s'.held ≤ s.held + (successesOf [c]).length ∧
      releasesOf s'.log = releasesOf s.log ++
        List.replicate (s.held + (successesOf [c]).length - s'.held) file_path := by
  obtain ⟨writer, in_flight, log⟩ := s
  cases writer with
  | none =>
    cases c <;> simp_all [System.Permitted, System.WellFormed]
  | some w =>
    obtain ⟨fp, off, l, pw, pc⟩ := w
    have hfp : fp = file_path := hpath _ rfl
    subst hfp
    cases c with
    | Write buf buf_len callback =>
      by_cases hempty : fp = "" <;> cases l <;> cases pw <;> cases pc <;>
        simp_all [System.Permitted, System.WellFormed, System.step, Write, Write_DCHECK,
          System.record, requestsOf, System.ForPath, System.held, successesOf, releasesOf_append,
          releasesOf]
    | Cancel callback =>
      cases l <;> cases pw <;> cases pc <;>
        simp_all [System.Permitted, System.WellFormed, System.step, Cancel, Cancel_DCHECK,
          System.record, requestsOf, System.ForPath, System.held, successesOf, releasesOf_append,
          releasesOf]
    | Flush callback =>
      cases l <;> cases pw <;> cases pc <;>
        simp_all [System.Permitted, System.WellFormed, System.step, Flush,
          System.record, requestsOf, System.ForPath, System.held, successesOf, releasesOf_append,
          releasesOf]
    | Resolve open_result local_path =>
      cases in_flight with
      | nil => simp [System.Permitted] at hperm
      | cons request rest =>
        by_cases hok : open_result = PLATFORM_FILE_OK <;>
        cases l <;> cases pw <;> cases pc <;>
          simp_all [System.Permitted, System.WellFormed, System.step,
            WriteAfterCreateWritableSnapshotFile,
            System.record, requestsOf, System.ForPath, System.held, successesOf,
            releasesOf_append, releasesOf, releasesOf_optional_run]
    | Destroy =>
      cases l <;> cases pw <;> cases pc <;>
        simp_all [System.Permitted, System.WellFormed, System.step, destructor,
          System.record, requestsOf, System.ForPath, System.held, successesOf, releasesOf_append,
          releasesOf]

/-- Successful resolutions of a trace, counted call by call. -/
theorem successesOf_cons_length (c : Call) (cs : List Call) :
    (successesOf (c :: cs)).length = (successesOf [c]).length + (successesOf cs).length := by
  cases c <;> simp [successesOf]
  split <;> simp [Nat.add_comm]

/-- Running a non-empty trace: the first call is permitted and defined, and the
rest runs from its result. -/
theorem System.exec_cons (env : Env L) (s s' : System L) (c : Call) (cs : List Call) :
    System.exec env s (c :: cs) = some s' ↔
      s.Permitted c = true ∧ ∃ s1, s.step env c = some s1 ∧ System.exec env s1 cs = some s' := by
  simp only [System.exec]
  by_cases hperm : s.Permitted c = true
  · cases hstep : s.step env c <;> simp [hperm]
  · simp [hperm]

/-- A trace that obeys the caller contract keeps the state well-formed and for
the same path, and sends release requests for that path only, as many as the
snapshots held at the start, plus the snapshots created along the trace, minus
the snapshots held at the end. -/
theorem System.exec_invariant (env : Env L) (file_path : FilePath) (trace : List Call) :
    ∀ s s' : System L, s.WellFormed → s.ForPath file_path →
      System.exec env s trace = some s' →
      s'.WellFormed ∧ s'.ForPath file_path ∧
      s'.held ≤ s.held + (successesOf trace).length ∧
      releasesOf s'.log = releasesOf s.log ++
        List.replicate (s.held + (successesOf trace).length - s'.held) file_path := by
  induction trace with
  | nil =>
    intro s s' hwf hpath hexec
    simp only [System.exec, Option.some.injEq] at hexec
    subst hexec
    simp [hwf, hpath, successesOf]
  | cons c cs ih =>
    intro s s' hwf hpath hexec
    rw [System.exec_cons] at hexec
    obtain ⟨hperm, s1, hstep, hrest⟩ := hexec
    obtain ⟨s1', hstep', hwf1, hpath1, hle1, hlog1⟩ :=
      System.step_of_permitted env s c file_path hwf hpath hperm
    rw [hstep] at hstep'
    cases hstep'
    obtain ⟨hwf', hpath', hle', hlog'⟩ := ih s1 s' hwf1 hpath1 hrest
    have hlen := successesOf_cons_length c cs
    refine ⟨hwf', hpath', by omega, ?_⟩
    rw [hlog', hlog1, List.append_assoc, ← List.replicate_add]
    congr 2
    omega

/-- The state after construction is well-formed, for the given path, and holds
no snapshot. -/
theorem System.init_wellFormed (file_path : FilePath) (offset : Int) :
    (System.init file_path offset : System L).WellFormed ∧
      (System.init file_path offset : System L).ForPath file_path ∧
      (System.init file_path offset : System L).held = 0 := by
  refine ⟨?_, ?_, ?_⟩
  · simp [System.WellFormed, System.init, create]
  · intro w hw
    simp only [System.init, Option.some.injEq] at hw
    subst hw
    rfl
  · simp [System.held, System.init, create]

/-- C2: along every trace that obeys the caller contract from construction and
ends with the writer destroyed, the release requests sent are exactly one
request for the writer's `file_path` per resolution that carried
`PLATFORM_FILE_OK`. -/
theorem releases_match_successes (env : Env L) (file_path : FilePath) (offset : Int)
    (trace : List Call) (s : System L)
    (hexec : System.exec env (System.init file_path offset) trace = some s)
    (hdestroyed : s.writer = none) :
    releasesOf s.log = List.replicate (successesOf trace).length file_path := by
  obtain ⟨hwf, hpath, hheld⟩ := System.init_wellFormed (L := L) file_path offset
  obtain ⟨_, _, _, hlog⟩ := System.exec_invariant env file_path trace _ s hwf hpath hexec
  have hheld' : s.held = 0 := by simp [System.held, hdestroyed]
  rw [hlog, hheld, hheld']
  simp [System.init, releasesOf]

/-- Scenario of C2: a write is cancelled while its snapshot is being created
and the snapshot arrives; a second write gets its snapshot and is delegated;
then the writer is destroyed. Two snapshots, two releases. -/
theorem releases_match_successes_witness :
    ∃ s, System.exec syncEnv (System.init "doc.txt" 0)
        [Call.Write [65, 66] 2 7, Call.Cancel 8, Call.Resolve PLATFORM_FILE_OK "/tmp/x",
          Call.Write [67] 1 9, Call.Flush 10, Call.Resolve PLATFORM_FILE_OK "/tmp/y",
          Call.Write [68] 1 11, Call.Destroy] = some s ∧
      s.writer = none ∧
      releasesOf s.log = ["doc.txt", "doc.txt"] := by
  refine ⟨_, rfl, rfl, ?_⟩
  exact releases_match_successes syncEnv "doc.txt" 0
    [Call.Write [65, 66] 2 7, Call.Cancel 8, Call.Resolve PLATFORM_FILE_OK "/tmp/x",
      Call.Write [67] 1 9, Call.Flush 10, Call.Resolve PLATFORM_FILE_OK "/tmp/y",
      Call.Write [68] 1 11, Call.Destroy] _ rfl rfl

end Traces

/-! ## Cancel during materialization -/

section CancelDuringMaterialization

open WebkitFileStreamWriterImpl

variable {L : Type}

/-- While a cancel callback is pending and the snapshot request is
outstanding, the caller contract admits only `Flush` besides the resolution,
and `Flush` changes nothing. -/
theorem System.exec_while_cancelled (env : Env L) (between : List Call) :
    ∀ s s' : System L,
      (∃ w c, s.writer = some w ∧ CancelledWhileMaterializing w c) →
      s.in_flight ≠ [] →
      (∀ x ∈ between, x.isResolve = false) →
      System.exec env s between = some s' → s' = s := by
  induction between with
  | nil =>
    intro s s' _ _ _ hexec
    simpa [System.exec] using hexec.symm
  | cons x xs ih =>
    intro s s' hstate hout hnores hexec
    rw [System.exec_cons] at hexec
    obtain ⟨hperm, s1, hstep, hrest⟩ := hexec
    obtain ⟨w, c, hw, hlocal, hwrite, hcancel⟩ := hstate
    have hs1 : s1 = s := by
      obtain ⟨writer, in_flight, log⟩ := s
      cases x with
      | Write buf buf_len callback =>
        simp_all [System.Permitted, Write_DCHECK]
      | Cancel callback =>
        simp_all [System.Permitted, Cancel_DCHECK]
      | Flush callback =>
        simp_all [System.step, Flush, System.record, requestsOf]
      | Resolve open_result local_path =>
        exact absurd (hnores _ (List.mem_cons_self _ _)) (by simp [Call.isResolve])
      | Destroy =>
        cases in_flight <;> simp_all [System.Permitted]
    subst hs1
    exact ih s1 s' ⟨w, c, hw, hlocal, hwrite, hcancel⟩ hout
      (fun y hy => hnores y (List.mem_cons_of_mem _ hy)) hrest

/-- C1: take any trace that obeys the caller contract from construction, at a
point where a snapshot request is outstanding, and let `Cancel(c)` be called
there, followed by any calls the contract admits other than the resolution.
Then a write callback was pending when `Cancel` was called, `Cancel` returned
`ERR_IO_PENDING`, and the resolution, whatever it carries, is defined; from the
call of `Cancel` up to and including the resolution exactly one callback is
run, namely `c` with `OK`, so the write callback is not run, and afterwards the
writer holds no callback. -/
theorem Cancel_during_materialization (env : Env L) (file_path : FilePath) (offset : Int)
    (before between : List Call) (c : CompletionCallback) (s s1 : System L)
    (open_result : Int) (local_path : FilePath)
    (hbefore : System.exec env (System.init file_path offset) before = some s)
    (houtstanding : s.in_flight ≠ [])
    (hcancel : System.exec env s (Call.Cancel c :: between) = some s1)
    (hbetween : ∀ x ∈ between, x.isResolve = false) :
    ∃ w write_callback s2 effects,
      s.writer = some w ∧ Materializing w write_callback ∧
      s.returned env (Call.Cancel c) = some ERR_IO_PENDING ∧
      s1.step env (Call.Resolve open_result local_path) = some s2 ∧
      s2.log = s.log ++ effects ∧
      runsOf effects = [(c, OK)] ∧
      (write_callback ≠ c → ∀ result, Effect.Run write_callback result ∉ effects) ∧
      (∃ w2, s2.writer = some w2 ∧ Empty w2) := by
  obtain ⟨hwf0, hpath0, _⟩ := System.init_wellFormed (L := L) file_path offset
  obtain ⟨hwf, _, _, _⟩ := System.exec_invariant env file_path before _ s hwf0 hpath0 hbefore
  rw [System.exec_cons] at hcancel
  obtain ⟨hperm, s0, hstep, hrest⟩ := hcancel
  obtain ⟨writer, in_flight, log⟩ := s
  cases writer with
  | none => simp [System.Permitted] at hperm
  | some w =>
    obtain ⟨fp, off, l, pw, pc⟩ := w
    cases pc with
    | some _ => simp [System.Permitted, Cancel_DCHECK] at hperm
    | none =>
      cases l with
      | some _ =>
        have hlen := hwf.2.2
        have hnone := hwf.1 rfl
        simp only at hnone
        simp only [hnone.1] at hlen
        exact absurd (List.length_eq_zero.mp (by simpa using hlen)) houtstanding
      | none =>
        cases pw with
        | none =>
          have hlen := hwf.2.2
          exact absurd (List.length_eq_zero.mp (by simpa using hlen)) houtstanding
        | some write_callback =>
          cases in_flight with
          | nil => exact absurd rfl houtstanding
          | cons request rest =>
            have hs0 : s0 =
                { writer := some ⟨fp, off, none, none, some c⟩,
                  in_flight := request :: rest,
                  log := log } := by
              simp [System.step, Cancel, System.record, requestsOf] at hstep
              exact hstep.symm
            subst hs0
            have hs1 := System.exec_while_cancelled env between _ s1
              ⟨_, c, rfl, rfl, rfl, rfl⟩ (by simp) hbetween hrest
            subst hs1
            refine ⟨_, write_callback,
              { writer := some ⟨fp, off, none, none, none⟩,
                in_flight := rest,
                log := log ++ ((if open_result = PLATFORM_FILE_OK then [Effect.CloseFile fp]
                  else []) ++ [Effect.Run c OK]) },
              (if open_result = PLATFORM_FILE_OK then [Effect.CloseFile fp] else [])
                ++ [Effect.Run c OK], rfl, ⟨rfl, rfl, rfl⟩, ?_, ?_, rfl, ?_, ?_, ?_⟩
            · simp [System.returned, Cancel]
            · simp [System.step, WriteAfterCreateWritableSnapshotFile]
            · by_cases hok : open_result = PLATFORM_FILE_OK <;> simp [hok, runsOf]
            · intro hne result hmem
              by_cases hok : open_result = PLATFORM_FILE_OK <;> simp [hok, hne] at hmem
            · exact ⟨_, rfl, rfl, rfl, rfl⟩

/-- Scenario of C1: "doc.txt" is written with callback 7, `Cancel` comes with
callback 8 (and a `Flush` after it) while the snapshot is being created, and
the request then fails with the platform error -1. -/
theorem Cancel_during_materialization_witness :
    ∃ (w : WebkitFileStreamWriterImpl Int) (write_callback : CompletionCallback)
      (s2 : System Int) (effects : List Effect),
      Materializing w write_callback ∧
      System.step syncEnv
        { writer := some { (create "doc.txt" 0 : WebkitFileStreamWriterImpl Int) with
            pending_cancel_callback_ := some 8 },
          in_flight := [([65, 66], 2)],
          log := [Effect.CreateWritableSnapshotFile "doc.txt" [65, 66] 2] }
        (Call.Resolve (-1) "") = some s2 ∧
      s2.log = [Effect.CreateWritableSnapshotFile "doc.txt" [65, 66] 2] ++ effects ∧
      runsOf effects = [(8, OK)] :=
  match Cancel_during_materialization syncEnv "doc.txt" 0 [Call.Write [65, 66] 2 7]
    [Call.Flush 10] 8
    { writer := some { (create "doc.txt" 0 : WebkitFileStreamWriterImpl Int) with
        pending_write_callback_ := some 7 },
      in_flight := [([65, 66], 2)],
      log := [Effect.CreateWritableSnapshotFile "doc.txt" [65, 66] 2] }
    { writer := some { (create "doc.txt" 0 : WebkitFileStreamWriterImpl Int) with
        pending_cancel_callback_ := some 8 },
      in_flight := [([65, 66], 2)],
      log := [Effect.CreateWritableSnapshotFile "doc.txt" [65, 66] 2] }
    (-1) "" rfl (by decide) rfl (by decide) with
  | ⟨w, write_callback, s2, effects, _, hstate, _, hstep, hlog, hruns, _, _⟩ =>
    ⟨w, write_callback, s2, effects, hstate, hstep, hlog, hruns⟩

end CancelDuringMaterialization

/-! ## Destruction -/

section Destruction

open WebkitFileStreamWriterImpl

variable {L : Type}

/-- C11: destroying a writer that has a local writer sends exactly one release
request, for the writer's `file_path_`; destroying a writer without a local
writer sends none (it has no effect at all). -/
theorem destructor_releases (w : WebkitFileStreamWriterImpl L) :
    (∀ l, w.local_file_writer_ = some l →
      releasesOf (destructor w) = [w.file_path_] ∧
      destructor w = [Effect.ResetLocalFileWriter, Effect.CloseFile w.file_path_]) ∧
    (w.local_file_writer_ = none →
      releasesOf (destructor w) = [] ∧ destructor w = []) := by
  constructor
  · intro l hlocal
    simp [destructor, hlocal, releasesOf]
  · intro hlocal
    simp [destructor, hlocal, releasesOf]

/-- Scenario of C11: a writer for "doc.txt" whose local writer stands at byte
2, and a fresh writer for "doc.txt". -/
theorem destructor_releases_witness :
    releasesOf (destructor ({ (create "doc.txt" 0 : WebkitFileStreamWriterImpl Int) with
      local_file_writer_ := some 2 })) = ["doc.txt"] ∧
    releasesOf (destructor (create "doc.txt" 0 : WebkitFileStreamWriterImpl Int)) = [] :=
  ⟨((destructor_releases ({ (create "doc.txt" 0 : WebkitFileStreamWriterImpl Int) with
      local_file_writer_ := some 2 })).1 2 rfl).1,
    ((destructor_releases (create "doc.txt" 0 : WebkitFileStreamWriterImpl Int)).2 rfl).1⟩

end Destruction

/-! ## Order of dropping the local writer and releasing the snapshot -/

section Ownership

open WebkitFileStreamWriterImpl

variable {L : Type}

/-- Ownership after a concatenation of effects. -/
theorem heldAfter_append (a b : List Effect) :
    ∀ held, heldAfter held (a ++ b) = heldAfter (heldAfter held a) b := by
  induction a with
  | nil => intro held; rfl
  | cons e es ih => intro held; cases e <;> simp [heldAfter, ih]

/-- A release while held in a concatenation is one in the first part, or one
in the second part given the ownership the first part leaves. -/
theorem releasedWhileHeld_append (a b : List Effect) :
    ∀ held, releasedWhileHeld held (a ++ b) =
      (releasedWhileHeld held a || releasedWhileHeld (heldAfter held a) b) := by
  induction a with
  | nil => intro held; simp [releasedWhileHeld, heldAfter]
  | cons e es ih =>
    intro held
    cases e <;> simp [releasedWhileHeld, heldAfter, ih, Bool.or_assoc]

/-- An optional callback run neither changes ownership nor releases. -/
theorem heldAfter_optional_run (p : Prop) [Decidable p] (callback : CompletionCallback)
    (result : Int) (held : Bool) :
    heldAfter held (if p then [] else [Effect.Run callback result]) = held ∧
    releasedWhileHeld held (if p then [] else [Effect.Run callback result]) = false := by
  split <;> simp [heldAfter, releasedWhileHeld]

/-- One permitted step from a well-formed state keeps the log in step with the
writer: the log says the local writer is held exactly when it is, and no
release request in the log was sent while it was held. -/
theorem System.step_owned (env : Env L) (s s' : System L) (c : Call)
    (hwf : s.WellFormed) (hperm : s.Permitted c = true) (hstep : s.step env c = some s')
    (hheld : heldAfter false s.log = decide (s.held = 1))
    (hreleased : releasedWhileHeld false s.log = false) :
    heldAfter false s'.log = decide (s'.held = 1) ∧
      releasedWhileHeld false s'.log = false := by
  obtain ⟨writer, in_flight, log⟩ := s
  cases writer with
  | none =>
    cases c <;> simp_all [System.Permitted, System.WellFormed]
  | some w =>
    obtain ⟨fp, off, l, pw, pc⟩ := w
    cases c with
    | Write buf buf_len callback =>
      by_cases hempty : fp = "" <;> cases l <;> cases pw <;> cases pc <;>
        simp_all [System.Permitted, System.WellFormed, System.step, Write, Write_DCHECK,
          System.record, System.held] <;>
        (try subst hstep) <;>
        simp_all [System.held, heldAfter_append, releasedWhileHeld_append, heldAfter,
          releasedWhileHeld, heldAfter_optional_run]
    | Cancel callback =>
      cases l <;> cases pw <;> cases pc <;>
        simp_all [System.Permitted, System.WellFormed, System.step, Cancel, Cancel_DCHECK,
          System.record, System.held] <;>
        (try subst hstep) <;>
        simp_all [System.held, heldAfter_append, releasedWhileHeld_append, heldAfter,
          releasedWhileHeld, heldAfter_optional_run]
    | Flush callback =>
      cases l <;> cases pw <;> cases pc <;>
        simp_all [System.Permitted, System.WellFormed, System.step, Flush,
          System.record, System.held] <;>
        (try subst hstep) <;>
        simp_all [System.held, heldAfter_append, releasedWhileHeld_append, heldAfter,
          releasedWhileHeld, heldAfter_optional_run]
    | Resolve open_result local_path =>
      cases in_flight with
      | nil => simp [System.Permitted] at hperm
      | cons request rest =>
        by_cases hok : open_result = PLATFORM_FILE_OK <;>
        cases l <;> cases pw <;> cases pc <;>
        simp_all [System.Permitted, System.WellFormed, System.step, WriteAfterCreateWritableSnapshotFile,
          System.record, System.held] <;>
        (try subst hstep) <;>
        simp_all [System.held, heldAfter_append, releasedWhileHeld_append, heldAfter,
          releasedWhileHeld, heldAfter_optional_run]
    | Destroy =>
      cases l <;> cases pw <;> cases pc <;>
        simp_all [System.Permitted, System.WellFormed, System.step, destructor,
          System.record, System.held] <;>
        (try subst hstep) <;>
        simp_all [System.held, heldAfter_append, releasedWhileHeld_append, heldAfter,
          releasedWhileHeld, heldAfter_optional_run]

/-- Along a trace that obeys the caller contract the log stays in step with the
writer and no release request is sent while the local writer is held. -/
theorem System.exec_owned (env : Env L) (file_path : FilePath) (trace : List Call) :
    ∀ s s' : System L, s.WellFormed → s.ForPath file_path →
      heldAfter false s.log = decide (s.held = 1) →
      releasedWhileHeld false s.log = false →
      System.exec env s trace = some s' →
      heldAfter false s'.log = decide (s'.held = 1) ∧
        releasedWhileHeld false s'.log = false := by
  induction trace with
  | nil =>
    intro s s' _ _ hheld hreleased hexec
    simp only [System.exec, Option.some.injEq] at hexec
    subst hexec
    exact ⟨hheld, hreleased⟩
  | cons c cs ih =>
    intro s s' hwf hpath hheld hreleased hexec
    rw [System.exec_cons] at hexec
    obtain ⟨hperm, s1, hstep, hrest⟩ := hexec
    obtain ⟨s1', hstep', hwf1, hpath1, _, _⟩ :=
      System.step_of_permitted env s c file_path hwf hpath hperm
    rw [hstep] at hstep'
    cases hstep'
    obtain ⟨hheld1, hreleased1⟩ := System.step_owned env s s1 c hwf hperm hstep hheld hreleased
    exact ih s1 s' hwf1 hpath1 hheld1 hreleased1 hrest

/-- C12: the destructor of a `Ready` writer first drops the local writer and
then sends the release request: its effects are `reset()` followed by
`CloseFile`, and the release is not sent while the local writer is held. The
same holds over any trace that obeys the caller contract from construction: no
release request in the log is sent while the local writer is held. -/
theorem local_writer_dropped_before_release :
    (∀ (w : WebkitFileStreamWriterImpl L) (l : L), Ready w l →
      destructor w = [Effect.ResetLocalFileWriter, Effect.CloseFile w.file_path_] ∧
      releasedWhileHeld true (destructor w) = false ∧
      heldAfter true (destructor w) = false) ∧
    (∀ (env : Env L) (file_path : FilePath) (offset : Int) (trace : List Call)
      (s : System L),
      System.exec env (System.init file_path offset) trace = some s →
      releasedWhileHeld false s.log = false) := by
  constructor
  · intro w l hstate
    simp [destructor, hstate.1, releasedWhileHeld, heldAfter]
  · intro env file_path offset trace s hexec
    obtain ⟨hwf, hpath, hheld⟩ := System.init_wellFormed (L := L) file_path offset
    exact (System.exec_owned env file_path trace _ s hwf hpath
      (by rw [hheld]; rfl) rfl
      hexec).2

/-- Scenario of C12: a `Ready` writer for "doc.txt" is destroyed; and the trace
write, resolution, destruction. -/
theorem local_writer_dropped_before_release_witness :
    destructor ({ (create "doc.txt" 0 : WebkitFileStreamWriterImpl Int) with
      local_file_writer_ := some 2 }) = [Effect.ResetLocalFileWriter, Effect.CloseFile "doc.txt"] ∧
    releasedWhileHeld false
      [Effect.CreateWritableSnapshotFile "doc.txt" [65, 66] 2,
        Effect.NewLocalFileStreamWriter "/tmp/x" 0, Effect.LocalWrite [65, 66] 2 7,
        Effect.Run 7 2, Effect.ResetLocalFileWriter, Effect.CloseFile "doc.txt"] = false :=
  ⟨((local_writer_dropped_before_release (L := Int)).1
      ({ (create "doc.txt" 0 : WebkitFileStreamWriterImpl Int) with
        local_file_writer_ := some 2 }) 2 ⟨rfl, rfl, rfl⟩).1,
    (local_writer_dropped_before_release (L := Int)).2 syncEnv "doc.txt" 0
      [Call.Write [65, 66] 2 7, Call.Resolve PLATFORM_FILE_OK "/tmp/x", Call.Destroy]
      { writer := none, in_flight := [],
        log := [Effect.CreateWritableSnapshotFile "doc.txt" [65, 66] 2,
          Effect.NewLocalFileStreamWriter "/tmp/x" 0, Effect.LocalWrite [65, 66] 2 7,
          Effect.Run 7 2, Effect.ResetLocalFileWriter, Effect.CloseFile "doc.txt"] }
      rfl⟩

end Ownership

/-! ## Flush without a local writer -/

section FlushWithoutLocalWriter

open WebkitFileStreamWriterImpl

variable {L : Type}

/-- Counterexample to C13: "doc.txt" is being materialized for callback 7 and
`Flush` comes with callback 10. The `DCHECK` of line 137 ("There shouldn't be
in-flight Write operation") fails, so with `DCHECK`s enabled `Flush` does not
return `OK`: it does not return. -/
theorem Flush_in_Materializing_fails_DCHECK :
    Materializing ({ (create "doc.txt" 0 : WebkitFileStreamWriterImpl Int) with
      pending_write_callback_ := some 7 }) 7 ∧
    Flush_DCHECK ({ (create "doc.txt" 0 : WebkitFileStreamWriterImpl Int) with
      pending_write_callback_ := some 7 }) = false ∧
    Flush_DCHECK_on syncLocalWriter
      ({ (create "doc.txt" 0 : WebkitFileStreamWriterImpl Int) with
        pending_write_callback_ := some 7 }) 10 = none ∧
    Flush_DCHECK_on syncLocalWriter
      ({ (create "doc.txt" 0 : WebkitFileStreamWriterImpl Int) with
        pending_write_callback_ := some 7 }) 10 ≠
      some (OK, { (create "doc.txt" 0 : WebkitFileStreamWriterImpl Int) with
        pending_write_callback_ := some 7 }, []) := by
  refine ⟨⟨rfl, rfl, rfl⟩, rfl, rfl, ?_⟩
  simp [Flush_DCHECK_on, Flush_DCHECK, create]

/-- C13, amended: `Flush` in `Materializing` is outside the asserted
precondition of the method: the `DCHECK` of line 137 fails, and with `DCHECK`s
enabled the call does not return. With `DCHECK`s compiled out it returns `OK`,
has no effect at all (no callback run, nothing sent to the file system) and
returns the writer as it was, so the resolution that follows does exactly what
it does without the `Flush`. -/
theorem Flush_in_Materializing (env : Env L) (w : WebkitFileStreamWriterImpl L)
    (write_callback callback : CompletionCallback) (hstate : Materializing w write_callback) :
    Flush_DCHECK w = false ∧
    Flush_DCHECK_on env.local_writer w callback = none ∧
    Flush env.local_writer w callback = (OK, w, []) ∧
    (Flush env.local_writer w callback).2.1.pending_write_callback_ = some write_callback ∧
    ∀ buf buf_len open_result local_path,
      WriteAfterCreateWritableSnapshotFile env (Flush env.local_writer w callback).2.1
          buf buf_len open_result local_path =
        WriteAfterCreateWritableSnapshotFile env w buf buf_len open_result local_path := by
  obtain ⟨hlocal, hwrite, hcancel⟩ := hstate
  have hflush : Flush env.local_writer w callback = (OK, w, []) := by
    simp [Flush, hlocal]
  refine ⟨?_, ?_, hflush, ?_, ?_⟩
  · simp [Flush_DCHECK, hlocal, hwrite, hcancel]
  · simp [Flush_DCHECK_on, Flush_DCHECK, hlocal, hwrite, hcancel]
  · rw [hflush]
    exact hwrite
  · intro buf buf_len open_result local_path
    rw [hflush]

/-- Scenario of amended C13: "doc.txt" is being materialized for callback 7 and
`Flush` comes with callback 10. -/
theorem Flush_in_Materializing_witness :
    Materializing ({ (create "doc.txt" 0 : WebkitFileStreamWriterImpl Int) with
      pending_write_callback_ := some 7 }) 7 ∧
    Flush syncEnv.local_writer ({ (create "doc.txt" 0 : WebkitFileStreamWriterImpl Int) with
      pending_write_callback_ := some 7 }) 10 =
      (OK, { (create "doc.txt" 0 : WebkitFileStreamWriterImpl Int) with
        pending_write_callback_ := some 7 }, []) :=
  ⟨⟨rfl, rfl, rfl⟩,
    (Flush_in_Materializing syncEnv
      ({ (create "doc.txt" 0 : WebkitFileStreamWriterImpl Int) with
        pending_write_callback_ := some 7 }) 7 10 ⟨rfl, rfl, rfl⟩).2.2.1⟩

/-- C14: in `Empty`, `Flush` passes its `DCHECK`s, returns `OK`, has no effect
at all (no callback run, nothing sent to the file system, no local writer
built) and returns the writer as it was. -/
theorem Flush_in_Empty (lw : LocalFileStreamWriter L) (w : WebkitFileStreamWriterImpl L)
    (callback : CompletionCallback) (hstate : Empty w) :
    Flush lw w callback = (OK, w, []) ∧
    Flush_DCHECK_on lw w callback = some (OK, w, []) ∧
    (Flush lw w callback).2.1.local_file_writer_ = none := by
  obtain ⟨hlocal, hwrite, hcancel⟩ := hstate
  have hflush : Flush lw w callback = (OK, w, []) := by
    simp [Flush, hlocal]
  refine ⟨hflush, ?_, ?_⟩
  · simp [Flush_DCHECK_on, Flush_DCHECK, hlocal, hwrite, hcancel, hflush]
  · rw [hflush]
    exact hlocal

/-- Scenario of C14: `Flush` on a fresh writer for "doc.txt". -/
theorem Flush_in_Empty_witness :
    Empty (create "doc.txt" 0 : WebkitFileStreamWriterImpl Int) ∧
    Flush syncLocalWriter (create "doc.txt" 0) 10 = (OK, create "doc.txt" 0, []) :=
  ⟨⟨rfl, rfl, rfl⟩,
    (Flush_in_Empty syncLocalWriter (create "doc.txt" 0) 10 ⟨rfl, rfl, rfl⟩).1⟩

end FlushWithoutLocalWriter

/-! ## Outstanding snapshot requests -/

section Outstanding

open WebkitFileStreamWriterImpl

variable {L : Type}

/-- Counterexample to C15: after `Write` and `Cancel` on a writer for
"doc.txt" (a trace that obeys the caller contract) there is no local writer and
no pending write callback, and the snapshot request is still outstanding. -/
theorem request_outstanding_after_Cancel :
    System.exec syncEnv (System.init "doc.txt" 0) [Call.Write [65, 66] 2 7, Call.Cancel 8] =
      some { writer := some { file_path_ := "doc.txt", offset_ := 0,
                              local_file_writer_ := none,
                              pending_write_callback_ := none,
                              pending_cancel_callback_ := some 8 },
             in_flight := [([65, 66], 2)],
             log := [Effect.CreateWritableSnapshotFile "doc.txt" [65, 66] 2] } := by
  rfl

/-- C15, amended: in every state reached under the caller contract, if both
the pending write callback and the pending cancel callback are absent then no
snapshot request is outstanding; if the local writer and the pending write
callback are absent and a request is outstanding, a cancel callback is pending
(the write was preempted by `Cancel` and the request has not resolved). -/
theorem no_request_without_pending_callback (env : Env L) (file_path : FilePath)
    (offset : Int) (trace : List Call) (s : System L) (w : WebkitFileStreamWriterImpl L)
    (hexec : System.exec env (System.init file_path offset) trace = some s)
    (hwriter : s.writer = some w) :
    (w.pending_write_callback_ = none → w.pending_cancel_callback_ = none →
      s.in_flight = []) ∧
    (w.local_file_writer_ = none → w.pending_write_callback_ = none → s.in_flight ≠ [] →
      ∃ c, CancelledWhileMaterializing w c) := by
  obtain ⟨hwf0, hpath0, _⟩ := System.init_wellFormed (L := L) file_path offset
  obtain ⟨hwf, _, _, _⟩ := System.exec_invariant env file_path trace _ s hwf0 hpath0 hexec
  simp only [System.WellFormed, hwriter] at hwf
  obtain ⟨_, _, hlen⟩ := hwf
  constructor
  · intro hwrite hcancel
    simpa [hwrite, hcancel] using hlen
  · intro hlocal hwrite hout
    cases hcancel : w.pending_cancel_callback_ with
    | none =>
      exact absurd (by simpa [hwrite, hcancel] using hlen) hout
    | some c => exact ⟨c, hlocal, hwrite, hcancel⟩

/-- Scenario of amended C15: the state after `Write` and a failed resolution. -/
theorem no_request_without_pending_callback_witness :
    System.exec syncEnv (System.init "doc.txt" 0)
        [Call.Write [65, 66] 2 7, Call.Resolve (-1) ""] =
      some { writer := some (create "doc.txt" 0), in_flight := [],
             log := [Effect.CreateWritableSnapshotFile "doc.txt" [65, 66] 2,
               Effect.Run 7 (-1)] } ∧
    ([] : List (IOBuffer × Int)) = [] :=
  ⟨by rfl,
    (no_request_without_pending_callback syncEnv "doc.txt" 0
      [Call.Write [65, 66] 2 7, Call.Resolve (-1) ""]
      { writer := some (create "doc.txt" 0), in_flight := [],
        log := [Effect.CreateWritableSnapshotFile "doc.txt" [65, 66] 2, Effect.Run 7 (-1)] }
      (create "doc.txt" 0) (by rfl) rfl).1 rfl rfl⟩

end Outstanding

/-! ## Completion of pending calls -/

section Completion

open WebkitFileStreamWriterImpl

variable {L : Type}

/-- Counterexample to C16: `Write` with callback 7 on a fresh writer for
"doc.txt" returns `ERR_IO_PENDING`; `Cancel` with callback 8 follows and the
snapshot request then succeeds. The materialization has resolved (no request is
outstanding) and callback 7 has been run zero times, not once. -/
theorem preempted_Write_callback_not_run :
    System.returned syncEnv (System.init "doc.txt" 0) (Call.Write [65, 66] 2 7) =
      some ERR_IO_PENDING ∧
    System.exec syncEnv (System.init "doc.txt" 0)
        [Call.Write [65, 66] 2 7, Call.Cancel 8, Call.Resolve PLATFORM_FILE_OK "/tmp/x"] =
      some { writer := some (create "doc.txt" 0), in_flight := [],
             log := [Effect.CreateWritableSnapshotFile "doc.txt" [65, 66] 2,
               Effect.CloseFile "doc.txt", Effect.Run 8 OK] } ∧
    runCount 7 [Effect.CreateWritableSnapshotFile "doc.txt" [65, 66] 2,
      Effect.CloseFile "doc.txt", Effect.Run 8 OK] = 0 ∧
    System.handedOverAlong syncEnv (System.init "doc.txt" 0)
        [Call.Write [65, 66] 2 7, Call.Cancel 8, Call.Resolve PLATFORM_FILE_OK "/tmp/x"] = [] := by
  refine ⟨by rfl, by rfl, by decide, by rfl⟩

/-- The writer's own runs of a callback in a concatenation of effects. -/
theorem runCount_append (callback : CompletionCallback) (a b : List Effect) :
    runCount callback (a ++ b) = runCount callback a + runCount callback b := by
  simp [runCount, runsOf_append]

/-- C16, amended. A `Write` that the writer itself answers with
`ERR_IO_PENDING` leaves the writer `Materializing`. When the request resolves
and no `Cancel` came in between: on failure the handler runs the callback once
and delegates nothing; on success the handler's effects contain exactly one
delegated write, carrying the callback, to the local writer it has built, and
the handler runs the callback once if that write answers synchronously and not
at all if it answers `ERR_IO_PENDING`, in which case the callback is with the
local writer through that one delegation. So the callback is run exactly once
by the writer or left exactly once with the local writer, never both. When a
`Cancel` came in between, the write callback is never run and nothing is
delegated. A `Cancel` that the writer itself answers with `ERR_IO_PENDING` has
its callback run exactly once, with `OK`, when the request resolves. An
operation delegated in the presence of a local writer that answers
`ERR_IO_PENDING` is left with the local writer, by the one delegation among the
effects, and not run by the writer. -/
theorem pending_call_completed_once (env : Env L) (w : WebkitFileStreamWriterImpl L) :
    (∀ buf buf_len callback, w.local_file_writer_ = none → w.Write_DCHECK = true →
      (Write env.local_writer w buf buf_len callback).1 = ERR_IO_PENDING →
      Materializing (Write env.local_writer w buf buf_len callback).2.1 callback ∧
      (∀ open_result local_path, ∃ w' effects,
        WriteAfterCreateWritableSnapshotFile env
          (Write env.local_writer w buf buf_len callback).2.1
          buf buf_len open_result local_path = some (w', effects) ∧
        (open_result ≠ PLATFORM_FILE_OK →
          runsOf effects = [(callback, env.PlatformFileErrorToNetError open_result)] ∧
          delegatedCount callback effects = 0 ∧ localWritesOf effects = []) ∧
        (open_result = PLATFORM_FILE_OK →
          localWritesOf effects = [(buf, buf_len, callback)] ∧
          delegatedCount callback effects = 1 ∧
          w'.local_file_writer_ = some (env.local_writer.Write
            (env.local_writer.create local_path w.offset_) buf buf_len callback).2 ∧
          ((env.local_writer.Write (env.local_writer.create local_path w.offset_)
              buf buf_len callback).1 ≠ ERR_IO_PENDING →
            runsOf effects = [(callback, (env.local_writer.Write
              (env.local_writer.create local_path w.offset_) buf buf_len callback).1)]) ∧
          ((env.local_writer.Write (env.local_writer.create local_path w.offset_)
              buf buf_len callback).1 = ERR_IO_PENDING →
            runsOf effects = [])) ∧
        runCount callback effects +
          (if open_result = PLATFORM_FILE_OK ∧
              (env.local_writer.Write (env.local_writer.create local_path w.offset_)
                buf buf_len callback).1 = ERR_IO_PENDING
            then delegatedCount callback effects else 0) = 1 ∧
        (handedOverAfterCreate env (Write env.local_writer w buf buf_len callback).2.1
            buf buf_len open_result local_path).count callback =
          (if open_result = PLATFORM_FILE_OK ∧
              (env.local_writer.Write (env.local_writer.create local_path w.offset_)
                buf buf_len callback).1 = ERR_IO_PENDING
            then delegatedCount callback effects else 0)) ∧
      (∀ c open_result local_path, c ≠ callback → ∃ w' effects,
        (Cancel env.local_writer (Write env.local_writer w buf buf_len callback).2.1 c).1
          = ERR_IO_PENDING ∧
        WriteAfterCreateWritableSnapshotFile env
          (Cancel env.local_writer (Write env.local_writer w buf buf_len callback).2.1 c).2.1
          buf buf_len open_result local_path = some (w', effects) ∧
        runCount callback effects = 0 ∧
        runCount c effects = 1 ∧
        delegatedCount callback effects = 0 ∧
        localWritesOf effects = [] ∧
        w'.local_file_writer_ = none)) ∧
    (∀ c, w.local_file_writer_ = none →
      (Cancel env.local_writer w c).1 = ERR_IO_PENDING →
      CancelledWhileMaterializing (Cancel env.local_writer w c).2.1 c ∧
      ∀ buf buf_len open_result local_path, ∃ w' effects,
        WriteAfterCreateWritableSnapshotFile env (Cancel env.local_writer w c).2.1
          buf buf_len open_result local_path = some (w', effects) ∧
        runsOf effects = [(c, OK)] ∧
        runCount c effects = 1 ∧
        delegatedCount c effects = 0) ∧
    (∀ l op, w.local_file_writer_ = some l →
      (w.apply env.local_writer op).1 = ERR_IO_PENDING →
      (w.apply env.local_writer op).2.2 = [op.delegation] ∧
      runCount op.callback (w.apply env.local_writer op).2.2 = 0 ∧
      delegatedCount op.callback (w.apply env.local_writer op).2.2 = 1 ∧
      (env.local_writer.apply l op).1 = ERR_IO_PENDING ∧
      (w.apply env.local_writer op).2.1.local_file_writer_
        = some (env.local_writer.apply l op).2) := by
  obtain ⟨fp, off, l, pw, pc⟩ := w
  refine ⟨?_, ?_, ?_⟩
  · intro buf buf_len callback hlocal hdcheck hret
    simp only at hlocal
    subst hlocal
    have hpw : pw = none := by
      cases pw <;> simp_all [Write_DCHECK]
    have hpc : pc = none := by
      cases pc <;> simp_all [Write_DCHECK]
    subst hpw hpc
    by_cases hempty : fp = ""
    · simp [Write, hempty, ERR_FILE_NOT_FOUND, ERR_IO_PENDING] at hret
    · refine ⟨by simp [Write, hempty, Materializing], ?_, ?_⟩
      · intro open_result local_path
        by_cases hok : open_result = PLATFORM_FILE_OK
        · by_cases hpending : (env.local_writer.Write
              (env.local_writer.create local_path off) buf buf_len callback).1 = ERR_IO_PENDING
          · refine ⟨(⟨fp, off, some (env.local_writer.Write
                (env.local_writer.create local_path off) buf buf_len callback).2, none, none⟩ :
                WebkitFileStreamWriterImpl L), [Effect.NewLocalFileStreamWriter local_path off,
                Effect.LocalWrite buf buf_len callback], ?_, ?_⟩
            · simp [Write, hempty, WriteAfterCreateWritableSnapshotFile, hok, hpending]
            · simp [Write, hempty, handedOverAfterCreate, hok, hpending, runCount, runsOf,
                localWritesOf, delegatedCount]
          · refine ⟨(⟨fp, off, some (env.local_writer.Write
                (env.local_writer.create local_path off) buf buf_len callback).2, none, none⟩ :
                WebkitFileStreamWriterImpl L), [Effect.NewLocalFileStreamWriter local_path off,
                Effect.LocalWrite buf buf_len callback,
                Effect.Run callback (env.local_writer.Write
                  (env.local_writer.create local_path off) buf buf_len callback).1], ?_, ?_⟩
            · simp [Write, hempty, WriteAfterCreateWritableSnapshotFile, hok, hpending]
            · simp [Write, hempty, handedOverAfterCreate, hok, hpending, runCount, runsOf,
                localWritesOf, delegatedCount]
        · refine ⟨(⟨fp, off, none, none, none⟩ : WebkitFileStreamWriterImpl L),
            [Effect.Run callback (env.PlatformFileErrorToNetError open_result)], ?_, ?_⟩
          · simp [Write, hempty, WriteAfterCreateWritableSnapshotFile, hok]
          · simp [Write, hempty, handedOverAfterCreate, hok, runCount, runsOf,
              localWritesOf, delegatedCount]
      · intro c open_result local_path hne
        by_cases hok : open_result = PLATFORM_FILE_OK
        · refine ⟨(⟨fp, off, none, none, none⟩ : WebkitFileStreamWriterImpl L),
            [Effect.CloseFile fp, Effect.Run c OK], ?_, ?_, ?_⟩
          · simp [Write, Cancel, hempty]
          · simp [Write, Cancel, hempty, WriteAfterCreateWritableSnapshotFile, hok]
          · simp [Write, Cancel, hempty, runCount, runsOf, localWritesOf, delegatedCount,
              List.count_cons, hne]
        · refine ⟨(⟨fp, off, none, none, none⟩ : WebkitFileStreamWriterImpl L),
            [Effect.Run c OK], ?_, ?_, ?_⟩
          · simp [Write, Cancel, hempty]
          · simp [Write, Cancel, hempty, WriteAfterCreateWritableSnapshotFile, hok]
          · simp [Write, Cancel, hempty, runCount, runsOf, localWritesOf, delegatedCount,
              List.count_cons, hne]
  · intro c hlocal hret
    simp only at hlocal
    subst hlocal
    cases pw with
    | none => simp [Cancel, ERR_UNEXPECTED, ERR_IO_PENDING] at hret
    | some write_callback =>
      refine ⟨by simp [Cancel, CancelledWhileMaterializing], ?_⟩
      intro buf buf_len open_result local_path
      by_cases hok : open_result = PLATFORM_FILE_OK
      · refine ⟨(⟨fp, off, none, none, none⟩ : WebkitFileStreamWriterImpl L),
          [Effect.CloseFile fp, Effect.Run c OK], ?_, ?_⟩
        · simp [Cancel, WriteAfterCreateWritableSnapshotFile, hok]
        · simp [runCount, runsOf, delegatedCount]
      · refine ⟨(⟨fp, off, none, none, none⟩ : WebkitFileStreamWriterImpl L),
          [Effect.Run c OK], ?_, ?_⟩
        · simp [Cancel, WriteAfterCreateWritableSnapshotFile, hok]
        · simp [runCount, runsOf, delegatedCount]
  · intro l' op hlocal hret
    simp only at hlocal
    subst hlocal
    cases op <;>
      simp_all [WebkitFileStreamWriterImpl.apply, Write, Cancel, Flush,
        LocalFileStreamWriter.apply, StreamOp.callback, StreamOp.delegation, runCount, runsOf,
        delegatedCount]

/-- Scenario of amended C16, with the asynchronous local writer: `Write` with
callback 7 on a fresh writer for "doc.txt" and the snapshot arrives: the
handler delegates the write with callback 7 to the local writer it built and
does not run the callback. With the synchronous local writer and the platform
error -1 the handler runs callback 7 once. A delegated `Write` with callback 9
on a writer that has a local writer is left with it. -/
theorem pending_call_completed_once_witness :
    Materializing (Write asyncEnv.local_writer
      (create "doc.txt" 0 : WebkitFileStreamWriterImpl Int) [65, 66] 2 7).2.1 7 ∧
    (∃ w' effects,
      WriteAfterCreateWritableSnapshotFile asyncEnv
        (Write asyncEnv.local_writer (create "doc.txt" 0) [65, 66] 2 7).2.1
        [65, 66] 2 PLATFORM_FILE_OK "/tmp/x" = some (w', effects) ∧
      localWritesOf effects = [([65, 66], 2, 7)] ∧
      delegatedCount 7 effects = 1 ∧
      w'.local_file_writer_ = some 2 ∧
      runsOf effects = []) ∧
    (∃ w' effects,
      WriteAfterCreateWritableSnapshotFile syncEnv
        (Write syncEnv.local_writer (create "doc.txt" 0) [65, 66] 2 7).2.1
        [65, 66] 2 (-1) "" = some (w', effects) ∧
      runsOf effects = [(7, -1)] ∧ delegatedCount 7 effects = 0) ∧
    (WebkitFileStreamWriterImpl.apply asyncEnv.local_writer
        ({ (create "doc.txt" 0 : WebkitFileStreamWriterImpl Int) with
          local_file_writer_ := some 2 }) (StreamOp.Write [67] 1 9)).2.2
      = [Effect.LocalWrite [67] 1 9] := by
  refine ⟨?_, ?_, ?_, ?_⟩
  · exact ((pending_call_completed_once asyncEnv (create "doc.txt" 0)).1
      [65, 66] 2 7 rfl rfl (by rfl)).1
  · obtain ⟨w', effects, hrun, _, hok, _, _⟩ :=
      ((pending_call_completed_once asyncEnv (create "doc.txt" 0)).1
        [65, 66] 2 7 rfl rfl (by rfl)).2.1 PLATFORM_FILE_OK "/tmp/x"
    obtain ⟨h1, h2, h3, _, h5⟩ := hok rfl
    exact ⟨w', effects, hrun, h1, h2, h3, h5 (by rfl)⟩
  · obtain ⟨w', effects, hrun, hfail, _, _, _⟩ :=
      ((pending_call_completed_once syncEnv (create "doc.txt" 0)).1
        [65, 66] 2 7 rfl rfl (by rfl)).2.1 (-1) ""
    obtain ⟨h1, h2, _⟩ := hfail (by decide)
    exact ⟨w', effects, hrun, h1, h2⟩
  · exact ((pending_call_completed_once asyncEnv
      ({ (create "doc.txt" 0 : WebkitFileStreamWriterImpl Int) with
        local_file_writer_ := some 2 })).2.2 2 (StreamOp.Write [67] 1 9) rfl (by rfl)).1

/-- Callbacks passed along a trace, counted call by call. -/
theorem callbacksOf_cons_count (callback : CompletionCallback) (c : Call) (cs : List Call) :
    (callbacksOf (c :: cs)).count callback =
      (callbacksOf [c]).count callback + (callbacksOf cs).count callback := by
  cases c <;> simp [callbacksOf, List.count_cons, Nat.add_comm]

/-- One defined step accounts for every callback: what the writer runs, what
it leaves with the local writer and what it still stores afterwards is covered
by what it stored before and what the call passed in. -/
theorem System.step_accounts (env : Env L) (s s' : System L) (c : Call)
    (callback : CompletionCallback) (hstep : s.step env c = some s') :
    runCount callback s'.log + (s.handedOver env c).count callback + s'.stored callback ≤
      runCount callback s.log + s.stored callback + (callbacksOf [c]).count callback := by
  obtain ⟨writer, in_flight, log⟩ := s
  cases writer with
  | none =>
    cases c with
    | Resolve open_result local_path =>
      cases in_flight <;> simp [System.step] at hstep
      subst hstep
      simp [System.handedOver, System.stored, callbacksOf]
    | _ => simp_all [System.step]
  | some w =>
    obtain ⟨fp, off, l, pw, pc⟩ := w
    cases c with
    | Write buf buf_len cb =>
      by_cases hempty : fp = "" <;> cases l <;> cases pw <;> cases pc <;>
        simp [System.step, System.record, Write] at hstep <;>
        (try subst hstep) <;>
        simp [System.handedOver, WebkitFileStreamWriterImpl.handedOver,
          WebkitFileStreamWriterImpl.handedOverAfterCreate, System.stored, callbacksOf,
          runCount_append, LocalFileStreamWriter.apply, StreamOp.callback, List.count_cons,
          runCount, runsOf, runsOf_append] <;>
        (try split_ifs) <;> (try simp_all [runsOf, runsOf_append, List.count_cons])
    | Cancel cb =>
      cases l <;> cases pw <;> cases pc <;>
        simp [System.step, System.record, Cancel] at hstep <;>
        (try subst hstep) <;>
        simp [System.handedOver, WebkitFileStreamWriterImpl.handedOver,
          WebkitFileStreamWriterImpl.handedOverAfterCreate, System.stored, callbacksOf,
          runCount_append, LocalFileStreamWriter.apply, StreamOp.callback, List.count_cons,
          runCount, runsOf, runsOf_append] <;>
        (try split_ifs) <;> (try simp_all [runsOf, runsOf_append, List.count_cons])
    | Flush cb =>
      cases l <;> cases pw <;> cases pc <;>
        simp [System.step, System.record, Flush] at hstep <;>
        (try subst hstep) <;>
        simp [System.handedOver, WebkitFileStreamWriterImpl.handedOver,
          WebkitFileStreamWriterImpl.handedOverAfterCreate, System.stored, callbacksOf,
          runCount_append, LocalFileStreamWriter.apply, StreamOp.callback, List.count_cons,
          runCount, runsOf, runsOf_append] <;>
        (try split_ifs) <;> (try simp_all [runsOf, runsOf_append, List.count_cons])
    | Resolve open_result local_path =>
      cases in_flight with
      | nil => simp [System.step] at hstep
      | cons request rest =>
        by_cases hok : open_result = PLATFORM_FILE_OK <;>
        cases l <;> cases pw <;> cases pc <;>
        simp [System.step, System.record, WriteAfterCreateWritableSnapshotFile, hok] at hstep <;>
        (try subst hstep) <;>
        simp [System.handedOver, WebkitFileStreamWriterImpl.handedOver,
          WebkitFileStreamWriterImpl.handedOverAfterCreate, System.stored, callbacksOf,
          runCount_append, LocalFileStreamWriter.apply, StreamOp.callback, List.count_cons,
          runCount, runsOf, runsOf_append] <;>
        (try split_ifs) <;> (try simp_all [runsOf, runsOf_append, List.count_cons])
    | Destroy =>
      cases l <;> cases pw <;> cases pc <;>
        simp [System.step, System.record, destructor] at hstep <;>
        (try subst hstep) <;>
        simp [System.handedOver, WebkitFileStreamWriterImpl.handedOver,
          WebkitFileStreamWriterImpl.handedOverAfterCreate, System.stored, callbacksOf,
          runCount_append, LocalFileStreamWriter.apply, StreamOp.callback, List.count_cons,
          runCount, runsOf, runsOf_append]

/-- A trace accounts for every callback: what the writer runs, what it leaves
with the local writer and what it still stores at the end is covered by what it
stored at the start and what the calls passed in. -/
theorem System.exec_accounts (env : Env L) (callback : CompletionCallback)
    (trace : List Call) :
    ∀ s s' : System L, System.exec env s trace = some s' →
      runCount callback s'.log + (System.handedOverAlong env s trace).count callback
          + s'.stored callback ≤
        runCount callback s.log + s.stored callback + (callbacksOf trace).count callback := by
  induction trace with
  | nil =>
    intro s s' hexec
    simp only [System.exec, Option.some.injEq] at hexec
    subst hexec
    simp [System.handedOverAlong, callbacksOf]
  | cons c cs ih =>
    intro s s' hexec
    rw [System.exec_cons] at hexec
    obtain ⟨_, s1, hstep, hrest⟩ := hexec
    have h1 := System.step_accounts env s s1 c callback hstep
    have h2 := ih s1 s' hrest
    have h3 := callbacksOf_cons_count callback c cs
    simp only [System.handedOverAlong, hstep, List.count_append]
    omega

end Completion

/-! ## Failure of the snapshot request -/

section Failure

open WebkitFileStreamWriterImpl

variable {L : Type}

/-- Counterexample to C18: a cancel with callback 8 is pending on a writer for
"doc.txt" and the request fails with the platform error -1. Callback 8 is run
with `OK`, which is not the error that corresponds to -1. -/
theorem failure_not_surfaced_to_Cancel :
    CancelledWhileMaterializing ({ (create "doc.txt" 0 : WebkitFileStreamWriterImpl Int) with
      pending_cancel_callback_ := some 8 }) 8 ∧
    WriteAfterCreateWritableSnapshotFile syncEnv
      ({ (create "doc.txt" 0 : WebkitFileStreamWriterImpl Int) with
        pending_cancel_callback_ := some 8 }) [65, 66] 2 (-1) "" =
      some (create "doc.txt" 0, [Effect.Run 8 OK]) ∧
    OK ≠ syncEnv.PlatformFileErrorToNetError (-1) := by
  refine ⟨⟨rfl, rfl, rfl⟩, by rfl, by decide⟩

/-- C18, amended: a resolution with a failure code runs exactly one callback,
exactly once, namely the one pending at that moment. In `Materializing` it is
the write callback, run with `PlatformFileErrorToNetError(open_result)`. In
`CancelledWhileMaterializing` it is the cancel callback, run with `OK`: the
failure is not passed on. In both cases nothing else happens and the writer is
left `Empty`. -/
theorem resolution_failure_runs_pending_callback (env : Env L)
    (w : WebkitFileStreamWriterImpl L) (callback : CompletionCallback)
    (buf : IOBuffer) (buf_len : Int) (open_result : Int) (local_path : FilePath)
    (hfail : open_result ≠ PLATFORM_FILE_OK) :
    (Materializing w callback → ∃ w',
      WriteAfterCreateWritableSnapshotFile env w buf buf_len open_result local_path =
        some (w', [Effect.Run callback (env.PlatformFileErrorToNetError open_result)]) ∧
      Empty w') ∧
    (CancelledWhileMaterializing w callback → ∃ w',
      WriteAfterCreateWritableSnapshotFile env w buf buf_len open_result local_path =
        some (w', [Effect.Run callback OK]) ∧
      Empty w') := by
  constructor
  · rintro ⟨hlocal, hwrite, hcancel⟩
    refine ⟨{ w with pending_write_callback_ := none }, ?_, ⟨hlocal, rfl, hcancel⟩⟩
    simp [WriteAfterCreateWritableSnapshotFile, hwrite, hcancel, hfail]
  · rintro ⟨hlocal, hwrite, hcancel⟩
    refine ⟨{ w with pending_cancel_callback_ := none }, ?_, ⟨hlocal, hwrite, rfl⟩⟩
    simp [WriteAfterCreateWritableSnapshotFile, hcancel, hfail]

/-- Scenario of amended C18: the platform error -1 arrives while the write
callback 7 is pending, and while the cancel callback 8 is pending. -/
theorem resolution_failure_runs_pending_callback_witness :
    (-1 : Int) ≠ PLATFORM_FILE_OK ∧
    (∃ w', WriteAfterCreateWritableSnapshotFile syncEnv
        ({ (create "doc.txt" 0 : WebkitFileStreamWriterImpl Int) with
          pending_write_callback_ := some 7 }) [65, 66] 2 (-1) "" =
        some (w', [Effect.Run 7 (syncEnv.PlatformFileErrorToNetError (-1))]) ∧ Empty w') ∧
    (∃ w', WriteAfterCreateWritableSnapshotFile syncEnv
        ({ (create "doc.txt" 0 : WebkitFileStreamWriterImpl Int) with
          pending_cancel_callback_ := some 8 }) [65, 66] 2 (-1) "" =
        some (w', [Effect.Run 8 OK]) ∧ Empty w') :=
  ⟨by decide,
    (resolution_failure_runs_pending_callback syncEnv
      ({ (create "doc.txt" 0 : WebkitFileStreamWriterImpl Int) with
        pending_write_callback_ := some 7 }) 7 [65, 66] 2 (-1) "" (by decide)).1
      ⟨rfl, rfl, rfl⟩,
    (resolution_failure_runs_pending_callback syncEnv
      ({ (create "doc.txt" 0 : WebkitFileStreamWriterImpl Int) with
        pending_cancel_callback_ := some 8 }) 8 [65, 66] 2 (-1) "" (by decide)).2
      ⟨rfl, rfl, rfl⟩⟩

end Failure

/-! ## Overlapping writes -/

section Overlap

open WebkitFileStreamWriterImpl

variable {L : Type}

/-- Counterexample to C19: "doc.txt" is being materialized for callback 7 and
a second `Write` comes with callback 9. It returns `ERR_IO_PENDING`, posts a
second snapshot request and overwrites the pending write callback. -/
theorem overlapping_Write_returns_pending :
    Materializing ({ (create "doc.txt" 0 : WebkitFileStreamWriterImpl Int) with
      pending_write_callback_ := some 7 }) 7 ∧
    Write syncLocalWriter
      ({ (create "doc.txt" 0 : WebkitFileStreamWriterImpl Int) with
        pending_write_callback_ := some 7 }) [67] 1 9 =
      (ERR_IO_PENDING,
        { (create "doc.txt" 0 : WebkitFileStreamWriterImpl Int) with
          pending_write_callback_ := some 9 },
        [Effect.CreateWritableSnapshotFile "doc.txt" [67] 1]) := by
  refine ⟨⟨rfl, rfl, rfl⟩, by rfl⟩

/-- C19, amended: a `Write` issued in `Materializing` violates the `DCHECK` of
line 85, so with `DCHECK`s enabled it does not return. It is not reported as an
error result: with `DCHECK`s compiled out it returns `ERR_IO_PENDING`, posts a
second snapshot request for `file_path_` and replaces the pending write
callback by its own. -/
theorem overlapping_Write (lw : LocalFileStreamWriter L) (w : WebkitFileStreamWriterImpl L)
    (pending callback : CompletionCallback) (buf : IOBuffer) (buf_len : Int)
    (hstate : Materializing w pending) (hpath : w.file_path_ ≠ "") :
    Write_DCHECK w = false ∧
    Write_DCHECK_on lw w buf buf_len callback = none ∧
    Write lw w buf buf_len callback =
      (ERR_IO_PENDING, { w with pending_write_callback_ := some callback },
        [Effect.CreateWritableSnapshotFile w.file_path_ buf buf_len]) := by
  obtain ⟨hlocal, hwrite, hcancel⟩ := hstate
  refine ⟨?_, ?_, ?_⟩
  · simp [Write_DCHECK, hwrite]
  · simp [Write_DCHECK_on, Write_DCHECK, hwrite]
  · simp [Write, hlocal, hpath]

/-- Scenario of amended C19: "doc.txt" is being materialized for callback 7 and
a second `Write` comes with callback 9. -/
theorem overlapping_Write_witness :
    Materializing ({ (create "doc.txt" 0 : WebkitFileStreamWriterImpl Int) with
      pending_write_callback_ := some 7 }) 7 ∧
    Write_DCHECK_on syncLocalWriter
      ({ (create "doc.txt" 0 : WebkitFileStreamWriterImpl Int) with
        pending_write_callback_ := some 7 }) [67] 1 9 = none :=
  ⟨⟨rfl, rfl, rfl⟩,
    (overlapping_Write syncLocalWriter
      ({ (create "doc.txt" 0 : WebkitFileStreamWriterImpl Int) with
        pending_write_callback_ := some 7 }) 7 9 [67] 1 ⟨rfl, rfl, rfl⟩ (by decide)).2.1⟩

end Overlap

/-! ## The local writer, once built -/

section Persistence

open WebkitFileStreamWriterImpl

variable {L : Type}

/-- Delegations build no local writer. -/
theorem constructionsOf_delegations (ops : List StreamOp) :
    constructionsOf (ops.map StreamOp.delegation) = [] := by
  induction ops with
  | nil => rfl
  | cons op ops ih => cases op <;> simpa [StreamOp.delegation, constructionsOf] using ih

/-- Delegations do not drop the local writer. -/
theorem reset_not_mem_delegations (ops : List StreamOp) :
    Effect.ResetLocalFileWriter ∉ ops.map StreamOp.delegation := by
  induction ops with
  | nil => simp
  | cons op ops ih => cases op <;> simpa [StreamOp.delegation] using ih

/-- From a well-formed state with a local writer, a trace that obeys the caller
contract and does not destroy the writer consists of delegated operations
only: the local writer is the one that was there, moved by exactly these
operations, the log grows by exactly the delegations, and no resolution is
part of the trace. -/
theorem System.exec_with_local (env : Env L) (file_path : FilePath) (after : List Call) :
    ∀ (s s' : System L) (w : WebkitFileStreamWriterImpl L) (l : L),
      s.WellFormed → s.ForPath file_path → s.writer = some w →
      w.local_file_writer_ = some l → Call.Destroy ∉ after →
      System.exec env s after = some s' →
      s'.writer = some { w with
        local_file_writer_ := some (env.local_writer.applyAll l (opsOf after)).2 } ∧
      s'.in_flight = s.in_flight ∧
      s'.log = s.log ++ (opsOf after).map StreamOp.delegation ∧
      ∀ x ∈ after, x.isResolve = false := by
  induction after with
  | nil =>
    intro s s' w l _ _ hwriter hlocal _ hexec
    simp only [System.exec, Option.some.injEq] at hexec
    subst hexec
    obtain ⟨fp, off, l0, pw, pc⟩ := w
    simp_all [opsOf, LocalFileStreamWriter.applyAll]
  | cons c cs ih =>
    intro s s' w l hwf hpath hwriter hlocal hnodestroy hexec
    rw [System.exec_cons] at hexec
    obtain ⟨hperm, s1, hstep, hrest⟩ := hexec
    obtain ⟨s1', hstep', hwf1, hpath1, _, _⟩ :=
      System.step_of_permitted env s c file_path hwf hpath hperm
    rw [hstep] at hstep'
    cases hstep'
    have hrestnodestroy : Call.Destroy ∉ cs := fun h => hnodestroy (List.mem_cons_of_mem _ h)
    obtain ⟨writer, in_flight, log⟩ := s
    obtain ⟨fp, off, l0, pw, pc⟩ := w
    simp only at hwriter hlocal
    subst hwriter hlocal
    cases c with
    | Write buf buf_len callback =>
      simp [System.step, Write, System.record, requestsOf] at hstep
      subst hstep
      obtain ⟨h1, h2, h3, h4⟩ := ih _ s' _ _ hwf1 hpath1 rfl rfl hrestnodestroy hrest
      simp [h1, h2, h3, opsOf, LocalFileStreamWriter.applyAll, LocalFileStreamWriter.apply,
        StreamOp.delegation, Call.isResolve]
      exact h4
    | Cancel callback =>
      simp [System.step, Cancel, System.record, requestsOf] at hstep
      subst hstep
      obtain ⟨h1, h2, h3, h4⟩ := ih _ s' _ _ hwf1 hpath1 rfl rfl hrestnodestroy hrest
      simp [h1, h2, h3, opsOf, LocalFileStreamWriter.applyAll, LocalFileStreamWriter.apply,
        StreamOp.delegation, Call.isResolve]
      exact h4
    | Flush callback =>
      simp [System.step, Flush, System.record, requestsOf] at hstep
      subst hstep
      obtain ⟨h1, h2, h3, h4⟩ := ih _ s' _ _ hwf1 hpath1 rfl rfl hrestnodestroy hrest
      simp [h1, h2, h3, opsOf, LocalFileStreamWriter.applyAll, LocalFileStreamWriter.apply,
        StreamOp.delegation, Call.isResolve]
      exact h4
    | Resolve open_result local_path =>
      have hnone := hwf.1 rfl
      have hlen := hwf.2.2
      simp only at hnone
      simp only [hnone.1, hnone.2] at hlen
      have hempty : in_flight = [] := List.length_eq_zero.mp (by simpa using hlen)
      simp [System.Permitted, hempty] at hperm
    | Destroy => exact absurd (List.mem_cons_self _ _) hnodestroy

/-- C20: once the local writer exists in a state reached under the caller
contract, it stays through every `Write`, `Cancel` and `Flush` that follows
under the contract, up to destruction: it is present, it is the one that was
there, moved by exactly the operations delegated to it, and the writer's
effects are exactly these delegations, so no local writer is built and none is
dropped. No snapshot request is outstanding in such a state, before or after,
so no resolution can arrive to replace it. -/
theorem local_writer_persists (env : Env L) (file_path : FilePath) (offset : Int)
    (before after : List Call) (s s' : System L) (w : WebkitFileStreamWriterImpl L) (l : L)
    (hbefore : System.exec env (System.init file_path offset) before = some s)
    (hwriter : s.writer = some w) (hlocal : w.local_file_writer_ = some l)
    (hafter : System.exec env s after = some s') (hnodestroy : Call.Destroy ∉ after) :
    (∃ w', s'.writer = some w' ∧
      w'.local_file_writer_ = some (env.local_writer.applyAll l (opsOf after)).2) ∧
    (∃ effects, s'.log = s.log ++ effects ∧
      effects = (opsOf after).map StreamOp.delegation ∧
      constructionsOf effects = [] ∧
      Effect.ResetLocalFileWriter ∉ effects) ∧
    s.in_flight = [] ∧ s'.in_flight = [] ∧
    (∀ x ∈ after, x.isResolve = false) := by
  obtain ⟨hwf0, hpath0, _⟩ := System.init_wellFormed (L := L) file_path offset
  obtain ⟨hwf, hpath, _, _⟩ :=
    System.exec_invariant env file_path before _ s hwf0 hpath0 hbefore
  obtain ⟨h1, h2, h3, h4⟩ :=
    System.exec_with_local env file_path after s s' w l hwf hpath hwriter hlocal hnodestroy
      hafter
  have hshape := hwf
  simp only [System.WellFormed, hwriter] at hshape
  obtain ⟨hnone, _, hlen⟩ := hshape
  have hpending := hnone (by simp [hlocal])
  simp only [hpending.1, hpending.2] at hlen
  have hempty : s.in_flight = [] := List.length_eq_zero.mp (by simpa using hlen)
  refine ⟨⟨_, h1, rfl⟩, ⟨_, h3, rfl, constructionsOf_delegations _,
    reset_not_mem_delegations _⟩, hempty, h2.trans hempty, h4⟩

/-- Scenario of C20: after `Write` and a successful resolution the local writer
of "doc.txt" stands at byte 2; a `Write` of one byte, a `Flush` and a `Cancel`
follow. The local writer then stands at byte 3. -/
theorem local_writer_persists_witness :
    ∃ w' : WebkitFileStreamWriterImpl Int,
      (some { (create "doc.txt" 0 : WebkitFileStreamWriterImpl Int) with
        local_file_writer_ := some 3 }) = some w' ∧
      w'.local_file_writer_ = some (syncEnv.local_writer.applyAll 2
        (opsOf [Call.Write [67] 1 9, Call.Flush 10, Call.Cancel 11])).2 :=
  (local_writer_persists syncEnv "doc.txt" 0
    [Call.Write [65, 66] 2 7, Call.Resolve PLATFORM_FILE_OK "/tmp/x"]
    [Call.Write [67] 1 9, Call.Flush 10, Call.Cancel 11]
    { writer := some { (create "doc.txt" 0 : WebkitFileStreamWriterImpl Int) with
        local_file_writer_ := some 2 },
      in_flight := [],
      log := [Effect.CreateWritableSnapshotFile "doc.txt" [65, 66] 2,
        Effect.NewLocalFileStreamWriter "/tmp/x" 0, Effect.LocalWrite [65, 66] 2 7,
        Effect.Run 7 2] }
    { writer := some { (create "doc.txt" 0 : WebkitFileStreamWriterImpl Int) with
        local_file_writer_ := some 3 },
      in_flight := [],
      log := [Effect.CreateWritableSnapshotFile "doc.txt" [65, 66] 2,
        Effect.NewLocalFileStreamWriter "/tmp/x" 0, Effect.LocalWrite [65, 66] 2 7,
        Effect.Run 7 2, Effect.LocalWrite [67] 1 9, Effect.LocalFlush 10,
        Effect.LocalCancel 11] }
    ({ (create "doc.txt" 0 : WebkitFileStreamWriterImpl Int) with
      local_file_writer_ := some 2 })
    2 (by rfl) rfl rfl (by rfl) (by decide)).1

end Persistence

/-! ## Path and offset -/

section PathAndOffset

open WebkitFileStreamWriterImpl

variable {L : Type}

/-- Snapshot requests of a concatenation. -/
theorem snapshotRequestsOf_append (a b : List Effect) :
    snapshotRequestsOf (a ++ b) = snapshotRequestsOf a ++ snapshotRequestsOf b := by
  induction a with
  | nil => rfl
  | cons e es ih => cases e <;> simp [snapshotRequestsOf, ih]

/-- Constructions of a concatenation. -/
theorem constructionsOf_append (a b : List Effect) :
    constructionsOf (a ++ b) = constructionsOf a ++ constructionsOf b := by
  induction a with
  | nil => rfl
  | cons e es ih => cases e <;> simp [constructionsOf, ih]

/-- A trace that obeys the caller contract is in particular a run. -/
theorem System.run_of_exec (env : Env L) (trace : List Call) :
    ∀ s s' : System L, System.exec env s trace = some s' →
      System.run env s trace = some s' := by
  induction trace with
  | nil =>
    intro s s' hexec
    simpa [System.exec, System.run] using hexec
  | cons c cs ih =>
    intro s s' hexec
    rw [System.exec_cons] at hexec
    obtain ⟨_, s1, hstep, hrest⟩ := hexec
    simp [System.run, hstep, ih s1 s' hrest]

/-- Running a non-empty trace: the first step is defined and the rest runs
from its result. -/
theorem System.run_cons (env : Env L) (s s' : System L) (c : Call) (cs : List Call) :
    System.run env s (c :: cs) = some s' ↔
      ∃ s1, s.step env c = some s1 ∧ System.run env s1 cs = some s' := by
  simp only [System.run]
  cases hstep : s.step env c <;> simp

/-- Every method and the resolution handler leave `file_path_` and `offset_`
as they are. -/
theorem members_fixed (env : Env L) (w : WebkitFileStreamWriterImpl L) :
    (∀ buf buf_len callback,
      (Write env.local_writer w buf buf_len callback).2.1.file_path_ = w.file_path_ ∧
      (Write env.local_writer w buf buf_len callback).2.1.offset_ = w.offset_) ∧
    (∀ callback,
      (Cancel env.local_writer w callback).2.1.file_path_ = w.file_path_ ∧
      (Cancel env.local_writer w callback).2.1.offset_ = w.offset_) ∧
    (∀ callback,
      (Flush env.local_writer w callback).2.1.file_path_ = w.file_path_ ∧
      (Flush env.local_writer w callback).2.1.offset_ = w.offset_) ∧
    (∀ buf buf_len open_result local_path w' effects,
      WriteAfterCreateWritableSnapshotFile env w buf buf_len open_result local_path
        = some (w', effects) →
      w'.file_path_ = w.file_path_ ∧ w'.offset_ = w.offset_) := by
  obtain ⟨fp, off, l, pw, pc⟩ := w
  refine ⟨?_, ?_, ?_, ?_⟩
  · intro buf buf_len callback
    by_cases hempty : fp = "" <;> cases l <;> simp [Write, hempty]
  · intro callback
    cases l <;> cases pw <;> simp [Cancel]
  · intro callback
    cases l <;> simp [Flush]
  · intro buf buf_len open_result local_path w' effects hrun
    by_cases hok : open_result = PLATFORM_FILE_OK <;> cases pw <;> cases pc <;>
      simp [WriteAfterCreateWritableSnapshotFile, hok] at hrun <;>
      obtain ⟨rfl, _⟩ := hrun <;> simp

/-- An optional callback run contains no snapshot request. -/
theorem snapshotRequestsOf_optional_run (p : Prop) [Decidable p]
    (callback : CompletionCallback) (result : Int) :
    snapshotRequestsOf (if p then [] else [Effect.Run callback result]) = [] := by
  split <;> rfl

/-- Every snapshot request and every release request sent by a method, by the
resolution handler or by the destructor carries the writer's `file_path_`. -/
theorem effects_carry_path (env : Env L) (w : WebkitFileStreamWriterImpl L) :
    (∀ buf buf_len callback,
      (∀ p ∈ snapshotRequestsOf (Write env.local_writer w buf buf_len callback).2.2,
        p = w.file_path_) ∧
      (∀ p ∈ releasesOf (Write env.local_writer w buf buf_len callback).2.2,
        p = w.file_path_)) ∧
    (∀ callback,
      (∀ p ∈ snapshotRequestsOf (Cancel env.local_writer w callback).2.2, p = w.file_path_) ∧
      (∀ p ∈ releasesOf (Cancel env.local_writer w callback).2.2, p = w.file_path_)) ∧
    (∀ callback,
      (∀ p ∈ snapshotRequestsOf (Flush env.local_writer w callback).2.2, p = w.file_path_) ∧
      (∀ p ∈ releasesOf (Flush env.local_writer w callback).2.2, p = w.file_path_)) ∧
    (∀ buf buf_len open_result local_path w' effects,
      WriteAfterCreateWritableSnapshotFile env w buf buf_len open_result local_path
        = some (w', effects) →
      (∀ p ∈ snapshotRequestsOf effects, p = w.file_path_) ∧
      (∀ p ∈ releasesOf effects, p = w.file_path_)) ∧
    ((∀ p ∈ snapshotRequestsOf (destructor w), p = w.file_path_) ∧
      (∀ p ∈ releasesOf (destructor w), p = w.file_path_)) := by
  obtain ⟨fp, off, l, pw, pc⟩ := w
  refine ⟨?_, ?_, ?_, ?_, ?_⟩
  · intro buf buf_len callback
    by_cases hempty : fp = "" <;> cases l <;>
      simp [Write, hempty, snapshotRequestsOf, releasesOf]
  · intro callback
    cases l <;> cases pw <;> simp [Cancel, snapshotRequestsOf, releasesOf]
  · intro callback
    cases l <;> simp [Flush, snapshotRequestsOf, releasesOf]
  · intro buf buf_len open_result local_path w' effects hrun
    by_cases hok : open_result = PLATFORM_FILE_OK <;> cases pw <;> cases pc <;>
      simp [WriteAfterCreateWritableSnapshotFile, hok] at hrun <;>
      obtain ⟨_, rfl⟩ := hrun <;>
      simp [snapshotRequestsOf, releasesOf, snapshotRequestsOf_append, releasesOf_append,
        snapshotRequestsOf_optional_run, releasesOf_optional_run]
  · cases l <;> simp [destructor, snapshotRequestsOf, releasesOf]

/-- One defined step keeps the writer's path and offset, and every snapshot
request and release request it sends carries that path. -/
theorem System.step_keeps_path (env : Env L) (s s' : System L) (c : Call)
    (file_path : FilePath) (offset : Int) (hstep : s.step env c = some s')
    (hpath : s.ForPath file_path) (hoffset : s.ForOffset offset)
    (hrequests : ∀ p ∈ snapshotRequestsOf s.log, p = file_path)
    (hreleases : ∀ p ∈ releasesOf s.log, p = file_path) :
    s'.ForPath file_path ∧ s'.ForOffset offset ∧
      (∀ p ∈ snapshotRequestsOf s'.log, p = file_path) ∧
      (∀ p ∈ releasesOf s'.log, p = file_path) := by
  have key : ∀ (w w' : WebkitFileStreamWriterImpl L) (effects : List Effect)
      (in_flight : List (IOBuffer × Int)),
      s.writer = some w → w'.file_path_ = w.file_path_ → w'.offset_ = w.offset_ →
      (∀ p ∈ snapshotRequestsOf effects, p = w.file_path_) →
      (∀ p ∈ releasesOf effects, p = w.file_path_) →
      s' = { writer := some w', in_flight := in_flight, log := s.log ++ effects } →
      s'.ForPath file_path ∧ s'.ForOffset offset ∧
        (∀ p ∈ snapshotRequestsOf s'.log, p = file_path) ∧
        (∀ p ∈ releasesOf s'.log, p = file_path) := by
    intro w w' effects in_flight hw hfp hoff hreq hrel hs'
    have hp := hpath w hw
    have ho := hoffset w hw
    subst hs'
    refine ⟨?_, ?_, ?_, ?_⟩
    · intro w2 hw2
      simp only [Option.some.injEq] at hw2
      subst hw2
      rw [hfp, hp]
    · intro w2 hw2
      simp only [Option.some.injEq] at hw2
      subst hw2
      rw [hoff, ho]
    · intro p hmem
      simp only [snapshotRequestsOf_append, List.mem_append] at hmem
      rcases hmem with h | h
      · exact hrequests p h
      · rw [hreq p h, hp]
    · intro p hmem
      simp only [releasesOf_append, List.mem_append] at hmem
      rcases hmem with h | h
      · exact hreleases p h
      · rw [hrel p h, hp]
  cases hw : s.writer with
  | none =>
    cases c with
    | Resolve open_result local_path =>
      cases hin : s.in_flight with
      | nil => simp [System.step, hin] at hstep
      | cons request rest =>
        simp only [System.step, hin, hw, Option.some.injEq] at hstep
        subst hstep
        refine ⟨?_, ?_, hrequests, hreleases⟩
        · intro w2 hw2
          simp at hw2
        · intro w2 hw2
          simp at hw2
    | _ => simp [System.step, hw] at hstep
  | some w =>
    obtain ⟨hW, hC, hF, hR⟩ := members_fixed env w
    obtain ⟨eW, eC, eF, eR, eD⟩ := effects_carry_path env w
    cases c with
    | Write buf buf_len callback =>
      simp only [System.step, hw, Option.some.injEq] at hstep
      exact key w _ _ _ hw (hW buf buf_len callback).1 (hW buf buf_len callback).2
        (eW buf buf_len callback).1 (eW buf buf_len callback).2 hstep.symm
    | Cancel callback =>
      simp only [System.step, hw, Option.some.injEq] at hstep
      exact key w _ _ _ hw (hC callback).1 (hC callback).2
        (eC callback).1 (eC callback).2 hstep.symm
    | Flush callback =>
      simp only [System.step, hw, Option.some.injEq] at hstep
      exact key w _ _ _ hw (hF callback).1 (hF callback).2
        (eF callback).1 (eF callback).2 hstep.symm
    | Resolve open_result local_path =>
      cases hin : s.in_flight with
      | nil => simp [System.step, hin] at hstep
      | cons request rest =>
        cases hrun : WriteAfterCreateWritableSnapshotFile env w request.1 request.2
            open_result local_path with
        | none => simp [System.step, hin, hw, hrun] at hstep
        | some r =>
          simp only [System.step, hin, hw, hrun, Option.some.injEq] at hstep
          exact key w r.1 r.2 rest hw (hR _ _ _ _ r.1 r.2 hrun).1 (hR _ _ _ _ r.1 r.2 hrun).2
            (eR _ _ _ _ r.1 r.2 hrun).1 (eR _ _ _ _ r.1 r.2 hrun).2 hstep.symm
    | Destroy =>
      simp only [System.step, hw, Option.some.injEq] at hstep
      subst hstep
      have hp := hpath w hw
      refine ⟨?_, ?_, ?_, ?_⟩
      · intro w2 hw2
        simp at hw2
      · intro w2 hw2
        simp at hw2
      · intro p hmem
        simp only [snapshotRequestsOf_append, List.mem_append] at hmem
        rcases hmem with h | h
        · exact hrequests p h
        · rw [eD.1 p h, hp]
      · intro p hmem
        simp only [releasesOf_append, List.mem_append] at hmem
        rcases hmem with h | h
        · exact hreleases p h
        · rw [eD.2 p h, hp]

/-- A run keeps the writer's path and offset, and every snapshot request and
release request it sends carries that path. -/
theorem System.run_keeps_path (env : Env L) (file_path : FilePath) (offset : Int)
    (trace : List Call) :
    ∀ s s' : System L, System.run env s trace = some s' →
      s.ForPath file_path → s.ForOffset offset →
      (∀ p ∈ snapshotRequestsOf s.log, p = file_path) →
      (∀ p ∈ releasesOf s.log, p = file_path) →
      s'.ForPath file_path ∧ s'.ForOffset offset ∧
        (∀ p ∈ snapshotRequestsOf s'.log, p = file_path) ∧
        (∀ p ∈ releasesOf s'.log, p = file_path) := by
  induction trace with
  | nil =>
    intro s s' hrun hpath hoffset hrequests hreleases
    simp only [System.run, Option.some.injEq] at hrun
    subst hrun
    exact ⟨hpath, hoffset, hrequests, hreleases⟩
  | cons c cs ih =>
    intro s s' hrun hpath hoffset hrequests hreleases
    rw [System.run_cons] at hrun
    obtain ⟨s1, hstep, hrest⟩ := hrun
    obtain ⟨h1, h2, h3, h4⟩ :=
      System.step_keeps_path env s s1 c file_path offset hstep hpath hoffset hrequests
        hreleases
    exact ih s1 s' hrest h1 h2 h3 h4

/-- C23: `Write`, `Cancel`, `Flush` and the resolution handler leave
`file_path_` and `offset_` as they are; hence in every state reached from
construction, under the caller contract or not, the writer has the path and
offset it was constructed with, and every snapshot request and every release
request in the log carries that path. -/
theorem path_and_offset_fixed (env : Env L) :
    (∀ (w : WebkitFileStreamWriterImpl L),
      (∀ buf buf_len callback,
        (Write env.local_writer w buf buf_len callback).2.1.file_path_ = w.file_path_ ∧
        (Write env.local_writer w buf buf_len callback).2.1.offset_ = w.offset_) ∧
      (∀ callback,
        (Cancel env.local_writer w callback).2.1.file_path_ = w.file_path_ ∧
        (Cancel env.local_writer w callback).2.1.offset_ = w.offset_) ∧
      (∀ callback,
        (Flush env.local_writer w callback).2.1.file_path_ = w.file_path_ ∧
        (Flush env.local_writer w callback).2.1.offset_ = w.offset_) ∧
      (∀ buf buf_len open_result local_path w' effects,
        WriteAfterCreateWritableSnapshotFile env w buf buf_len open_result local_path
          = some (w', effects) →
        w'.file_path_ = w.file_path_ ∧ w'.offset_ = w.offset_)) ∧
    (∀ (file_path : FilePath) (offset : Int) (trace : List Call) (s : System L),
      System.run env (System.init file_path offset) trace = some s →
      (∀ w, s.writer = some w → w.file_path_ = file_path ∧ w.offset_ = offset) ∧
      (∀ p ∈ snapshotRequestsOf s.log, p = file_path) ∧
      (∀ p ∈ releasesOf s.log, p = file_path)) := by
  refine ⟨members_fixed env, ?_⟩
  intro file_path offset trace s hrun
  obtain ⟨h1, h2, h3, h4⟩ :=
    System.run_keeps_path env file_path offset trace _ s hrun
      (by intro w hw; simp only [System.init, Option.some.injEq] at hw; subst hw; rfl)
      (by intro w hw; simp only [System.init, Option.some.injEq] at hw; subst hw; rfl)
      (by simp [System.init, snapshotRequestsOf])
      (by simp [System.init, releasesOf])
  exact ⟨fun w hw => ⟨h1 w hw, h2 w hw⟩, h3, h4⟩

/-- Scenario of C23: on "doc.txt" at offset 5, a write is cancelled while its
snapshot is created, a second write is delegated, and the writer is destroyed.
Both snapshot requests and both release requests are for "doc.txt". -/
theorem path_and_offset_fixed_witness :
    System.run syncEnv (System.init "doc.txt" 5)
        [Call.Write [65, 66] 2 7, Call.Cancel 8, Call.Resolve PLATFORM_FILE_OK "/tmp/x",
          Call.Write [67] 1 9, Call.Resolve PLATFORM_FILE_OK "/tmp/y", Call.Destroy] =
      some { writer := none, in_flight := [],
             log := [Effect.CreateWritableSnapshotFile "doc.txt" [65, 66] 2,
               Effect.CloseFile "doc.txt", Effect.Run 8 OK,
               Effect.CreateWritableSnapshotFile "doc.txt" [67] 1,
               Effect.NewLocalFileStreamWriter "/tmp/y" 5, Effect.LocalWrite [67] 1 9,
               Effect.Run 9 1, Effect.ResetLocalFileWriter, Effect.CloseFile "doc.txt"] } ∧
    ∀ p ∈ releasesOf
        [Effect.CreateWritableSnapshotFile "doc.txt" [65, 66] 2,
          Effect.CloseFile "doc.txt", Effect.Run 8 OK,
          Effect.CreateWritableSnapshotFile "doc.txt" [67] 1,
          Effect.NewLocalFileStreamWriter "/tmp/y" 5, Effect.LocalWrite [67] 1 9,
          Effect.Run 9 1, Effect.ResetLocalFileWriter, Effect.CloseFile "doc.txt"],
      p = "doc.txt" :=
  ⟨by rfl,
    ((path_and_offset_fixed syncEnv).2 "doc.txt" 5
      [Call.Write [65, 66] 2 7, Call.Cancel 8, Call.Resolve PLATFORM_FILE_OK "/tmp/x",
        Call.Write [67] 1 9, Call.Resolve PLATFORM_FILE_OK "/tmp/y", Call.Destroy]
      { writer := none, in_flight := [],
        log := [Effect.CreateWritableSnapshotFile "doc.txt" [65, 66] 2,
          Effect.CloseFile "doc.txt", Effect.Run 8 OK,
          Effect.CreateWritableSnapshotFile "doc.txt" [67] 1,
          Effect.NewLocalFileStreamWriter "/tmp/y" 5, Effect.LocalWrite [67] 1 9,
          Effect.Run 9 1, Effect.ResetLocalFileWriter, Effect.CloseFile "doc.txt"] }
      (by rfl)).2.2⟩

end PathAndOffset

/-! ## One local writer per writer -/

section AtMostOnce

open WebkitFileStreamWriterImpl

variable {L : Type}

/-- An optional callback run builds no local writer. -/
theorem constructionsOf_optional_run (p : Prop) [Decidable p]
    (callback : CompletionCallback) (result : Int) :
    constructionsOf (if p then [] else [Effect.Run callback result]) = [] := by
  split <;> rfl

/-- Delegations post no snapshot request. -/
theorem snapshotRequestsOf_delegations (ops : List StreamOp) :
    snapshotRequestsOf (ops.map StreamOp.delegation) = [] := by
  induction ops with
  | nil => rfl
  | cons op ops ih => cases op <;> simpa [StreamOp.delegation, snapshotRequestsOf] using ih

/-- One permitted step from a well-formed state keeps the count of local
writers built so far at most one, and zero while the live writer has none. -/
theorem System.step_constructs_once (env : Env L) (s s' : System L) (c : Call)
    (hwf : s.WellFormed) (hperm : s.Permitted c = true) (hstep : s.step env c = some s')
    (hcount : (constructionsOf s.log).length ≤ 1)
    (hnone : ∀ w, s.writer = some w → w.local_file_writer_ = none →
      constructionsOf s.log = []) :
    (constructionsOf s'.log).length ≤ 1 ∧
      (∀ w, s'.writer = some w → w.local_file_writer_ = none →
        constructionsOf s'.log = []) := by
  obtain ⟨writer, in_flight, log⟩ := s
  cases writer with
  | none =>
    cases c <;> simp_all [System.Permitted, System.WellFormed]
  | some w =>
    obtain ⟨fp, off, l, pw, pc⟩ := w
    cases c with
    | Write buf buf_len callback =>
      by_cases hempty : fp = "" <;> cases l <;> cases pw <;> cases pc <;>
        simp_all [System.Permitted, System.WellFormed, System.step, Write, Write_DCHECK,
          System.record] <;>
        (try subst hstep) <;>
        simp_all [constructionsOf_append, constructionsOf, constructionsOf_optional_run]
    | Cancel callback =>
      cases l <;> cases pw <;> cases pc <;>
        simp_all [System.Permitted, System.WellFormed, System.step, Cancel, Cancel_DCHECK,
          System.record] <;>
        (try subst hstep) <;>
        simp_all [constructionsOf_append, constructionsOf, constructionsOf_optional_run]
    | Flush callback =>
      cases l <;> cases pw <;> cases pc <;>
        simp_all [System.Permitted, System.WellFormed, System.step, Flush,
          System.record] <;>
        (try subst hstep) <;>
        simp_all [constructionsOf_append, constructionsOf, constructionsOf_optional_run]
    | Resolve open_result local_path =>
      cases in_flight with
      | nil => simp [System.Permitted] at hperm
      | cons request rest =>
        by_cases hok : open_result = PLATFORM_FILE_OK <;>
        cases l <;> cases pw <;> cases pc <;>
        simp_all [System.Permitted, System.WellFormed, System.step, WriteAfterCreateWritableSnapshotFile,
          System.record] <;>
        (try subst hstep) <;>
        simp_all [constructionsOf_append, constructionsOf, constructionsOf_optional_run]
    | Destroy =>
      cases l <;> cases pw <;> cases pc <;>
        simp_all [System.Permitted, System.WellFormed, System.step, destructor,
          System.record] <;>
        (try subst hstep) <;>
        simp_all [constructionsOf_append, constructionsOf, constructionsOf_optional_run]

/-- Along a trace that obeys the caller contract at most one local writer is
built, and none while the live writer has none. -/
theorem System.exec_constructs_once (env : Env L) (file_path : FilePath)
    (trace : List Call) :
    ∀ s s' : System L, s.WellFormed → s.ForPath file_path →
      (constructionsOf s.log).length ≤ 1 →
      (∀ w, s.writer = some w → w.local_file_writer_ = none → constructionsOf s.log = []) →
      System.exec env s trace = some s' →
      (constructionsOf s'.log).length ≤ 1 ∧
        (∀ w, s'.writer = some w → w.local_file_writer_ = none →
          constructionsOf s'.log = []) := by
  induction trace with
  | nil =>
    intro s s' _ _ hcount hnone hexec
    simp only [System.exec, Option.some.injEq] at hexec
    subst hexec
    exact ⟨hcount, hnone⟩
  | cons c cs ih =>
    intro s s' hwf hpath hcount hnone hexec
    rw [System.exec_cons] at hexec
    obtain ⟨hperm, s1, hstep, hrest⟩ := hexec
    obtain ⟨s1', hstep', hwf1, hpath1, _, _⟩ :=
      System.step_of_permitted env s c file_path hwf hpath hperm
    rw [hstep] at hstep'
    cases hstep'
    obtain ⟨hcount1, hnone1⟩ :=
      System.step_constructs_once env s s1 c hwf hperm hstep hcount hnone
    exact ih s1 s' hwf1 hpath1 hcount1 hnone1 hrest

/-- C21: along every trace that obeys the caller contract from construction at
most one local writer is built. Once the writer has one, the calls that follow
under the contract, up to destruction, post no snapshot request and build no
local writer: their effects are delegations only. -/
theorem local_writer_constructed_at_most_once (env : Env L) (file_path : FilePath)
    (offset : Int) :
    (∀ (trace : List Call) (s : System L),
      System.exec env (System.init file_path offset) trace = some s →
      (constructionsOf s.log).length ≤ 1) ∧
    (∀ (before after : List Call) (s s' : System L) (w : WebkitFileStreamWriterImpl L)
      (l : L),
      System.exec env (System.init file_path offset) before = some s →
      s.writer = some w → w.local_file_writer_ = some l →
      System.exec env s after = some s' → Call.Destroy ∉ after →
      ∃ effects, s'.log = s.log ++ effects ∧
        snapshotRequestsOf effects = [] ∧ constructionsOf effects = [] ∧
        s'.in_flight = []) := by
  obtain ⟨hwf0, hpath0, _⟩ := System.init_wellFormed (L := L) file_path offset
  constructor
  · intro trace s hexec
    exact (System.exec_constructs_once env file_path trace _ s hwf0 hpath0
      (by simp [System.init, constructionsOf]) (by simp [System.init, constructionsOf])
      hexec).1
  · intro before after s s' w l hbefore hwriter hlocal hafter hnodestroy
    obtain ⟨hwf, hpath, _, _⟩ :=
      System.exec_invariant env file_path before _ s hwf0 hpath0 hbefore
    obtain ⟨_, h2, h3, _⟩ :=
      System.exec_with_local env file_path after s s' w l hwf hpath hwriter hlocal
        hnodestroy hafter
    have hshape := hwf
    simp only [System.WellFormed, hwriter] at hshape
    obtain ⟨hnone, _, hlen⟩ := hshape
    have hpending := hnone (by simp [hlocal])
    simp only [hpending.1, hpending.2] at hlen
    have hempty : s.in_flight = [] := List.length_eq_zero.mp (by simpa using hlen)
    exact ⟨_, h3, snapshotRequestsOf_delegations _, constructionsOf_delegations _,
      h2.trans hempty⟩

/-- Scenario of C21: a first write on "doc.txt" is cancelled and its snapshot
arrives; a second write gets its snapshot and builds the local writer; two more
writes are delegated. One local writer is built. -/
theorem local_writer_constructed_at_most_once_witness :
    System.exec syncEnv (System.init "doc.txt" 0)
        [Call.Write [65, 66] 2 7, Call.Cancel 8, Call.Resolve PLATFORM_FILE_OK "/tmp/x",
          Call.Write [67] 1 9, Call.Resolve PLATFORM_FILE_OK "/tmp/y",
          Call.Write [68] 1 10, Call.Write [69] 1 11] =
      some { writer := some { (create "doc.txt" 0 : WebkitFileStreamWriterImpl Int) with
               local_file_writer_ := some 3 },
             in_flight := [],
             log := [Effect.CreateWritableSnapshotFile "doc.txt" [65, 66] 2,
               Effect.CloseFile "doc.txt", Effect.Run 8 OK,
               Effect.CreateWritableSnapshotFile "doc.txt" [67] 1,
               Effect.NewLocalFileStreamWriter "/tmp/y" 0, Effect.LocalWrite [67] 1 9,
               Effect.Run 9 1, Effect.LocalWrite [68] 1 10, Effect.LocalWrite [69] 1 11] } ∧
    (constructionsOf [Effect.CreateWritableSnapshotFile "doc.txt" [65, 66] 2,
      Effect.CloseFile "doc.txt", Effect.Run 8 OK,
      Effect.CreateWritableSnapshotFile "doc.txt" [67] 1,
      Effect.NewLocalFileStreamWriter "/tmp/y" 0, Effect.LocalWrite [67] 1 9,
      Effect.Run 9 1, Effect.LocalWrite [68] 1 10, Effect.LocalWrite [69] 1 11]).length ≤ 1 :=
  ⟨by rfl,
    (local_writer_constructed_at_most_once syncEnv "doc.txt" 0).1
      [Call.Write [65, 66] 2 7, Call.Cancel 8, Call.Resolve PLATFORM_FILE_OK "/tmp/x",
        Call.Write [67] 1 9, Call.Resolve PLATFORM_FILE_OK "/tmp/y",
        Call.Write [68] 1 10, Call.Write [69] 1 11]
      { writer := some { (create "doc.txt" 0 : WebkitFileStreamWriterImpl Int) with
          local_file_writer_ := some 3 },
        in_flight := [],
        log := [Effect.CreateWritableSnapshotFile "doc.txt" [65, 66] 2,
          Effect.CloseFile "doc.txt", Effect.Run 8 OK,
          Effect.CreateWritableSnapshotFile "doc.txt" [67] 1,
          Effect.NewLocalFileStreamWriter "/tmp/y" 0, Effect.LocalWrite [67] 1 9,
          Effect.Run 9 1, Effect.LocalWrite [68] 1 10, Effect.LocalWrite [69] 1 11] }
      (by rfl)⟩

end AtMostOnce

/-! ## What the local writer is built from -/

section Construction

open WebkitFileStreamWriterImpl

variable {L : Type}

/-- While a write callback is pending and the snapshot request is outstanding,
the caller contract admits only `Flush` besides `Cancel` and the resolution,
and `Flush` changes nothing. -/
theorem System.exec_while_materializing (env : Env L) (between : List Call) :
    ∀ s s' : System L,
      (∃ w c, s.writer = some w ∧ Materializing w c) →
      s.in_flight ≠ [] →
      (∀ x ∈ between, x.isResolve = false) →
      (∀ x ∈ between, x.isCancel = false) →
      System.exec env s between = some s' → s' = s := by
  induction between with
  | nil =>
    intro s s' _ _ _ _ hexec
    simpa [System.exec] using hexec.symm
  | cons x xs ih =>
    intro s s' hstate hout hnores hnocancel hexec
    rw [System.exec_cons] at hexec
    obtain ⟨hperm, s1, hstep, hrest⟩ := hexec
    obtain ⟨w, c, hw, hlocal, hwrite, hcancel⟩ := hstate
    have hs1 : s1 = s := by
      obtain ⟨writer, in_flight, log⟩ := s
      cases x with
      | Write buf buf_len callback =>
        simp_all [System.Permitted, Write_DCHECK]
      | Cancel callback =>
        exact absurd (hnocancel _ (List.mem_cons_self _ _)) (by simp [Call.isCancel])
      | Flush callback =>
        simp_all [System.step, Flush, System.record, requestsOf]
      | Resolve open_result local_path =>
        exact absurd (hnores _ (List.mem_cons_self _ _)) (by simp [Call.isResolve])
      | Destroy =>
        cases in_flight <;> simp_all [System.Permitted]
    subst hs1
    exact ih s1 s' ⟨w, c, hw, hlocal, hwrite, hcancel⟩ hout
      (fun y hy => hnores y (List.mem_cons_of_mem _ hy))
      (fun y hy => hnocancel y (List.mem_cons_of_mem _ hy)) hrest

/-- C22: take a `Write(buf, buf_len, callback)` that starts a materialization
(no local writer, non-empty path) in a state reached under the caller contract
from construction with `(file_path, offset)`, followed by calls the contract
admits other than `Cancel` and the resolution. When the request then resolves
with `PLATFORM_FILE_OK` and `local_path`, the local writer is built from
exactly `local_path` and `offset`, and the one delegated write gets exactly
`buf`, `buf_len` and `callback`. -/
theorem local_writer_built_from_resolution (env : Env L) (file_path : FilePath)
    (offset : Int) (before between : List Call) (s s1 : System L)
    (w : WebkitFileStreamWriterImpl L)
    (buf : IOBuffer) (buf_len : Int) (callback : CompletionCallback) (local_path : FilePath)
    (hbefore : System.exec env (System.init file_path offset) before = some s)
    (hwriter : s.writer = some w) (hlocal : w.local_file_writer_ = none)
    (hpath : file_path ≠ "")
    (hwrite : System.exec env s (Call.Write buf buf_len callback :: between) = some s1)
    (hnores : ∀ x ∈ between, x.isResolve = false)
    (hnocancel : ∀ x ∈ between, x.isCancel = false) :
    ∃ s2 w2 effects,
      s1.step env (Call.Resolve PLATFORM_FILE_OK local_path) = some s2 ∧
      s2.log = s1.log ++ effects ∧
      constructionsOf effects = [(local_path, offset)] ∧
      localWritesOf effects = [(buf, buf_len, callback)] ∧
      s2.writer = some w2 ∧
      w2.local_file_writer_ = some (env.local_writer.Write
        (env.local_writer.create local_path offset) buf buf_len callback).2 := by
  obtain ⟨hwf0, hpath0, _⟩ := System.init_wellFormed (L := L) file_path offset
  obtain ⟨hwf, hforpath, _, _⟩ :=
    System.exec_invariant env file_path before _ s hwf0 hpath0 hbefore
  obtain ⟨_, hforoffset, _, _⟩ :=
    System.run_keeps_path env file_path offset before _ s
      (System.run_of_exec env before _ s hbefore)
      (by intro w hw; simp only [System.init, Option.some.injEq] at hw; subst hw; rfl)
      (by intro w hw; simp only [System.init, Option.some.injEq] at hw; subst hw; rfl)
      (by simp [System.init, snapshotRequestsOf])
      (by simp [System.init, releasesOf])
  rw [System.exec_cons] at hwrite
  obtain ⟨hperm, s0, hstep, hrest⟩ := hwrite
  have hfp := hforpath w hwriter
  have hoff := hforoffset w hwriter
  obtain ⟨writer, in_flight, log⟩ := s
  obtain ⟨fp, off, l, pw, pc⟩ := w
  simp only at hwriter hlocal hfp hoff
  subst hwriter hlocal hfp hoff
  have hpw : pw = none := by
    cases pw <;> simp_all [System.Permitted, Write_DCHECK]
  have hpc : pc = none := by
    cases pc <;> simp_all [System.Permitted, Write_DCHECK]
  subst hpw hpc
  have hin : in_flight = [] := by
    have hlen := hwf.2.2
    exact List.length_eq_zero.mp (by simpa using hlen)
  subst hin
  have hs0 : s0 =
      { writer := some ⟨fp, off, none, some callback, none⟩,
        in_flight := [(buf, buf_len)],
        log := log ++ [Effect.CreateWritableSnapshotFile fp buf buf_len] } := by
    simp [System.step, Write, System.record, requestsOf, hpath] at hstep
    exact hstep.symm
  subst hs0
  have hs1 := System.exec_while_materializing env between _ s1
    ⟨_, callback, rfl, rfl, rfl, rfl⟩ (by simp) hnores hnocancel hrest
  subst hs1
  refine ⟨{ writer := some ⟨fp, off, some (env.local_writer.Write
              (env.local_writer.create local_path off) buf buf_len callback).2, none, none⟩,
            in_flight := [],
            log := (log ++ [Effect.CreateWritableSnapshotFile fp buf buf_len]) ++
              ([Effect.NewLocalFileStreamWriter local_path off,
                Effect.LocalWrite buf buf_len callback] ++
              (if (env.local_writer.Write (env.local_writer.create local_path off)
                  buf buf_len callback).1 ≠ ERR_IO_PENDING
                then [Effect.Run callback (env.local_writer.Write
                  (env.local_writer.create local_path off) buf buf_len callback).1]
                else [])) },
    _, _, ?_, rfl, ?_, ?_, rfl, rfl⟩
  · simp [System.step, WriteAfterCreateWritableSnapshotFile]
  · simp [constructionsOf_append, constructionsOf, constructionsOf_optional_run]
  · by_cases hpending : (env.local_writer.Write (env.local_writer.create local_path off)
        buf buf_len callback).1 = ERR_IO_PENDING <;> simp [hpending, localWritesOf]

/-- Scenario of C22: "doc.txt" at offset 5; `Write` of "AB" with callback 7,
a `Flush`, and the resolution with "/tmp/x". The local writer is built from
"/tmp/x" and 5 and is given "AB", 2 and callback 7. -/
theorem local_writer_built_from_resolution_witness :
    ∃ (s2 : System Int) (w2 : WebkitFileStreamWriterImpl Int) (effects : List Effect),
      System.step syncEnv
        { writer := some { (create "doc.txt" 5 : WebkitFileStreamWriterImpl Int) with
            pending_write_callback_ := some 7 },
          in_flight := [([65, 66], 2)],
          log := [Effect.CreateWritableSnapshotFile "doc.txt" [65, 66] 2] }
        (Call.Resolve PLATFORM_FILE_OK "/tmp/x") = some s2 ∧
      s2.log = [Effect.CreateWritableSnapshotFile "doc.txt" [65, 66] 2] ++ effects ∧
      constructionsOf effects = [("/tmp/x", 5)] ∧
      localWritesOf effects = [([65, 66], 2, 7)] ∧
      s2.writer = some w2 ∧
      w2.local_file_writer_ = some 7 :=
  local_writer_built_from_resolution syncEnv "doc.txt" 5 [] [Call.Flush 10]
    (System.init "doc.txt" 5)
    { writer := some { (create "doc.txt" 5 : WebkitFileStreamWriterImpl Int) with
        pending_write_callback_ := some 7 },
      in_flight := [([65, 66], 2)],
      log := [Effect.CreateWritableSnapshotFile "doc.txt" [65, 66] 2] }
    (create "doc.txt" 5) [65, 66] 2 7 "/tmp/x"
    (by rfl) rfl rfl (by decide) (by rfl) (by decide) (by decide)

end Construction

/-! ## Back to the fresh writer -/

section Reset

open WebkitFileStreamWriterImpl

variable {L : Type}

/-- C24: from a fresh writer with a non-empty path, `Write` followed by a
failed resolution, and `Write` followed by `Cancel` and any resolution, both
obey the caller contract and end with the writer equal to the fresh writer (no
local writer, no pending callback, same path and offset) and no request
outstanding. A `Write` on that writer does what the first one did: it returns
`ERR_IO_PENDING`, stores its callback and posts a snapshot request for the
path. -/
theorem failed_or_cancelled_materialization_resets (env : Env L) (file_path : FilePath)
    (offset : Int) (buf : IOBuffer) (buf_len : Int) (callback c : CompletionCallback)
    (open_result : Int) (local_path : FilePath) (hpath : file_path ≠ "") :
    (open_result ≠ PLATFORM_FILE_OK →
      ∃ s, System.exec env (System.init file_path offset)
          [Call.Write buf buf_len callback, Call.Resolve open_result local_path] = some s ∧
        s.writer = some (create file_path offset) ∧ s.in_flight = []) ∧
    (∃ s, System.exec env (System.init file_path offset)
        [Call.Write buf buf_len callback, Call.Cancel c,
          Call.Resolve open_result local_path] = some s ∧
      s.writer = some (create file_path offset) ∧ s.in_flight = []) ∧
    (∀ buf2 buf_len2 callback2,
      Write env.local_writer (create file_path offset) buf2 buf_len2 callback2 =
        (ERR_IO_PENDING,
          { (create file_path offset : WebkitFileStreamWriterImpl L) with
            pending_write_callback_ := some callback2 },
          [Effect.CreateWritableSnapshotFile file_path buf2 buf_len2])) := by
  refine ⟨?_, ?_, ?_⟩
  · intro hfail
    simp [System.exec, System.Permitted, System.step, System.init, create, Write, Write_DCHECK,
      System.record, requestsOf, WriteAfterCreateWritableSnapshotFile, hpath, hfail]
  · by_cases hok : open_result = PLATFORM_FILE_OK <;>
      simp [System.exec, System.Permitted, System.step, System.init, create, Write,
        Write_DCHECK, Cancel, Cancel_DCHECK, System.record, requestsOf,
        WriteAfterCreateWritableSnapshotFile, hpath, hok]
  · intro buf2 buf_len2 callback2
    simp [Write, create, hpath]

/-- Scenario of C24: "doc.txt" at offset 0; the resolution carries the platform
error -1. -/
theorem failed_or_cancelled_materialization_resets_witness :
    ("doc.txt" : FilePath) ≠ "" ∧ (-1 : Int) ≠ PLATFORM_FILE_OK ∧
    (∃ s, System.exec syncEnv (System.init "doc.txt" 0)
        [Call.Write [65, 66] 2 7, Call.Resolve (-1) ""] = some s ∧
      s.writer = some (create "doc.txt" 0) ∧ s.in_flight = []) ∧
    (∃ s, System.exec syncEnv (System.init "doc.txt" 0)
        [Call.Write [65, 66] 2 7, Call.Cancel 8, Call.Resolve (-1) ""] = some s ∧
      s.writer = some (create "doc.txt" 0) ∧ s.in_flight = []) :=
  ⟨by decide, by decide,
    (failed_or_cancelled_materialization_resets syncEnv "doc.txt" 0 [65, 66] 2 7 8 (-1) ""
      (by decide)).1 (by decide),
    (failed_or_cancelled_materialization_resets syncEnv "doc.txt" 0 [65, 66] 2 7 8 (-1) ""
      (by decide)).2.1⟩

end Reset

/-! ## The pending members when a callback is run -/

section Reentrancy

open WebkitFileStreamWriterImpl

variable {L : Type}

/-- The statement-by-statement handler has the effects of the handler, in the
same order, and is defined exactly when the handler is. -/
theorem moments_effects (env : Env L) (w : WebkitFileStreamWriterImpl L)
    (buf : IOBuffer) (buf_len : Int) (open_result : Int) (local_path : FilePath) :
    (WriteAfterCreateWritableSnapshotFile_moments env w buf buf_len open_result
        local_path).map (fun ms => ms.map Prod.fst) =
      (WriteAfterCreateWritableSnapshotFile env w buf buf_len open_result local_path).map
        Prod.snd := by
  obtain ⟨fp, off, l, pw, pc⟩ := w
  by_cases hok : open_result = PLATFORM_FILE_OK <;> cases pw <;> cases pc <;>
    simp [WriteAfterCreateWritableSnapshotFile_moments, WriteAfterCreateWritableSnapshotFile,
      hok]
  split <;> simp

/-- C25: whenever the resolution handler runs a callback, the member that held
it has been reset before: at that moment a pending cancel callback that is run
is no longer in `pending_cancel_callback_`, and a pending write callback that
is run is no longer in `pending_write_callback_`. The members the callback
finds are those the handler leaves behind. When the handler's `DCHECK`s hold
(exactly one callback pending), both pending members are empty at that moment,
so that the `DCHECK`s of a `Write` or `Cancel` issued from inside the callback
hold. -/
theorem callback_run_after_reset (env : Env L) (w w' : WebkitFileStreamWriterImpl L)
    (buf : IOBuffer) (buf_len : Int) (open_result : Int) (local_path : FilePath)
    (effects : List Effect) (moments : List (Effect × WebkitFileStreamWriterImpl L))
    (callback : CompletionCallback) (result : Int) (at_run : WebkitFileStreamWriterImpl L)
    (hrun : WriteAfterCreateWritableSnapshotFile env w buf buf_len open_result local_path
      = some (w', effects))
    (hmoments : WriteAfterCreateWritableSnapshotFile_moments env w buf buf_len open_result
      local_path = some moments)
    (hmem : (Effect.Run callback result, at_run) ∈ moments) :
    moments.map Prod.fst = effects ∧
    at_run = w' ∧
    (w.pending_cancel_callback_ = some callback ∨
      (w.pending_cancel_callback_ = none ∧ w.pending_write_callback_ = some callback)) ∧
    (w.pending_cancel_callback_ = some callback → at_run.pending_cancel_callback_ = none) ∧
    (w.pending_cancel_callback_ = none → at_run.pending_write_callback_ = none ∧
      at_run.pending_cancel_callback_ = none) ∧
    (WriteAfterCreateWritableSnapshotFile_DCHECK w = true →
      at_run.pending_write_callback_ = none ∧ at_run.pending_cancel_callback_ = none ∧
      Write_DCHECK at_run = true ∧ Cancel_DCHECK at_run = true) := by
  have heff := moments_effects env w buf buf_len open_result local_path
  rw [hrun, hmoments] at heff
  simp only [Option.map_some', Option.some.injEq] at heff
  refine ⟨heff, ?_⟩
  obtain ⟨fp, off, l, pw, pc⟩ := w
  by_cases hok : open_result = PLATFORM_FILE_OK <;> cases pw <;> cases pc <;>
    simp [WriteAfterCreateWritableSnapshotFile_moments, WriteAfterCreateWritableSnapshotFile,
      hok] at hrun hmoments
  all_goals
    obtain ⟨hw', _⟩ := hrun
    subst hw' hmoments
    first
    | (simp at hmem
       obtain ⟨⟨rfl, rfl⟩, rfl⟩ := hmem
       simp [Write_DCHECK, Cancel_DCHECK, WriteAfterCreateWritableSnapshotFile_DCHECK])
    | (split at hmem <;> simp at hmem
       obtain ⟨⟨rfl, rfl⟩, rfl⟩ := hmem
       simp [Write_DCHECK, Cancel_DCHECK, WriteAfterCreateWritableSnapshotFile_DCHECK])

/-- Scenario of C25: the cancel callback 8 is pending on "doc.txt" and the
snapshot arrives. When callback 8 is run the writer is the fresh writer again,
on which `Write` and `Cancel` pass their `DCHECK`s. -/
theorem callback_run_after_reset_witness :
    WriteAfterCreateWritableSnapshotFile_moments syncEnv
      ({ (create "doc.txt" 0 : WebkitFileStreamWriterImpl Int) with
        pending_cancel_callback_ := some 8 }) [65, 66] 2 PLATFORM_FILE_OK "/tmp/x" =
      some [(Effect.CloseFile "doc.txt",
              { (create "doc.txt" 0 : WebkitFileStreamWriterImpl Int) with
                pending_cancel_callback_ := some 8 }),
            (Effect.Run 8 OK, create "doc.txt" 0)] ∧
    (create "doc.txt" 0 : WebkitFileStreamWriterImpl Int).pending_write_callback_ = none ∧
    (create "doc.txt" 0 : WebkitFileStreamWriterImpl Int).pending_cancel_callback_ = none ∧
    Write_DCHECK (create "doc.txt" 0 : WebkitFileStreamWriterImpl Int) = true ∧
    Cancel_DCHECK (create "doc.txt" 0 : WebkitFileStreamWriterImpl Int) = true :=
  ⟨by rfl,
    (callback_run_after_reset syncEnv
      ({ (create "doc.txt" 0 : WebkitFileStreamWriterImpl Int) with
        pending_cancel_callback_ := some 8 })
      (create "doc.txt" 0) [65, 66] 2 PLATFORM_FILE_OK "/tmp/x"
      [Effect.CloseFile "doc.txt", Effect.Run 8 OK]
      [(Effect.CloseFile "doc.txt",
          { (create "doc.txt" 0 : WebkitFileStreamWriterImpl Int) with
            pending_cancel_callback_ := some 8 }),
        (Effect.Run 8 OK, create "doc.txt" 0)]
      8 OK (create "doc.txt" 0) (by rfl) (by rfl)
      (List.mem_cons_of_mem _ (List.mem_cons_self _ _))).2.2.2.2.2 (by rfl)⟩

end Reentrancy

/-! ## Resolution after destruction -/

section AfterDestruction

open WebkitFileStreamWriterImpl

variable {L : Type}

/-- Once the writer is destroyed, whatever still runs (only resolutions can)
adds nothing to the log. -/
theorem System.run_destroyed (env : Env L) (trace : List Call) :
    ∀ s s' : System L, s.writer = none → System.run env s trace = some s' →
      s'.log = s.log ∧ s'.writer = none := by
  induction trace with
  | nil =>
    intro s s' hwriter hrun
    simp only [System.run, Option.some.injEq] at hrun
    subst hrun
    exact ⟨rfl, hwriter⟩
  | cons c cs ih =>
    intro s s' hwriter hrun
    rw [System.run_cons] at hrun
    obtain ⟨s1, hstep, hrest⟩ := hrun
    have hs1 : s1.log = s.log ∧ s1.writer = none := by
      cases c with
      | Resolve open_result local_path =>
        cases hin : s.in_flight with
        | nil => simp [System.step, hin] at hstep
        | cons request rest =>
          simp only [System.step, hin, hwriter, Option.some.injEq] at hstep
          subst hstep
          exact ⟨rfl, rfl⟩
      | _ => simp [System.step, hwriter] at hstep
    obtain ⟨h1, h2⟩ := ih s1 s' hs1.2 hrest
    exact ⟨h1.trans hs1.1, h2⟩

/-- C26: when a writer is destroyed while a snapshot request is outstanding,
the resolution that arrives afterwards, failed or successful, is defined and
adds nothing to the log: no callback is run, no local writer is built, no write
is delegated and no release request is sent. The same holds for everything that
runs after a destruction. -/
theorem resolution_after_destruction_is_noop (env : Env L) :
    (∀ (s : System L) (w : WebkitFileStreamWriterImpl L) (open_result : Int)
      (local_path : FilePath),
      s.writer = some w → s.in_flight ≠ [] →
      ∃ s1 s2, s.step env Call.Destroy = some s1 ∧
        s1.log = s.log ++ destructor w ∧
        s1.step env (Call.Resolve open_result local_path) = some s2 ∧
        s2.log = s1.log ∧ s2.writer = none ∧
        s2.in_flight = s.in_flight.tail) ∧
    (∀ (s s' : System L) (trace : List Call),
      s.writer = none → System.run env s trace = some s' →
      s'.log = s.log ∧ s'.writer = none) := by
  constructor
  · intro s w open_result local_path hwriter hout
    obtain ⟨writer, in_flight, log⟩ := s
    simp only at hwriter hout
    subst hwriter
    cases in_flight with
    | nil => exact absurd rfl hout
    | cons request rest =>
      exact ⟨{ writer := none, in_flight := request :: rest, log := log ++ destructor w },
        { writer := none, in_flight := rest, log := log ++ destructor w },
        by simp [System.step], rfl, by simp [System.step], rfl, rfl, rfl⟩
  · intro s s' trace hwriter hrun
    exact System.run_destroyed env trace s s' hwriter hrun

/-- Scenario of C26: `Write` on "doc.txt", destruction while the request is
outstanding, then the snapshot arrives. The log still holds the request only. -/
theorem resolution_after_destruction_is_noop_witness :
    System.run syncEnv (System.init "doc.txt" 0)
        [Call.Write [65, 66] 2 7, Call.Destroy, Call.Resolve PLATFORM_FILE_OK "/tmp/x"] =
      some { writer := none, in_flight := [],
             log := [Effect.CreateWritableSnapshotFile "doc.txt" [65, 66] 2] } ∧
    ∃ s1 s2 : System Int,
      System.step syncEnv
        { writer := some { (create "doc.txt" 0 : WebkitFileStreamWriterImpl Int) with
            pending_write_callback_ := some 7 },
          in_flight := [([65, 66], 2)],
          log := [Effect.CreateWritableSnapshotFile "doc.txt" [65, 66] 2] }
        Call.Destroy = some s1 ∧
      s1.log = [Effect.CreateWritableSnapshotFile "doc.txt" [65, 66] 2] ++
        destructor ({ (create "doc.txt" 0 : WebkitFileStreamWriterImpl Int) with
          pending_write_callback_ := some 7 }) ∧
      s1.step syncEnv (Call.Resolve PLATFORM_FILE_OK "/tmp/x") = some s2 ∧
      s2.log = s1.log ∧ s2.writer = none ∧ s2.in_flight = [] :=
  ⟨by rfl,
    (resolution_after_destruction_is_noop syncEnv).1
      { writer := some { (create "doc.txt" 0 : WebkitFileStreamWriterImpl Int) with
          pending_write_callback_ := some 7 },
        in_flight := [([65, 66], 2)],
        log := [Effect.CreateWritableSnapshotFile "doc.txt" [65, 66] 2] }
      ({ (create "doc.txt" 0 : WebkitFileStreamWriterImpl Int) with
        pending_write_callback_ := some 7 })
      PLATFORM_FILE_OK "/tmp/x" rfl (by simp)⟩

end AfterDestruction

/-! ## Shape of the reachable states -/

section Shape

open WebkitFileStreamWriterImpl

variable {L : Type}

/-- C27: in every state reached under the caller contract from construction,
the local writer, the pending write callback and the pending cancel callback
exclude each other pairwise: at most one of the three is set. -/
theorem members_mutually_exclusive (env : Env L) (file_path : FilePath) (offset : Int)
    (trace : List Call) (s : System L) (w : WebkitFileStreamWriterImpl L)
    (hexec : System.exec env (System.init file_path offset) trace = some s)
    (hwriter : s.writer = some w) :
    (w.local_file_writer_.isSome = true →
      w.pending_write_callback_ = none ∧ w.pending_cancel_callback_ = none) ∧
    (w.pending_write_callback_.isSome = true →
      w.local_file_writer_ = none ∧ w.pending_cancel_callback_ = none) ∧
    (w.pending_cancel_callback_.isSome = true →
      w.local_file_writer_ = none ∧ w.pending_write_callback_ = none) := by
  obtain ⟨hwf0, hpath0, _⟩ := System.init_wellFormed (L := L) file_path offset
  obtain ⟨hwf, _, _, _⟩ := System.exec_invariant env file_path trace _ s hwf0 hpath0 hexec
  simp only [System.WellFormed, hwriter] at hwf
  obtain ⟨hlocal, hpending, _⟩ := hwf
  obtain ⟨fp, off, l, pw, pc⟩ := w
  cases l <;> cases pw <;> cases pc <;> simp_all

/-- Scenario of C27: the state after `Write` and `Cancel` on "doc.txt": only
the cancel callback is set. -/
theorem members_mutually_exclusive_witness :
    ({ (create "doc.txt" 0 : WebkitFileStreamWriterImpl Int) with
      pending_cancel_callback_ := some 8 }).local_file_writer_ = none ∧
    ({ (create "doc.txt" 0 : WebkitFileStreamWriterImpl Int) with
      pending_cancel_callback_ := some 8 }).pending_write_callback_ = none :=
  (members_mutually_exclusive syncEnv "doc.txt" 0
    [Call.Write [65, 66] 2 7, Call.Cancel 8]
    { writer := some { (create "doc.txt" 0 : WebkitFileStreamWriterImpl Int) with
        pending_cancel_callback_ := some 8 },
      in_flight := [([65, 66], 2)],
      log := [Effect.CreateWritableSnapshotFile "doc.txt" [65, 66] 2] }
    ({ (create "doc.txt" 0 : WebkitFileStreamWriterImpl Int) with
      pending_cancel_callback_ := some 8 })
    (by rfl) rfl).2.2 rfl

/-- Counterexample to C28: `Write` with callback 7 and `Cancel` with callback 8
on "doc.txt" are a trace of the caller contract, and so is the same trace
followed by the resolution `PLATFORM_FILE_OK` with an empty local path. When
that resolution arrives the `DCHECK` of line 159 (`!local_path.empty()`) fails:
with `DCHECK`s enabled the handler does not return, while with them compiled
out it releases the snapshot and runs callback 8 with `OK`. -/
theorem handler_DCHECK_fails_on_empty_local_path :
    System.exec syncEnv (System.init "doc.txt" 0)
        [Call.Write [65, 66] 2 7, Call.Cancel 8] =
      some { writer := some { (create "doc.txt" 0 : WebkitFileStreamWriterImpl Int) with
               pending_cancel_callback_ := some 8 },
             in_flight := [([65, 66], 2)],
             log := [Effect.CreateWritableSnapshotFile "doc.txt" [65, 66] 2] } ∧
    System.Permitted
      ({ writer := some { (create "doc.txt" 0 : WebkitFileStreamWriterImpl Int) with
           pending_cancel_callback_ := some 8 },
         in_flight := [([65, 66], 2)],
         log := [Effect.CreateWritableSnapshotFile "doc.txt" [65, 66] 2] } : System Int)
      (Call.Resolve PLATFORM_FILE_OK "") = true ∧
    (System.exec syncEnv (System.init "doc.txt" 0)
        [Call.Write [65, 66] 2 7, Call.Cancel 8, Call.Resolve PLATFORM_FILE_OK ""]).isSome
      = true ∧
    WriteAfterCreateWritableSnapshotFile_DCHECK
      ({ (create "doc.txt" 0 : WebkitFileStreamWriterImpl Int) with
        pending_cancel_callback_ := some 8 }) = true ∧
    WriteAfterCreateWritableSnapshotFile_DCHECK_local_path
      ({ (create "doc.txt" 0 : WebkitFileStreamWriterImpl Int) with
        pending_cancel_callback_ := some 8 }) PLATFORM_FILE_OK "" = false ∧
    WriteAfterCreateWritableSnapshotFile_DCHECK_on syncEnv
      ({ (create "doc.txt" 0 : WebkitFileStreamWriterImpl Int) with
        pending_cancel_callback_ := some 8 }) [65, 66] 2 PLATFORM_FILE_OK "" = none ∧
    WriteAfterCreateWritableSnapshotFile syncEnv
      ({ (create "doc.txt" 0 : WebkitFileStreamWriterImpl Int) with
        pending_cancel_callback_ := some 8 }) [65, 66] 2 PLATFORM_FILE_OK "" =
      some (create "doc.txt" 0, [Effect.CloseFile "doc.txt", Effect.Run 8 OK]) := by
  refine ⟨by rfl, by rfl, by rfl, by rfl, by rfl, by rfl, by rfl⟩

/-- C28, amended. In every state reached under the caller contract from
construction at most one snapshot request is outstanding, and with a live
writer one is outstanding exactly when a write callback or a cancel callback is
pending. Hence whenever a resolution arrives for a live writer, the `DCHECK`s
of the handler on the members hold (lines 150, 153, 167: no local writer,
exactly one pending callback) and the handler is defined. The `DCHECK` of line
159 on the answer of the accessor fails exactly when a cancel callback is
pending and the answer is `PLATFORM_FILE_OK` with an empty local path, which
the caller contract does not exclude: the handler with `DCHECK`s enabled then
does not return, and otherwise it does what the handler without them does. -/
theorem handler_DCHECKs_hold (env : Env L) (file_path : FilePath) (offset : Int)
    (trace : List Call) (s : System L)
    (hexec : System.exec env (System.init file_path offset) trace = some s) :
    s.in_flight.length ≤ 1 ∧
    (∀ w, s.writer = some w →
      (s.in_flight ≠ [] ↔
        (w.pending_write_callback_.isSome = true ∨
          w.pending_cancel_callback_.isSome = true))) ∧
    (∀ w request rest open_result local_path,
      s.writer = some w → s.in_flight = request :: rest →
      rest = [] ∧
      s.Permitted (Call.Resolve open_result local_path) = true ∧
      WriteAfterCreateWritableSnapshotFile_DCHECK w = true ∧
      (WriteAfterCreateWritableSnapshotFile env w request.1 request.2 open_result
        local_path).isSome = true ∧
      (WriteAfterCreateWritableSnapshotFile_DCHECK_local_path w open_result local_path = false ↔
        (w.pending_cancel_callback_.isSome = true ∧ open_result = PLATFORM_FILE_OK ∧
          local_path = "")) ∧
      ((w.pending_cancel_callback_.isSome = true ∧ open_result = PLATFORM_FILE_OK ∧
          local_path = "") →
        WriteAfterCreateWritableSnapshotFile_DCHECK_on env w request.1 request.2 open_result
          local_path = none ∧
        WriteAfterCreateWritableSnapshotFile env w request.1 request.2 open_result local_path =
          (w.pending_cancel_callback_.map fun cancel_callback =>
            ({ w with pending_cancel_callback_ := none },
              [Effect.CloseFile w.file_path_, Effect.Run cancel_callback OK]))) ∧
      (¬ (w.pending_cancel_callback_.isSome = true ∧ open_result = PLATFORM_FILE_OK ∧
          local_path = "") →
        WriteAfterCreateWritableSnapshotFile_DCHECK_on env w request.1 request.2 open_result
          local_path =
        WriteAfterCreateWritableSnapshotFile env w request.1 request.2 open_result
          local_path)) := by
  obtain ⟨hwf0, hpath0, _⟩ := System.init_wellFormed (L := L) file_path offset
  obtain ⟨hwf, _, _, _⟩ := System.exec_invariant env file_path trace _ s hwf0 hpath0 hexec
  obtain ⟨writer, in_flight, log⟩ := s
  cases writer with
  | none =>
    simp only [System.WellFormed] at hwf
    subst hwf
    simp
  | some w =>
    obtain ⟨fp, off, l, pw, pc⟩ := w
    simp only [System.WellFormed] at hwf
    obtain ⟨hlocal, hpending, hlen⟩ := hwf
    refine ⟨?_, ?_, ?_⟩
    · simp only [hlen]
      split <;> simp
    · intro w hw
      simp only [Option.some.injEq] at hw
      subst hw
      cases pw <;> cases pc <;> simp_all [List.length_eq_zero] <;>
        exact List.ne_nil_of_length_pos (by omega)
    · intro w request rest open_result local_path hw hin
      simp only [Option.some.injEq] at hw
      subst hw
      simp only at hin
      subst hin
      by_cases hok : open_result = PLATFORM_FILE_OK <;>
        by_cases hempty : local_path = "" <;>
        cases l <;> cases pw <;> cases pc <;>
        simp_all [WriteAfterCreateWritableSnapshotFile_DCHECK,
          WriteAfterCreateWritableSnapshotFile_DCHECK_local_path,
          WriteAfterCreateWritableSnapshotFile_DCHECK_on,
          WriteAfterCreateWritableSnapshotFile, System.Permitted]

/-- Scenario of amended C28: the state after `Write` and `Cancel` on "doc.txt":
one request is outstanding, the handler's `DCHECK`s on the members hold, and
when the snapshot arrives at "/tmp/x" the handler with `DCHECK`s enabled does
what the handler without them does: it releases the snapshot and runs the
cancel callback 8 with `OK`. -/
theorem handler_DCHECKs_hold_witness :
    ([([65, 66], 2)] : List (IOBuffer × Int)).length ≤ 1 ∧
    WriteAfterCreateWritableSnapshotFile_DCHECK
      ({ (create "doc.txt" 0 : WebkitFileStreamWriterImpl Int) with
        pending_cancel_callback_ := some 8 }) = true ∧
    WriteAfterCreateWritableSnapshotFile_DCHECK_on syncEnv
      ({ (create "doc.txt" 0 : WebkitFileStreamWriterImpl Int) with
        pending_cancel_callback_ := some 8 }) [65, 66] 2 PLATFORM_FILE_OK "/tmp/x" =
      some (create "doc.txt" 0, [Effect.CloseFile "doc.txt", Effect.Run 8 OK]) := by
  have h := handler_DCHECKs_hold syncEnv "doc.txt" 0
    [Call.Write [65, 66] 2 7, Call.Cancel 8]
    { writer := some { (create "doc.txt" 0 : WebkitFileStreamWriterImpl Int) with
        pending_cancel_callback_ := some 8 },
      in_flight := [([65, 66], 2)],
      log := [Effect.CreateWritableSnapshotFile "doc.txt" [65, 66] 2] }
    (by rfl)
  obtain ⟨_, _, _, _, _, _, hsame⟩ :=
    h.2.2 _ ([65, 66], 2) [] PLATFORM_FILE_OK "/tmp/x" rfl rfl
  refine ⟨h.1, (h.2.2 _ ([65, 66], 2) [] PLATFORM_FILE_OK "/tmp/x" rfl rfl).2.2.1, ?_⟩
  rw [hsame (by decide)]
  rfl

end Shape

/-! ## One channel for the outcome of a write -/

section OneChannel

open WebkitFileStreamWriterImpl

variable {L : Type}

/-- One defined step only appends to the log. -/
theorem System.step_log (env : Env L) (s s' : System L) (c : Call)
    (hstep : s.step env c = some s') : ∃ effects, s'.log = s.log ++ effects := by
  cases hw : s.writer with
  | none =>
    cases c with
    | Resolve open_result local_path =>
      cases hin : s.in_flight with
      | nil => simp [System.step, hin] at hstep
      | cons request rest =>
        simp only [System.step, hin, hw, Option.some.injEq] at hstep
        subst hstep
        exact ⟨[], (List.append_nil _).symm⟩
    | _ => simp [System.step, hw] at hstep
  | some w =>
    cases c with
    | Write buf buf_len callback =>
      simp only [System.step, hw, Option.some.injEq] at hstep
      subst hstep
      exact ⟨_, rfl⟩
    | Cancel callback =>
      simp only [System.step, hw, Option.some.injEq] at hstep
      subst hstep
      exact ⟨_, rfl⟩
    | Flush callback =>
      simp only [System.step, hw, Option.some.injEq] at hstep
      subst hstep
      exact ⟨_, rfl⟩
    | Resolve open_result local_path =>
      cases hin : s.in_flight with
      | nil => simp [System.step, hin] at hstep
      | cons request rest =>
        cases hrun : WriteAfterCreateWritableSnapshotFile env w request.1 request.2
            open_result local_path with
        | none => simp [System.step, hin, hw, hrun] at hstep
        | some r =>
          simp only [System.step, hin, hw, hrun, Option.some.injEq] at hstep
          subst hstep
          exact ⟨_, rfl⟩
    | Destroy =>
      simp only [System.step, hw, Option.some.injEq] at hstep
      subst hstep
      exact ⟨_, rfl⟩

/-- A trace that obeys the caller contract only appends to the log. -/
theorem System.exec_log (env : Env L) (trace : List Call) :
    ∀ s s' : System L, System.exec env s trace = some s' →
      ∃ effects, s'.log = s.log ++ effects := by
  induction trace with
  | nil =>
    intro s s' hexec
    simp only [System.exec, Option.some.injEq] at hexec
    subst hexec
    exact ⟨[], (List.append_nil _).symm⟩
  | cons c cs ih =>
    intro s s' hexec
    rw [System.exec_cons] at hexec
    obtain ⟨_, s1, hstep, hrest⟩ := hexec
    obtain ⟨e1, h1⟩ := System.step_log env s s1 c hstep
    obtain ⟨e2, h2⟩ := ih s1 s' hrest
    exact ⟨e1 ++ e2, by rw [h2, h1, List.append_assoc]⟩

/-- A permitted `Write` runs no callback; when it does not return
`ERR_IO_PENDING` it neither stores its callback nor leaves it with the local
writer, and when there is a local writer it does not store its callback. -/
theorem System.Write_step (env : Env L) (s s1 : System L)
    (buf : IOBuffer) (buf_len : Int) (callback : CompletionCallback)
    (hperm : s.Permitted (Call.Write buf buf_len callback) = true)
    (hstep : s.step env (Call.Write buf buf_len callback) = some s1) :
    (∀ effects, s1.log = s.log ++ effects → runsOf effects = []) ∧
    (s.returned env (Call.Write buf buf_len callback) ≠ some ERR_IO_PENDING →
      s1.stored callback = 0 ∧
      (s.handedOver env (Call.Write buf buf_len callback)).count callback = 0) ∧
    (s.held = 1 → s1.stored callback = 0) := by
  obtain ⟨writer, in_flight, log⟩ := s
  cases writer with
  | none => simp [System.Permitted] at hperm
  | some w =>
    obtain ⟨fp, off, l, pw, pc⟩ := w
    have hpw : pw = none := by
      cases pw <;> simp_all [System.Permitted, Write_DCHECK]
    have hpc : pc = none := by
      cases pc <;> simp_all [System.Permitted, Write_DCHECK]
    subst hpw hpc
    by_cases hempty : fp = "" <;> cases l <;>
      simp [System.step, Write, System.record, hempty] at hstep <;>
      subst hstep <;>
      refine ⟨?_, ?_, ?_⟩ <;>
      simp [System.returned, Write, hempty, System.stored, System.handedOver,
        WebkitFileStreamWriterImpl.handedOver, LocalFileStreamWriter.apply, System.held,
        StreamOp.callback]
    all_goals first
      | rfl
      | (intro h
         simp [h])

/-- C29: take a `Write` admitted by the caller contract whose callback is not
passed to any later call. If it returns something other than `ERR_IO_PENDING`,
the writer never runs its callback afterwards and never leaves it with the
local writer to complete. If it is delegated (a local writer exists), the
writer never runs its callback either, whatever it returns. So the writer runs
the callback of a `Write` only if that call returned `ERR_IO_PENDING` and was
not delegated, which is the deferred first write. -/
theorem Write_outcome_single_channel (env : Env L) (s s' : System L) (rest : List Call)
    (buf : IOBuffer) (buf_len : Int) (callback : CompletionCallback)
    (hexec : System.exec env s (Call.Write buf buf_len callback :: rest) = some s')
    (hfresh : callback ∉ callbacksOf rest) :
    ∃ effects, s'.log = s.log ++ effects ∧
      (s.returned env (Call.Write buf buf_len callback) ≠ some ERR_IO_PENDING →
        runCount callback effects = 0 ∧
        (System.handedOverAlong env s (Call.Write buf buf_len callback :: rest)).count
          callback = 0) ∧
      (s.held = 1 → runCount callback effects = 0) ∧
      (0 < runCount callback effects →
        s.returned env (Call.Write buf buf_len callback) = some ERR_IO_PENDING ∧
        s.held ≠ 1) := by
  have hexec' := hexec
  rw [System.exec_cons] at hexec'
  obtain ⟨hperm, s1, hstep, hrest⟩ := hexec'
  obtain ⟨e1, hlog1⟩ := System.step_log env s s1 _ hstep
  obtain ⟨e2, hlog2⟩ := System.exec_log env rest s1 s' hrest
  obtain ⟨hruns, hsync, hdelegated⟩ := System.Write_step env s s1 buf buf_len callback hperm hstep
  have hacc := System.exec_accounts env callback rest s1 s' hrest
  have hcount : (callbacksOf rest).count callback = 0 := List.count_eq_zero_of_not_mem hfresh
  have he1 : runCount callback e1 = 0 := by simp [runCount, hruns e1 hlog1]
  have hlog : s'.log = s.log ++ (e1 ++ e2) := by rw [hlog2, hlog1, List.append_assoc]
  have hbound : runCount callback (e1 ++ e2) +
      (System.handedOverAlong env s1 rest).count callback ≤ s1.stored callback := by
    rw [hlog2, runCount_append] at hacc
    rw [runCount_append, he1]
    omega
  have halong : (System.handedOverAlong env s (Call.Write buf buf_len callback :: rest)).count
      callback = (s.handedOver env (Call.Write buf buf_len callback)).count callback +
        (System.handedOverAlong env s1 rest).count callback := by
    simp [System.handedOverAlong, hstep]
  have hA : s.returned env (Call.Write buf buf_len callback) ≠ some ERR_IO_PENDING →
      runCount callback (e1 ++ e2) = 0 ∧
      (System.handedOverAlong env s (Call.Write buf buf_len callback :: rest)).count
        callback = 0 := by
    intro hret
    obtain ⟨hstored, hhanded⟩ := hsync hret
    constructor
    · omega
    · rw [halong]
      omega
  have hB : s.held = 1 → runCount callback (e1 ++ e2) = 0 := by
    intro hheld
    have hstored := hdelegated hheld
    omega
  refine ⟨e1 ++ e2, hlog, hA, hB, ?_⟩
  intro hpos
  constructor
  · by_contra hret
    have := (hA hret).1
    omega
  · intro hheld
    have := hB hheld
    omega

/-- Scenario of C29, in three parts. The deferred first write: `Write` with
callback 7 on a fresh writer for "doc.txt", then the snapshot arrives at
"/tmp/x" and the synchronous local writer takes the two bytes; the writer runs
callback 7 once, and the call had returned `ERR_IO_PENDING` with no local
writer. A write delegated in `Ready` to the synchronous local writer: `Write`
with callback 9 returns 1, and callback 9 is neither run by the writer nor left
with the local writer, here or in the `Flush` that follows. A write delegated
in `Ready` to the asynchronous local writer: `Write` with callback 9 returns
`ERR_IO_PENDING` and the writer does not run callback 9. -/
theorem Write_outcome_single_channel_witness :
    (System.exec syncEnv (System.init "doc.txt" 0)
        [Call.Write [65, 66] 2 7, Call.Resolve PLATFORM_FILE_OK "/tmp/x"] =
      some { writer := some { (create "doc.txt" 0 : WebkitFileStreamWriterImpl Int) with
               local_file_writer_ := some 2 },
             in_flight := [],
             log := [Effect.CreateWritableSnapshotFile "doc.txt" [65, 66] 2,
               Effect.NewLocalFileStreamWriter "/tmp/x" 0,
               Effect.LocalWrite [65, 66] 2 7, Effect.Run 7 2] } ∧
      runCount 7 [Effect.CreateWritableSnapshotFile "doc.txt" [65, 66] 2,
        Effect.NewLocalFileStreamWriter "/tmp/x" 0,
        Effect.LocalWrite [65, 66] 2 7, Effect.Run 7 2] = 1 ∧
      System.returned syncEnv (System.init "doc.txt" 0) (Call.Write [65, 66] 2 7)
        = some ERR_IO_PENDING ∧
      (System.init "doc.txt" 0 : System Int).held ≠ 1) ∧
    (System.returned syncEnv
        ({ writer := some { (create "doc.txt" 0 : WebkitFileStreamWriterImpl Int) with
             local_file_writer_ := some 2 },
           in_flight := [],
           log := [Effect.CreateWritableSnapshotFile "doc.txt" [65, 66] 2,
             Effect.NewLocalFileStreamWriter "/tmp/x" 0,
             Effect.LocalWrite [65, 66] 2 7, Effect.Run 7 2] } : System Int)
        (Call.Write [67] 1 9) = some 1 ∧
      runCount 9 [Effect.LocalWrite [67] 1 9, Effect.LocalFlush 10] = 0 ∧
      (System.handedOverAlong syncEnv
        ({ writer := some { (create "doc.txt" 0 : WebkitFileStreamWriterImpl Int) with
             local_file_writer_ := some 2 },
           in_flight := [],
           log := [Effect.CreateWritableSnapshotFile "doc.txt" [65, 66] 2,
             Effect.NewLocalFileStreamWriter "/tmp/x" 0,
             Effect.LocalWrite [65, 66] 2 7, Effect.Run 7 2] } : System Int)
        [Call.Write [67] 1 9, Call.Flush 10]).count 9 = 0) ∧
    (System.exec asyncEnv (System.init "doc.txt" 0)
        [Call.Write [65, 66] 2 7, Call.Resolve PLATFORM_FILE_OK "/tmp/x"] =
      some { writer := some { (create "doc.txt" 0 : WebkitFileStreamWriterImpl Int) with
               local_file_writer_ := some 2 },
             in_flight := [],
             log := [Effect.CreateWritableSnapshotFile "doc.txt" [65, 66] 2,
               Effect.NewLocalFileStreamWriter "/tmp/x" 0,
               Effect.LocalWrite [65, 66] 2 7] } ∧
      System.returned asyncEnv
        ({ writer := some { (create "doc.txt" 0 : WebkitFileStreamWriterImpl Int) with
             local_file_writer_ := some 2 },
           in_flight := [],
           log := [Effect.CreateWritableSnapshotFile "doc.txt" [65, 66] 2,
             Effect.NewLocalFileStreamWriter "/tmp/x" 0,
             Effect.LocalWrite [65, 66] 2 7] } : System Int)
        (Call.Write [67] 1 9) = some ERR_IO_PENDING ∧
      System.held
        ({ writer := some { (create "doc.txt" 0 : WebkitFileStreamWriterImpl Int) with
             local_file_writer_ := some 2 },
           in_flight := [],
           log := [Effect.CreateWritableSnapshotFile "doc.txt" [65, 66] 2,
             Effect.NewLocalFileStreamWriter "/tmp/x" 0,
             Effect.LocalWrite [65, 66] 2 7] } : System Int) = 1 ∧
      runCount 9 [Effect.LocalWrite [67] 1 9, Effect.LocalFlush 10] = 0) := by
  refine ⟨?_, ?_, ?_⟩
  · obtain ⟨effects, hlog, _, _, hrun⟩ :=
      Write_outcome_single_channel syncEnv (System.init "doc.txt" 0)
        { writer := some { (create "doc.txt" 0 : WebkitFileStreamWriterImpl Int) with
            local_file_writer_ := some 2 },
          in_flight := [],
          log := [Effect.CreateWritableSnapshotFile "doc.txt" [65, 66] 2,
            Effect.NewLocalFileStreamWriter "/tmp/x" 0,
            Effect.LocalWrite [65, 66] 2 7, Effect.Run 7 2] }
        [Call.Resolve PLATFORM_FILE_OK "/tmp/x"] [65, 66] 2 7 (by rfl) (by decide)
    have he : effects = [Effect.CreateWritableSnapshotFile "doc.txt" [65, 66] 2,
        Effect.NewLocalFileStreamWriter "/tmp/x" 0,
        Effect.LocalWrite [65, 66] 2 7, Effect.Run 7 2] := by
      simpa [System.init] using hlog.symm
    subst he
    exact ⟨by rfl, by decide, hrun (by decide)⟩
  · obtain ⟨effects, hlog, hsync, _, _⟩ :=
      Write_outcome_single_channel syncEnv
        { writer := some { (create "doc.txt" 0 : WebkitFileStreamWriterImpl Int) with
            local_file_writer_ := some 2 },
          in_flight := [],
          log := [Effect.CreateWritableSnapshotFile "doc.txt" [65, 66] 2,
            Effect.NewLocalFileStreamWriter "/tmp/x" 0,
            Effect.LocalWrite [65, 66] 2 7, Effect.Run 7 2] }
        { writer := some { (create "doc.txt" 0 : WebkitFileStreamWriterImpl Int) with
            local_file_writer_ := some 3 },
          in_flight := [],
          log := [Effect.CreateWritableSnapshotFile "doc.txt" [65, 66] 2,
            Effect.NewLocalFileStreamWriter "/tmp/x" 0,
            Effect.LocalWrite [65, 66] 2 7, Effect.Run 7 2,
            Effect.LocalWrite [67] 1 9, Effect.LocalFlush 10] }
        [Call.Flush 10] [67] 1 9 (by rfl) (by decide)
    have he : effects = [Effect.LocalWrite [67] 1 9, Effect.LocalFlush 10] := by
      simpa using hlog.symm
    subst he
    exact ⟨by rfl, hsync (by decide)⟩
  · obtain ⟨effects, hlog, _, hdelegated, _⟩ :=
      Write_outcome_single_channel asyncEnv
        { writer := some { (create "doc.txt" 0 : WebkitFileStreamWriterImpl Int) with
            local_file_writer_ := some 2 },
          in_flight := [],
          log := [Effect.CreateWritableSnapshotFile "doc.txt" [65, 66] 2,
            Effect.NewLocalFileStreamWriter "/tmp/x" 0,
            Effect.LocalWrite [65, 66] 2 7] }
        { writer := some { (create "doc.txt" 0 : WebkitFileStreamWriterImpl Int) with
            local_file_writer_ := some 3 },
          in_flight := [],
          log := [Effect.CreateWritableSnapshotFile "doc.txt" [65, 66] 2,
            Effect.NewLocalFileStreamWriter "/tmp/x" 0,
            Effect.LocalWrite [65, 66] 2 7,
            Effect.LocalWrite [67] 1 9, Effect.LocalFlush 10] }
        [Call.Flush 10] [67] 1 9 (by rfl) (by decide)
    have he : effects = [Effect.LocalWrite [67] 1 9, Effect.LocalFlush 10] := by
      simpa using hlog.symm
    subst he
    exact ⟨by rfl, by rfl, by rfl, hdelegated (by rfl)⟩

end OneChannel

end drive

/-! # Theorems on ChangeProcessor -/

namespace browser_sync

open ChangeProcessor

variable {S : Type}

/-- C30: `Stop` on a processor that is not running calls `StopImpl` zero times
and returns the processor as it was; on a running processor it calls `StopImpl`
exactly once, clears `share_handle_` and sets `running_` to false. Hence a
second `Stop` right after a `Stop` changes nothing and calls nothing, so two
stops have the effect of one. After `Start` the processor is running and holds
the share handle it was given. -/
theorem Stop_idempotent (i : Impl S) (cp : ChangeProcessor S) :
    (cp.running_ = false → Stop i cp = (cp, [])) ∧
    (cp.running_ = true →
      Stop i cp = ({ cp with subclass := i.StopImpl cp, share_handle_ := none,
                             running_ := false }, [ImplCall.StopImpl])) ∧
    ((Stop i cp).1.running_ = false) ∧
    (Stop i (Stop i cp).1 = ((Stop i cp).1, [])) ∧
    ((Stop i cp).2 ++ (Stop i (Stop i cp).1).2 = (Stop i cp).2) ∧
    (∀ profile share_handle,
      (Start i cp profile share_handle).1.running_ = true ∧
      (Start i cp profile share_handle).1.share_handle_ = share_handle ∧
      (Start i cp profile share_handle).2 = [ImplCall.StartImpl profile]) := by
  have hidle : ∀ cp' : ChangeProcessor S, cp'.running_ = false → Stop i cp' = (cp', []) := by
    intro cp' hrun
    simp [Stop, hrun]
  have hstopped : (Stop i cp).1.running_ = false := by
    cases hrun : cp.running_ <;> simp [Stop, hrun]
  have hagain : Stop i (Stop i cp).1 = ((Stop i cp).1, []) := hidle _ hstopped
  refine ⟨?_, ?_, hstopped, hagain, ?_, ?_⟩
  · intro hrun
    simp [Stop, hrun]
  · intro hrun
    simp [Stop, hrun]
  · rw [hagain]
    simp
  · intro profile share_handle
    simp [Start]

/-- Scenario of C30: a running processor with share handle 4 is stopped twice;
a stopped processor is started with share handle 4. -/
theorem Stop_idempotent_witness :
    Stop countingImpl ⟨true, some 1, some 4, (1, 0)⟩ =
      (⟨false, some 1, none, (1, 1)⟩, [ImplCall.StopImpl]) ∧
    Stop countingImpl ⟨false, some 1, none, (1, 1)⟩ = (⟨false, some 1, none, (1, 1)⟩, []) ∧
    (Start countingImpl ⟨false, some 1, none, (0, 0)⟩ (some 2) (some 4)).1 =
      ⟨true, some 1, some 4, (1, 0)⟩ :=
  ⟨(Stop_idempotent countingImpl ⟨true, some 1, some 4, (1, 0)⟩).2.1 rfl,
    (Stop_idempotent countingImpl ⟨false, some 1, none, (1, 1)⟩).1 rfl,
    rfl⟩

end browser_sync
